import Mathlib

/-!
# Cooperative task scheduler (`src/task.c`, `src/task_scheduler.c`)

A shallow embedding of the task scheduler core.  Objects live in explicit
heaps indexed by their address (a natural number); a nullable C pointer is an
`Option`.  Code between two context switches is one function on the state.
Calls that leave the core (user callables, the activator, native context
switches) are recorded in the state's event trace.

`task.c` reaches the fields of the fiber embedded in a task through
`task->fiber.` (`task->fiber.status`, `task->fiber.std`, ...), while
`task_scheduler.c` names the same fields directly (`task->status`,
`task->std`, `next->fiber` for the native context).  The embedding uses one
flat record for both.
-/

namespace Concurrent

/-! ## Data model -/

/-- Address of a `concurrent_task` (or of a plain fiber) object. -/
abbrev TaskId := Nat
/-- Address of a `concurrent_task_scheduler` object. -/
abbrev SchedId := Nat
/-- Address of a `concurrent_deferred` object. -/
abbrev DeferId := Nat
/-- Address of a `concurrent_context` object. -/
abbrev ContextId := Nat
/-- Handle of a native fiber context (`concurrent_fiber_context`). -/
abbrev FiberContext := Nat

/-- Class entries the await logic distinguishes: the two built-in awaitables
and any other class, which may or may not implement the awaitable interface. -/
inductive zend_class_entry where
  | concurrent_task_ce
  | concurrent_deferred_awaitable_ce
  | user (id : Nat) (awaitable : Bool)
  deriving DecidableEq, Repr

/-- Host values.  An object carries its class entry and its handle; for a task
object the handle is the task's address, for a deferred awaitable it is the
address of the deferred it wraps. -/
inductive zval where
  | UNDEF
  | NULL
  | LONG (n : Int)
  | STRING (s : String)
  | OBJECT (ce : zend_class_entry) (handle : Nat)
  deriving DecidableEq, Repr

/-- The fiber status constants `CONCURRENT_FIBER_STATUS_*`. -/
inductive fiber_status where
  | INIT
  | SUSPENDED
  | RUNNING
  | FINISHED
  | DEAD
  deriving DecidableEq, Repr

/-- The operation tags `CONCURRENT_TASK_OPERATION_*` (task.c:34-36). -/
inductive task_operation where
  | NONE
  | START
  | RESUME
  deriving DecidableEq, Repr

/-- The deferred status constants `CONCURRENT_DEFERRED_STATUS_*`. -/
inductive deferred_status where
  | PENDING
  | RESOLVED
  | FAILED
  deriving DecidableEq, Repr

/-- Target of a task's `value` pointer: its own result slot (`&task->result`)
or the `return_value` of the await call it is suspended in. -/
inductive value_ptr where
  | result
  | return_value
  deriving DecidableEq, Repr

/-- The type tag `CONCURRENT_FIBER_TYPE_TASK` (task.c:32). -/
def CONCURRENT_FIBER_TYPE_TASK : Nat := 1

/-- A `concurrent_task` together with its embedded fiber.  A continuation
record is the ordered list of its waiters: every entry registered by the code
in `task.c` carries the callback `concurrent_task_continuation`. -/
structure concurrent_task where
  type : Nat
  status : fiber_status
  fiber : Option FiberContext
  stack : Bool
  stack_size : Nat
  value : Option value_ptr
  refcount : Nat
  fci : Nat
  id : Nat
  operation : task_operation
  next : Option TaskId
  scheduler : Option SchedId
  context : Option ContextId
  result : zval
  error : zval
  continuation : Option (List TaskId)
  return_value : zval
  deriving DecidableEq, Repr

/-- A `concurrent_task_scheduler`.  The width of `scheduled` is declared in a
header that is not part of the sources; it is kept as an exact integer.
`activator_fci` and `adapter_fci` hold the handle of the callable in
`activator_fci.function_name` and `adapter_fci.function_name`; `none` is the
zeroed field. -/
structure concurrent_task_scheduler where
  activator : Bool
  adapter : Bool
  scheduled : Int
  first : Option TaskId
  last : Option TaskId
  current : Option TaskId
  fiber : Option FiberContext
  running : Bool
  activate : Bool
  context : Option ContextId
  activator_fci : Option Nat
  adapter_fci : Option Nat
  deriving DecidableEq, Repr

/-- A `concurrent_deferred`: status, settled value and continuation record. -/
structure concurrent_deferred where
  status : deferred_status
  result : zval
  continuation : Option (List TaskId)
  deriving DecidableEq, Repr

/-- Module globals, `TASK_G(...)`. -/
structure task_globals where
  current_fiber : Option TaskId
  scheduler : Option SchedId
  root : Option FiberContext
  current_context : Option ContextId
  counter : Nat
  stack_size : Nat
  fatal : Option zval
  deriving DecidableEq, Repr

/-- Calls that leave the core. -/
inductive Event where
  | activator_call (s : SchedId)
  | switch_context (source target : Option FiberContext)
  | fiber_yield (t : TaskId)
  | call_function (t : TaskId)
  | run_loop (s : SchedId)
  | fiber_switch_to (t : TaskId)
  | callable_release (t : TaskId)
  | dispose_continuation (t : TaskId)
  | context_release (c : Option ContextId)
  | fiber_destroy (c : Option FiberContext)
  deriving DecidableEq, Repr

/-- The whole state: the three heaps, the globals, the allocator of native
fiber contexts, the trace of external calls (most recent last) and the
reference counts of the callable values, by handle. -/
structure State where
  tasks : TaskId → concurrent_task
  schedulers : SchedId → concurrent_task_scheduler
  deferreds : DeferId → concurrent_deferred
  g : task_globals
  contexts : Nat
  trace : List Event
  callables : Nat → Nat

/-- Store `v` at address `a` of a heap. -/
def heapSet {α : Type} (h : Nat → α) (a : Nat) (v : α) : Nat → α :=
  fun b => if b = a then v else h b

/-- Write a task object back. -/
def State.setTask (st : State) (t : TaskId) (v : concurrent_task) : State :=
  { st with tasks := heapSet st.tasks t v }

/-- Write a scheduler object back. -/
def State.setSched (st : State) (s : SchedId) (v : concurrent_task_scheduler) : State :=
  { st with schedulers := heapSet st.schedulers s v }

/-- Write a deferred object back. -/
def State.setDefer (st : State) (d : DeferId) (v : concurrent_deferred) : State :=
  { st with deferreds := heapSet st.deferreds d v }

/-- Append an external call to the trace. -/
def State.emit (st : State) (e : Event) : State :=
  { st with trace := st.trace ++ [e] }

/-- The macro `GC_ADDREF(&task->std)`: take one reference. -/
def GC_ADDREF (st : State) (t : TaskId) : State :=
  st.setTask t { st.tasks t with refcount := (st.tasks t).refcount + 1 }

/-- The macro `OBJ_RELEASE(&task->std)`: drop one reference.  The destructor that runs
when the count reaches zero is `concurrent_task_object_destroy`. -/
def OBJ_RELEASE (st : State) (t : TaskId) : State :=
  st.setTask t { st.tasks t with refcount := (st.tasks t).refcount - 1 }

/-! ## `concurrent_task_scheduler_enqueue` (task_scheduler.c:35-83) -/

/-- The enqueue operation.  Returns the new state and the `zend_bool` result.
The activator is user code; its invocation is recorded in the trace. -/
def concurrent_task_scheduler_enqueue (st : State) (task : TaskId) : State × Bool :=
  match (st.tasks task).scheduler with
  | none => (st, false)
  | some scheduler =>
    let op : Option task_operation :=
      if (st.tasks task).status = fiber_status.INIT then some task_operation.START
      else if (st.tasks task).status = fiber_status.SUSPENDED then some task_operation.RESUME
      else none
    match op with
    | none => (st, false)
    | some o =>
      let st1 := st.setTask task { st.tasks task with operation := o }
      let st2 :=
        match (st1.schedulers scheduler).last with
        | none =>
          st1.setSched scheduler { st1.schedulers scheduler with first := some task, last := some task }
        | some l =>
          (st1.setTask l { st1.tasks l with next := some task }).setSched scheduler
            { st1.schedulers scheduler with last := some task }
      let st3 := GC_ADDREF st2 task
      let st4 := st3.setSched scheduler
        { st3.schedulers scheduler with scheduled := (st3.schedulers scheduler).scheduled + 1 }
      if (st4.schedulers scheduler).activator && (st4.schedulers scheduler).activate
          && !(st4.schedulers scheduler).running then
        let st5 := st4.setSched scheduler { st4.schedulers scheduler with activate := false }
        (st5.emit (Event.activator_call scheduler), true)
      else
        (st4, true)

/-! ## `concurrent_task_scheduler_suspend` (task_scheduler.c:85-178) -/

/-- The pop at the head of the dispatcher loop (task_scheduler.c:121-130):
unlink `next`, the current head, from the queue. -/
def scheduler_pop (st : State) (scheduler : SchedId) (next : TaskId) : State :=
  let st1 := st.setSched scheduler
    { st.schedulers scheduler with
      first := (st.tasks next).next
      scheduled := (st.schedulers scheduler).scheduled - 1 }
  let st2 :=
    if (st1.schedulers scheduler).last = some next then
      st1.setSched scheduler { st1.schedulers scheduler with last := none }
    else st1
  st2.setTask next { st2.tasks next with next := none }

/-- What one pass of the dispatcher loop does with the task it popped
(task_scheduler.c:132-176).  `none`: the task had operation `NONE`, its queue
reference was released and the loop continues.  `some st`: the task was
started or resumed and the native switch into its fiber was issued. -/
def scheduler_dispatch (st : State) (source : Option FiberContext) (next : TaskId) :
    Option State :=
  if (st.tasks next).operation = task_operation.NONE then none
  else if (st.tasks next).operation = task_operation.START then
    let ctx : FiberContext := st.contexts
    let st1 : State := { st with contexts := st.contexts + 1 }
    let st2 := st1.setTask next
      { st1.tasks next with
        operation := task_operation.NONE
        fiber := some ctx
        stack := true
        status := fiber_status.RUNNING }
    let st3 : State := { st2 with g := { st2.g with current_fiber := some next } }
    some (st3.emit (Event.switch_context source (st3.tasks next).fiber))
  else
    let st1 := st.setTask next
      { st.tasks next with
        operation := task_operation.NONE
        status := fiber_status.RUNNING }
    let st2 : State := { st1 with g := { st1.g with current_fiber := some next } }
    some (st2.emit (Event.switch_context source (st2.tasks next).fiber))

/-- The `while (1)` loop of the dispatcher (task_scheduler.c:110-177), one
unit of fuel per pass.  The result names the fiber that was switched into:
`some t` for task `t`, `none` for the scheduler's own fiber. -/
def suspend_loop (scheduler : SchedId) (source : Option FiberContext) :
    Nat → State → Option (State × Option TaskId)
  | 0, _ => none
  | fuel + 1, st =>
    match (st.schedulers scheduler).first with
    | none =>
      some (st.emit (Event.switch_context source (st.schedulers scheduler).fiber), none)
    | some next =>
      let st1 := scheduler_pop st scheduler next
      match scheduler_dispatch st1 source next with
      | none => suspend_loop scheduler source fuel (OBJ_RELEASE st1 next)
      | some st2 => some (st2, some next)

/-- The dispatcher: release the previous `current`, record the yielding task,
choose the source fiber and enter the loop. -/
def concurrent_task_scheduler_suspend (fuel : Nat) (st : State) (task : Option TaskId)
    (scheduler : SchedId) : Option (State × Option TaskId) :=
  let st1 :=
    match (st.schedulers scheduler).current with
    | some c => OBJ_RELEASE st c
    | none => st
  let st2 := st1.setSched scheduler { st1.schedulers scheduler with current := task }
  let source :=
    match task with
    | none => (st2.schedulers scheduler).fiber
    | some t => (st2.tasks t).fiber
  suspend_loop scheduler source fuel st2

/-! ## `TaskScheduler::count` and `TaskScheduler::run` (task_scheduler.c:268-422) -/

/-- The method `TaskScheduler::count()` (task_scheduler.c:268-277). -/
def TaskScheduler_count (st : State) (scheduler : SchedId) : Int :=
  (st.schedulers scheduler).scheduled

/-- Outcome of `TaskScheduler::run()`: a normal return, or the unrecoverable
error raised by `zend_error_noreturn` when a continuation failed. -/
inductive run_result where
  | returned (st : State)
  | fatal_error (st : State) (exception : zval)

/-- The state carried by a run outcome. -/
def run_result.state : run_result → State
  | run_result.returned st => st
  | run_result.fatal_error st _ => st

/-- Lines 372-390 of `run`: choose the scheduler's fiber, become the current
scheduler, set `running` and clear `activate`. -/
def run_enter (st : State) (scheduler : SchedId) : State :=
  let st1 : State :=
    match st.g.current_fiber with
    | some fiber =>
      st.setSched scheduler { st.schedulers scheduler with fiber := (st.tasks fiber).fiber }
    | none =>
      match st.g.root with
      | some r => st.setSched scheduler { st.schedulers scheduler with fiber := some r }
      | none =>
        let ctx : FiberContext := st.contexts
        let st0 : State := { st with contexts := st.contexts + 1 }
        let st00 := st0.setSched scheduler { st0.schedulers scheduler with fiber := some ctx }
        { st00 with g := { st00.g with root := some ctx } }
  let st2 : State := { st1 with g := { st1.g with scheduler := some scheduler } }
  st2.setSched scheduler { st2.schedulers scheduler with running := true, activate := false }

/-- Lines 398-419 of `run`, executed when the dispatcher has switched back:
`fiber` and `prev` are the locals saved on entry. -/
def run_leave (st : State) (scheduler : SchedId) (fiber : Option TaskId)
    (prev : Option SchedId) : run_result :=
  let st1 : State := { st with g := { st.g with current_fiber := fiber } }
  let st2 :=
    match (st1.schedulers scheduler).current with
    | some c =>
      let st10 := OBJ_RELEASE st1 c
      st10.setSched scheduler { st10.schedulers scheduler with current := none }
    | none => st1
  let st3 := st2.setSched scheduler
    { st2.schedulers scheduler with
      last := none
      fiber := none
      running := false
      activate := true }
  let st4 : State := { st3 with g := { st3.g with scheduler := prev } }
  match st4.g.fatal with
  | some e => run_result.fatal_error { st4 with g := { st4.g with fatal := none } } e
  | none => run_result.returned st4

/-- Modelled from the spec: the fiber entry (`concurrent_fiber_run`) and the
code that gives control back to the dispatcher are not in the sources.
Following §4.5, a task that was switched into runs one slice (the parameter
`slice`: everything its fiber does until it gives up control) and then
re-enters `concurrent_task_scheduler_suspend` as the yielding task.  The
dispatch ends when the loop switches to the scheduler's own fiber. -/
def dispatch (slice : TaskId → State → State) (scheduler : SchedId) :
    Nat → State → Option TaskId → Option State
  | 0, _, _ => none
  | fuel + 1, st, task =>
    match concurrent_task_scheduler_suspend (fuel + 1) st task scheduler with
    | none => none
    | some (st1, none) => some st1
    | some (st1, some next) => dispatch slice scheduler fuel (slice next st1) (some next)

/-- The method `TaskScheduler::run()`.  The result is `none` when the fuel does
not suffice. -/
def TaskScheduler_run (slice : TaskId → State → State) (fuel : Nat) (st : State)
    (scheduler : SchedId) : Option run_result :=
  match (st.schedulers scheduler).first with
  | none => some (run_result.returned st)
  | some _ =>
    let fiber := st.g.current_fiber
    let prev := st.g.scheduler
    match dispatch slice scheduler fuel (run_enter st scheduler) none with
    | none => none
    | some st1 => some (run_leave st1 scheduler fiber prev)

/-! ## Continuations (task.c:87-141) -/

/-- The function `concurrent_task_continuation` (task.c:87-108), the callback a suspended
task registers on the awaitable it waits for.  The `ZEND_ASSERT` on the status
is compiled out of release builds and has no effect here. -/
def concurrent_task_continuation (st : State) (task : TaskId) (result : zval)
    (success : Bool) : State :=
  let st1 :=
    if success then
      match (st.tasks task).value with
      | some value_ptr.result => st.setTask task { st.tasks task with result := result }
      | some value_ptr.return_value =>
        st.setTask task { st.tasks task with return_value := result }
      | none => st
    else st.setTask task { st.tasks task with error := result }
  let st2 := st1.setTask task { st1.tasks task with value := none }
  let st3 := (concurrent_task_scheduler_enqueue st2 task).1
  OBJ_RELEASE st3 task

/-- Modelled from the spec: `concurrent_awaitable_trigger_continuation` is
declared outside the sources.  Per §4.3 it invokes every registered
`(waiter, callback)` pair in registration order with the result and the
success flag, then empties the record; an absent record is left alone. -/
def concurrent_awaitable_trigger_continuation (st : State) (inner : TaskId) (result : zval)
    (success : Bool) : State :=
  match (st.tasks inner).continuation with
  | none => st
  | some waiters =>
    let st1 := waiters.foldl (fun acc w => concurrent_task_continuation acc w result success) st
    st1.setTask inner { st1.tasks inner with continuation := none }

/-- Result of `zend_call_function` on a task's callable: the value written
through `fci.retval`, or the exception left in `EG(exception)`. -/
inductive call_result where
  | returned (v : zval)
  | threw (e : zval)
  deriving DecidableEq, Repr

/-- The collaborators the await logic calls into: `call` runs the user
callable with the given handle (it may change the state in any way), and
`run_loop` is `concurrent_task_scheduler_run_loop`, which is declared outside
the sources. -/
structure Env where
  call : Nat → State → State × call_result
  run_loop : SchedId → State → State

/-- The function `concurrent_task_execute_inline` (task.c:110-141).  The local `success` is
assigned only on the normal path; `uninit` is the indeterminate value it holds
otherwise. -/
def concurrent_task_execute_inline (env : Env) (uninit : Bool) (st : State)
    (inner : TaskId) : State :=
  let st1 := st.setTask inner { st.tasks inner with operation := task_operation.NONE }
  let context := st1.g.current_context
  let st2 : State := { st1 with g := { st1.g with current_context := (st1.tasks inner).context } }
  let st3 := st2.emit (Event.call_function inner)
  let r := env.call (st3.tasks inner).fci st3
  let st4 : State := { r.1 with g := { r.1.g with current_context := context } }
  match r.2 with
  | call_result.threw e =>
    let st5 := st4.setTask inner
      { st4.tasks inner with status := fiber_status.DEAD, result := e }
    concurrent_awaitable_trigger_continuation st5 inner (st5.tasks inner).result uninit
  | call_result.returned v =>
    let st5 := st4.setTask inner
      { st4.tasks inner with result := v, status := fiber_status.FINISHED }
    concurrent_awaitable_trigger_continuation st5 inner (st5.tasks inner).result true

/-! ## `Task::await` (task.c:310-482) -/

/-- The test `instanceof_function_ex(ce, concurrent_awaitable_ce, 1)`: tasks implement
the awaitable interface (task.c:540), and so do deferred awaitables. -/
def instanceof_awaitable : zend_class_entry → Bool
  | zend_class_entry.concurrent_task_ce => true
  | zend_class_entry.concurrent_deferred_awaitable_ce => true
  | zend_class_entry.user _ awaitable => awaitable

/-- How a call of `Task::await` leaves the calling code: with a return value,
with a thrown `Error` carrying a message, with a re-raised exception object,
or by yielding.  A yield keeps the locals `value` and `context` for the second
half of the call.  `fault` is a dereference of a pointer that is null or does
not point to an object of the expected kind (undefined behaviour in C). -/
inductive await_result where
  | returned (v : zval)
  | error (message : String)
  | exception (e : zval)
  | suspended (task : TaskId) (value : Option value_ptr) (context : Option ContextId)
  | fault
  deriving DecidableEq, Repr

/-- Register `task` on a continuation record: create it, or append. -/
def attach_continuation (c : Option (List TaskId)) (task : TaskId) : Option (List TaskId) :=
  match c with
  | none => some [task]
  | some waiters => some (waiters ++ [task])

/-- Lines 451-462 of `await`: pin the task, redirect its value pointer, mark
it suspended and yield.  The host hands every internal call a `return_value`
slot holding `NULL`. -/
def await_suspend (st : State) (task : TaskId) (used_ret : Bool) : State × await_result :=
  let st1 := GC_ADDREF st task
  let value := (st1.tasks task).value
  let st2 := st1.setTask task
    { st1.tasks task with
      return_value := zval.NULL
      value := if used_ret then some value_ptr.return_value else none }
  let st3 := st2.setTask task { st2.tasks task with status := fiber_status.SUSPENDED }
  let context := st3.g.current_context
  ((st3.emit (Event.fiber_yield task)), await_result.suspended task value context)

/-- Lines 328-365 of `await`: the call was made with no current fiber.  Line
331 reads the class entry through the object pointer of `val`
(`ce = Z_OBJCE_P(val)`) before line 333 tests `Z_TYPE_P(val) != IS_OBJECT`; for
a value that is not an object this dereferences something that is not an
object pointer. -/
def await_no_fiber (env : Env) (st : State) (val : zval) : State × await_result :=
  match val with
  | zval.OBJECT ce inner =>
    if ce ≠ zend_class_entry.concurrent_task_ce then
      (st, await_result.error "Only tasks can be waited when no scheduler is running")
    else
      match (st.tasks inner).scheduler with
      | none => (st, await_result.fault)
      | some sched =>
        if (st.schedulers sched).running then
          (st, await_result.error
            "Cannot dispatch tasks because the dispatcher is already running")
        else
          let st1 := env.run_loop sched (st.emit (Event.run_loop sched))
          if (st1.tasks inner).status = fiber_status.FINISHED then
            (st1, await_result.returned (st1.tasks inner).result)
          else if (st1.tasks inner).status = fiber_status.DEAD then
            (st1, await_result.exception (st1.tasks inner).result)
          else (st1, await_result.error "Awaited task did not run to completion")
  | _ => (st, await_result.fault)

/-- Lines 392-424 of `await`: the awaited value is a task object. -/
def await_task (env : Env) (uninit : Bool) (st : State) (task inner : TaskId)
    (used_ret : Bool) : State × await_result :=
  if (st.tasks inner).scheduler ≠ (st.tasks task).scheduler then
    (st, await_result.error "Cannot await a task that runs on a different task scheduler")
  else
    let st1 :=
      if (st.tasks inner).status = fiber_status.INIT then
        if (st.tasks inner).stack_size ≤ (st.tasks task).stack_size then
          concurrent_task_execute_inline env uninit st inner
        else st
      else st
    if (st1.tasks inner).status = fiber_status.FINISHED then
      (st1, await_result.returned (st1.tasks inner).result)
    else if (st1.tasks inner).status = fiber_status.DEAD then
      (st1, await_result.exception (st1.tasks inner).result)
    else
      let st2 := st1.setTask inner
        { st1.tasks inner with
          continuation := attach_continuation (st1.tasks inner).continuation task }
      await_suspend st2 task used_ret

/-- Lines 425-446 of `await`: the awaited value is a deferred awaitable. -/
def await_deferred (st : State) (task : TaskId) (defer : DeferId) (used_ret : Bool) :
    State × await_result :=
  if (st.deferreds defer).status = deferred_status.RESOLVED then
    (st, await_result.returned (st.deferreds defer).result)
  else if (st.deferreds defer).status = deferred_status.FAILED then
    (st, await_result.exception (st.deferreds defer).result)
  else
    let st1 := st.setDefer defer
      { st.deferreds defer with
        continuation := attach_continuation (st.deferreds defer).continuation task }
    await_suspend st1 task used_ret

/-- The method `Task::await(val)` up to the point where it returns, throws or yields.
`used_ret` is `USED_RET()`, `uninit` the indeterminate value of the local
`success` of the inline path. -/
def Task_await (env : Env) (uninit : Bool) (st : State) (val : zval) (used_ret : Bool) :
    State × await_result :=
  match st.g.current_fiber with
  | none => await_no_fiber env st val
  | some fiber =>
    if (st.tasks fiber).type ≠ CONCURRENT_FIBER_TYPE_TASK then
      (st, await_result.error "Await must be called from within a running task")
    else if (st.tasks fiber).status ≠ fiber_status.RUNNING then
      (st, await_result.error "Cannot await in a task that is not running")
    else
      match val with
      | zval.OBJECT ce handle =>
        if instanceof_awaitable ce ≠ true then (st, await_result.returned val)
        else if ce = zend_class_entry.concurrent_task_ce then
          await_task env uninit st fiber handle used_ret
        else if ce = zend_class_entry.concurrent_deferred_awaitable_ce then
          await_deferred st fiber handle used_ret
        else (st, await_result.returned val)
      | _ => (st, await_result.returned val)

/-- Lines 463-481 of `await`: the second half of a call that yielded, run
when the task's fiber is switched into again. -/
def Task_await_resume (st : State) (task : TaskId) (value : Option value_ptr)
    (context : Option ContextId) : State × await_result :=
  let st1 : State := { st with g := { st.g with current_context := context } }
  let st2 := st1.setTask task { st1.tasks task with value := value }
  if (st2.tasks task).status = fiber_status.DEAD then
    (st2, await_result.error "Task has been destroyed")
  else if (st2.tasks task).error ≠ zval.UNDEF then
    let error := (st2.tasks task).error
    (st2.setTask task { st2.tasks task with error := zval.UNDEF }, await_result.exception error)
  else (st2, await_result.returned (st2.tasks task).return_value)

/-! ## The queue as a list -/

/-- The cells reachable from pointer `p` through `next` are exactly the list
`q`, which ends at a null pointer. -/
def lseg (tasks : TaskId → concurrent_task) : Option TaskId → List TaskId → Prop
  | p, [] => p = none
  | p, t :: q => p = some t ∧ lseg tasks (tasks t).next q

instance lsegDecidable (tasks : TaskId → concurrent_task) :
    (p : Option TaskId) → (q : List TaskId) → Decidable (lseg tasks p q)
  | p, [] => by unfold lseg; exact inferInstance
  | p, t :: q => by
    unfold lseg
    exact @instDecidableAnd _ _ _ (lsegDecidable tasks (tasks t).next q)

/-- Scheduler `s` holds exactly the tasks `q`, in this order: `first` leads
through the `next` pointers along `q` to null, `last` is the final element, and
no task occurs twice. -/
structure IsQueue (st : State) (s : SchedId) (q : List TaskId) : Prop where
  chain : lseg st.tasks (st.schedulers s).first q
  last_eq : (st.schedulers s).last = q.getLast?
  nodup : q.Nodup

/-- Queue well-formedness: the pointers describe some list and `scheduled` is
its length. -/
def WellFormed (st : State) (s : SchedId) : Prop :=
  ∃ q : List TaskId, IsQueue st s q ∧ (st.schedulers s).scheduled = q.length

/-- The operation tag enqueue chooses for a status, if it accepts the status
(task_scheduler.c:48-54). -/
def enqueue_operation (status : fiber_status) : Option task_operation :=
  if status = fiber_status.INIT then some task_operation.START
  else if status = fiber_status.SUSPENDED then some task_operation.RESUME
  else none

/-- The activator condition of enqueue (task_scheduler.c:69). -/
def activator_fires (sch : concurrent_task_scheduler) : Bool :=
  sch.activator && sch.activate && !sch.running

/-- One pass of the dispatcher loop (task_scheduler.c:110-177): on an empty
queue the switch to the scheduler's fiber, otherwise the pop of the head
followed by its release, start or resumption. -/
def dispatcher_pass (st : State) (scheduler : SchedId) (source : Option FiberContext) : State :=
  match (st.schedulers scheduler).first with
  | none => st.emit (Event.switch_context source (st.schedulers scheduler).fiber)
  | some next =>
    let st1 := scheduler_pop st scheduler next
    match scheduler_dispatch st1 source next with
    | none => OBJ_RELEASE st1 next
    | some st2 => st2

/-- The constructor `concurrent_task_scheduler_object_create` (task_scheduler.c:181-194): a
zeroed scheduler with `activate` set. -/
def concurrent_task_scheduler_object_create : concurrent_task_scheduler :=
  { activator := false
    adapter := false
    scheduled := 0
    first := none
    last := none
    current := none
    fiber := none
    running := false
    activate := true
    context := none
    activator_fci := none
    adapter_fci := none }

/-- Code that does not touch the queue of scheduler `s`: its `first`, `last`
and `scheduled` fields and every `next` pointer are the same afterwards. -/
def QueueFrame (s : SchedId) (st st2 : State) : Prop :=
  (st2.schedulers s).first = (st.schedulers s).first ∧
  (st2.schedulers s).last = (st.schedulers s).last ∧
  (st2.schedulers s).scheduled = (st.schedulers s).scheduled ∧
  ∀ t, (st2.tasks t).next = (st.tasks t).next

/-- A task may be handed to enqueue on scheduler `s`: it belongs to `s` and is
not queued (its `next` pointer is null and it is not a cell of the queue). -/
def Enqueueable (s : SchedId) (st : State) (task : TaskId) : Prop :=
  (st.tasks task).scheduler = some s ∧ (st.tasks task).next = none ∧
  ∀ q, IsQueue st s q → task ∉ q

/-- The steps of a history of scheduler `s`: an enqueue, one pass of the
dispatcher loop, or any other code (which satisfies `QueueFrame`). -/
inductive QueueStep where
  | enqueue (task : TaskId)
  | pass (source : Option FiberContext)
  | other (f : State → State)

/-- The tasks accepted by enqueue and the tasks popped by the dispatcher, in
the order in which that happened. -/
structure QueueLog where
  enqueued : List TaskId
  popped : List TaskId

/-- Perform one step and log it. -/
def QueueStep.exec (s : SchedId) : QueueStep → State × QueueLog → State × QueueLog
  | QueueStep.enqueue task, (st, log) =>
    let r := concurrent_task_scheduler_enqueue st task
    (r.1, if r.2 then { log with enqueued := log.enqueued ++ [task] } else log)
  | QueueStep.pass source, (st, log) =>
    (dispatcher_pass st s source,
      match (st.schedulers s).first with
      | none => log
      | some next => { log with popped := log.popped ++ [next] })
  | QueueStep.other f, (st, log) => (f st, log)

/-- Perform a history, oldest step first. -/
def execSteps (s : SchedId) (steps : List QueueStep) (init : State × QueueLog) :
    State × QueueLog :=
  steps.foldl (fun acc step => step.exec s acc) init

/-- A step is admissible in a state: enqueue is called on a task of `s` that is
not queued, other code leaves the queue alone. -/
def QueueStep.admissible (s : SchedId) : QueueStep → State → Prop
  | QueueStep.enqueue task, st => Enqueueable s st task
  | QueueStep.pass _, _ => True
  | QueueStep.other f, st => QueueFrame s st (f st)

/-- Every step of a history is admissible in the state it is performed in. -/
def Admissible (s : SchedId) : List QueueStep → State × QueueLog → Prop
  | [], _ => True
  | step :: steps, acc => step.admissible s acc.1 ∧ Admissible s steps (step.exec s acc)

/-- What the code of a task does to the queue of `s` between two context
switches: enqueues of tasks that are not queued, and code that leaves the
queue alone. -/
inductive UserSteps (s : SchedId) : State → State → Prop where
  | refl (st : State) : UserSteps s st st
  | enqueue {st st1 : State} (task : TaskId) :
      UserSteps s st st1 → Enqueueable s st1 task →
      UserSteps s st (concurrent_task_scheduler_enqueue st1 task).1
  | other {st st1 st2 : State} :
      UserSteps s st st1 → QueueFrame s st1 st2 → UserSteps s st st2

/-- The states of scheduler `s` reachable from its creation by enqueue, by
other code that leaves the queue alone, by passes of the dispatcher loop and by
complete calls of `run` whose task slices are `UserSteps`. -/
inductive Reachable (s : SchedId) : State → Prop where
  | fresh (st : State) :
      st.schedulers s = concurrent_task_scheduler_object_create → Reachable s st
  | user {st st2 : State} : Reachable s st → UserSteps s st st2 → Reachable s st2
  | pass {st : State} (source : Option FiberContext) :
      Reachable s st → Reachable s (dispatcher_pass st s source)
  | run {st : State} (slice : TaskId → State → State) (fuel : Nat) (r : run_result) :
      Reachable s st → (∀ t st1, UserSteps s st1 (slice t st1)) →
      TaskScheduler_run slice fuel st s = some r → Reachable s r.state

/-! ## Concrete states -/

/-- An unstarted task of scheduler 0 that is not queued yet: status `INIT`,
one reference, the default stack size of a 64-bit target, zeroed elsewhere. -/
def exampleTask (id : Nat) : concurrent_task :=
  { type := CONCURRENT_FIBER_TYPE_TASK
    status := fiber_status.INIT
    fiber := none
    stack := false
    stack_size := 524288
    value := some value_ptr.result
    refcount := 1
    fci := id
    id := id
    operation := task_operation.NONE
    next := none
    scheduler := some 0
    context := none
    result := zval.NULL
    error := zval.UNDEF
    continuation := none
    return_value := zval.NULL }

/-- A state in which every scheduler is freshly created, every task is an
unstarted task of scheduler 0 and nothing has run yet. -/
def exampleState : State :=
  { tasks := exampleTask
    schedulers := fun _ => concurrent_task_scheduler_object_create
    deferreds := fun _ =>
      { status := deferred_status.PENDING, result := zval.NULL, continuation := none }
    g := { current_fiber := none, scheduler := none, root := none, current_context := none,
           counter := 0, stack_size := 0, fatal := none }
    contexts := 0
    trace := []
    callables := fun _ => 1 }

/-- A task slice that runs the task to completion with result 42. -/
def finishSlice (t : TaskId) (st : State) : State :=
  st.setTask t { st.tasks t with status := fiber_status.FINISHED, result := zval.LONG 42 }

/-- The example state after tasks 1 and 2 have been enqueued. -/
def exampleQueued : State :=
  (concurrent_task_scheduler_enqueue (concurrent_task_scheduler_enqueue exampleState 1).1 2).1


/-- The example state in the middle of a `run`: tasks 1 and 2 were enqueued,
`run` entered the dispatcher, and the dispatcher switched into task 1, which is
now executing its slice while task 2 is still queued. -/
def exampleDispatching : State :=
  match concurrent_task_scheduler_suspend 10 (run_enter exampleQueued 0) none 0 with
  | some (st, _) => st
  | none => exampleQueued

/-- While a `run` dispatches: the scheduler is flagged running, its activate
flag is cleared and it is the thread's current scheduler. -/
def Dispatching (s : SchedId) (st : State) : Prop :=
  (st.schedulers s).running = true ∧ (st.schedulers s).activate = false ∧
  st.g.scheduler = some s


/-- The first external call made between `st` and `st2` is the invocation of
the callable of task `inner`. -/
def InlineCalled (st st2 : State) (inner : TaskId) : Prop :=
  ∃ rest, st2.trace = st.trace ++ Event.call_function inner :: rest

/-- User callables only add to the trace of external calls. -/
def TraceExtending (env : Env) : Prop :=
  ∀ f st, ∃ l, (env.call f st).1.trace = st.trace ++ l

/-- The callable with handle `f` leaves the operation tag and the native
fiber context of task `t` as they are. -/
def CallKeeps (env : Env) (t : TaskId) : Prop :=
  ∀ f st, ((env.call f st).1.tasks t).operation = (st.tasks t).operation ∧
    ((env.call f st).1.tasks t).fiber = (st.tasks t).fiber

/-- The inline fast path condition of `await` (task.c:395-401). -/
def inline_condition (st : State) (task inner : TaskId) : Prop :=
  (st.tasks inner).scheduler = (st.tasks task).scheduler ∧
  (st.tasks inner).status = fiber_status.INIT ∧
  (st.tasks inner).stack_size ≤ (st.tasks task).stack_size

/-- Collaborators for the examples: every callable returns its own handle as
an integer and changes nothing; the run loop does nothing. -/
def exampleEnv : Env :=
  { call := fun f st => (st, call_result.returned (zval.LONG f))
    run_loop := fun _ st => st }


/-! ## Task creation and destruction (task.c:143-207, task_scheduler.c:279-318) -/

/-- The function `concurrent_task_object_create` (task.c:143-175).  `addr` is
the block `emalloc` returns, `pointer_size` is `sizeof(void *)`.  The object is
zeroed, typed as a task in status `INIT` with one reference, gets the next id
and the configured (or default) stack size, a `NULL` result, an undefined
error and a value pointer that designates its own result slot. -/
def concurrent_task_object_create (pointer_size : Nat) (addr : TaskId) (st : State) : State :=
  let id := st.g.counter + 1
  let st1 : State := { st with g := { st.g with counter := id } }
  let stack_size :=
    if st1.g.stack_size = 0 then 4096 * (if pointer_size < 8 then 16 else 128)
    else st1.g.stack_size
  st1.setTask addr
    { type := CONCURRENT_FIBER_TYPE_TASK
      status := fiber_status.INIT
      fiber := none
      stack := false
      stack_size := stack_size
      value := some value_ptr.result
      refcount := 1
      fci := 0
      id := id
      operation := task_operation.NONE
      next := none
      scheduler := none
      context := none
      result := zval.NULL
      error := zval.UNDEF
      continuation := none
      return_value := zval.NULL }

/-- The method `TaskScheduler::task(callback)` (task_scheduler.c:279-318):
create a task for the callable `fci` on this scheduler, in the scheduler's
context, and enqueue it. -/
def TaskScheduler_task (pointer_size : Nat) (addr : TaskId) (fci : Nat) (st : State)
    (scheduler : SchedId) : State :=
  let st1 := concurrent_task_object_create pointer_size addr st
  let st2 := st1.setTask addr { st1.tasks addr with scheduler := some scheduler }
  let st3 := st2.setTask addr { st2.tasks addr with fci := fci }
  let st4 := st3.setTask addr
    { st3.tasks addr with context := (st3.schedulers scheduler).context }
  (concurrent_task_scheduler_enqueue st4 addr).1

/-- The state the destructor hands to the fiber of a suspended task
(task.c:183-186): status `DEAD`, then the switch. -/
def destroy_switch_state (st : State) (task : TaskId) : State :=
  (st.setTask task { st.tasks task with status := fiber_status.DEAD }).emit
    (Event.fiber_switch_to task)

/-- Lines 189-206 of the destructor: release callable and arguments of a task
that never started, dispose the continuation record (the pending attachments
are dropped without being invoked, §4.3), release the context and destroy the
native fiber context. -/
def destroy_finish (st : State) (task : TaskId) : State :=
  let st2 :=
    if (st.tasks task).status = fiber_status.INIT then
      st.emit (Event.callable_release task)
    else st
  let st3 :=
    if (st2.tasks task).continuation ≠ none then
      (st2.setTask task { st2.tasks task with continuation := none }).emit
        (Event.dispose_continuation task)
    else st2
  let st4 := st3.emit (Event.context_release (st3.tasks task).context)
  st4.emit (Event.fiber_destroy (st4.tasks task).fiber)

/-- The destructor `concurrent_task_object_destroy` (task.c:177-207).  `resume`
is what the task's fiber does when it is switched into: the second half of the
await it is suspended in, followed by the unwinding of the task body, until
control comes back. -/
def concurrent_task_object_destroy (resume : TaskId → State → State) (st : State)
    (task : TaskId) : State :=
  let st1 :=
    if (st.tasks task).status = fiber_status.SUSPENDED then
      resume task (destroy_switch_state st task)
    else st
  destroy_finish st1 task

/-- Lines 95-103 of `concurrent_task_continuation`: store the result where the
value pointer designates (on success) or in the error slot (on failure), then
null the value pointer. -/
def continuation_store (st : State) (task : TaskId) (result : zval) (success : Bool) : State :=
  let st1 :=
    if success then
      match (st.tasks task).value with
      | some value_ptr.result => st.setTask task { st.tasks task with result := result }
      | some value_ptr.return_value =>
        st.setTask task { st.tasks task with return_value := result }
      | none => st
    else st.setTask task { st.tasks task with error := result }
  st1.setTask task { st1.tasks task with value := none }

/-! ## Operation tags of queued tasks -/

/-- Code that leaves the queue of `s` alone and, for the tasks of `s`, either
clears the operation tag (as `concurrent_task_execute_inline` does) or leaves
tag and scheduler as they are. -/
def TagFrame (s : SchedId) (st st2 : State) : Prop :=
  QueueFrame s st st2 ∧
  ∀ t, (st2.tasks t).scheduler = some s →
    (st2.tasks t).operation = task_operation.NONE ∨
    ((st2.tasks t).operation = (st.tasks t).operation ∧ (st.tasks t).scheduler = some s)

/-- The queue of `s` is the list `q` and every task of `s` that carries the
tag `START` or `RESUME` is in it. -/
def Tagged (s : SchedId) (st : State) : Prop :=
  ∃ q, IsQueue st s q ∧
    ∀ t, (st.tasks t).scheduler = some s →
      ((st.tasks t).operation = task_operation.START ∨
        (st.tasks t).operation = task_operation.RESUME) → t ∈ q

/-- What the code of a task does between two context switches, as far as queue
and operation tags of `s` are concerned: enqueues of tasks that are not queued,
and code that satisfies `TagFrame`. -/
inductive TagSteps (s : SchedId) : State → State → Prop where
  | refl (st : State) : TagSteps s st st
  | enqueue {st st1 : State} (task : TaskId) :
      TagSteps s st st1 → Enqueueable s st1 task →
      TagSteps s st (concurrent_task_scheduler_enqueue st1 task).1
  | other {st st1 st2 : State} :
      TagSteps s st st1 → TagFrame s st1 st2 → TagSteps s st st2

/-- The states of scheduler `s` reachable from its creation, when no task of
`s` carries a tag yet, by enqueue, by code that satisfies `TagFrame`, by passes
of the dispatcher loop and by complete calls of `run`. -/
inductive TagReachable (s : SchedId) : State → Prop where
  | fresh (st : State) :
      st.schedulers s = concurrent_task_scheduler_object_create →
      (∀ t, (st.tasks t).scheduler = some s → (st.tasks t).operation = task_operation.NONE) →
      TagReachable s st
  | user {st st2 : State} : TagReachable s st → TagSteps s st st2 → TagReachable s st2
  | pass {st : State} (source : Option FiberContext) :
      TagReachable s st → TagReachable s (dispatcher_pass st s source)
  | run {st : State} (slice : TaskId → State → State) (fuel : Nat) (r : run_result) :
      TagReachable s st → (∀ t st1, TagSteps s st1 (slice t st1)) →
      TaskScheduler_run slice fuel st s = some r → TagReachable s r.state

/-! ## More concrete states -/

/-- Enqueue the tasks of a list one after the other. -/
def enqueueAll (st : State) (tasks : List TaskId) : State :=
  tasks.foldl (fun acc t => (concurrent_task_scheduler_enqueue acc t).1) st

/-- A user callable that changes nothing in the state. -/
def PureEnv (env : Env) : Prop :=
  ∀ f st, (env.call f st).1 = st

/-- Collaborators for the examples: every callable raises an exception object
whose handle is the callable's own handle and changes nothing. -/
def throwEnv : Env :=
  { call := fun f st => (st, call_result.threw (zval.OBJECT (zend_class_entry.user 7 false) f))
    run_loop := fun _ st => st }

/-- Set the configured stack size `TASK_G(stack_size)`. -/
def setStackSize (n : Nat) (st : State) : State :=
  { st with g := { st.g with stack_size := n } }

/-- One complete call of the dispatcher on scheduler 0 with ample fuel; the
state after its switch. -/
def stepSuspend (st : State) (task : Option TaskId) : State :=
  match concurrent_task_scheduler_suspend 10 st task 0 with
  | some (st1, _) => st1
  | none => st

/-- Three tasks spawned on scheduler 0 on a 64-bit target: task 1 with the
default stack of 512 KiB, then task 3 with a 2 MiB stack, then task 2 with a
1 MiB stack.  The queue is 1, 3, 2. -/
def exampleSpawned : State :=
  TaskScheduler_task 8 2 2
    (setStackSize 1048576
      (TaskScheduler_task 8 3 3
        (setStackSize 2097152 (TaskScheduler_task 8 1 1 exampleState 0)) 0)) 0

/-- The scenario continues: `run` enters the dispatcher, task 1 is started and
awaits task 2, whose stack is larger than its own, so task 1 suspends on task
2; the dispatcher then starts task 3, which is now running while task 2 is
still queued and unstarted. -/
def exampleAwaiting : State :=
  stepSuspend
    (Task_await exampleEnv false (stepSuspend (run_enter exampleSpawned 0) none)
      (zval.OBJECT zend_class_entry.concurrent_task_ce 2) true).1
    (some 1)


/-- The scenario continues: the running task 3 awaits task 2, which is executed
inline and returns; its waiter, task 1, is queued for resumption. -/
def exampleSettled : State :=
  (Task_await exampleEnv false exampleAwaiting
    (zval.OBJECT zend_class_entry.concurrent_task_ce 2) true).1

/-- The scenario continues: task 3 gives up control, the dispatcher drops the
inlined task 2 and resumes task 1. -/
def exampleResumed : State :=
  stepSuspend exampleSettled (some 3)

/-- The same scenario when the callable of task 2 raises and the local
`success` of the inline path happens to hold `uninit`: the state in which the
dispatcher has resumed task 1. -/
def exampleFailed (uninit : Bool) : State :=
  stepSuspend
    (Task_await throwEnv uninit exampleAwaiting
      (zval.OBJECT zend_class_entry.concurrent_task_ce 2) true).1
    (some 3)


/-- The example state with an activator registered on scheduler 0. -/
def exampleActivator : State :=
  exampleState.setSched 0 { concurrent_task_scheduler_object_create with activator := true }


/-- The state in which `concurrent_task_execute_inline` invokes the callable
of `inner` (task.c:115-122): the operation tag is cleared, the task's context
is current, and the call is the next external call. -/
def inline_call_state (st : State) (inner : TaskId) : State :=
  let st1 := st.setTask inner { st.tasks inner with operation := task_operation.NONE }
  let st2 : State := { st1 with g := { st1.g with current_context := (st1.tasks inner).context } }
  st2.emit (Event.call_function inner)

/-- What the callable of `inner` does when the inline path invokes it. -/
def inline_call (env : Env) (st : State) (inner : TaskId) : State × call_result :=
  env.call ((inline_call_state st inner).tasks inner).fci (inline_call_state st inner)

/-- The waiters registered on the continuation record of a task. -/
def waiters_of (st : State) (t : TaskId) : List TaskId :=
  match (st.tasks t).continuation with
  | none => []
  | some waiters => waiters

/-- The first part of the dispatcher (task_scheduler.c:97-102): release the
previous `current` and record the yielding task. -/
def suspend_entry (st : State) (task : Option TaskId) (scheduler : SchedId) : State :=
  let st1 :=
    match (st.schedulers scheduler).current with
    | some c => OBJ_RELEASE st c
    | none => st
  st1.setSched scheduler { st1.schedulers scheduler with current := task }


/-- The example state after tasks 1 and 2 have been enqueued and one pass of
the dispatcher loop has started task 1. -/
def exampleStarted : State :=
  dispatcher_pass exampleQueued 0 none

/-- The scenario continues: the running task 1 awaits the queued, unstarted task
2, which is executed inline. -/
def exampleInlined : State :=
  (Task_await exampleEnv false exampleStarted
    (zval.OBJECT zend_class_entry.concurrent_task_ce 2) true).1


/-! ## The embedder hooks (task_scheduler.c:320-356) -/

/-- The call `zval_ptr_dtor(&fci.function_name)`: drop one reference of the
callable in the field, if the field holds one. -/
def zval_ptr_dtor (st : State) (function_name : Option Nat) : State :=
  match function_name with
  | none => st
  | some cb => { st with callables := heapSet st.callables cb (st.callables cb - 1) }

/-- The macro `Z_TRY_ADDREF_P(&fci.function_name)`: take one reference of the
callable in the field, if the field holds one. -/
def Z_TRY_ADDREF (st : State) (function_name : Option Nat) : State :=
  match function_name with
  | none => st
  | some cb => { st with callables := heapSet st.callables cb (st.callables cb + 1) }

/-- The method `TaskScheduler::activator(cb)` (task_scheduler.c:320-337) for an
argument that parses as a callable.  `Z_PARAM_FUNC_EX` parses the argument
straight into `scheduler->activator_fci`; the release of the previous callable
and the reference for the new one both go through that field afterwards. -/
def TaskScheduler_activator (st : State) (scheduler : SchedId) (cb : Nat) : State :=
  let st1 := st.setSched scheduler { st.schedulers scheduler with activator_fci := some cb }
  let st2 :=
    if (st1.schedulers scheduler).activator then
      zval_ptr_dtor st1 (st1.schedulers scheduler).activator_fci
    else st1
  let st3 := st2.setSched scheduler { st2.schedulers scheduler with activator := true }
  Z_TRY_ADDREF st3 (st3.schedulers scheduler).activator_fci

/-- The method `TaskScheduler::adapter(cb)` (task_scheduler.c:339-356) for an
argument that parses as a callable; the same steps on the adapter fields. -/
def TaskScheduler_adapter (st : State) (scheduler : SchedId) (cb : Nat) : State :=
  let st1 := st.setSched scheduler { st.schedulers scheduler with adapter_fci := some cb }
  let st2 :=
    if (st1.schedulers scheduler).adapter then
      zval_ptr_dtor st1 (st1.schedulers scheduler).adapter_fci
    else st1
  let st3 := st2.setSched scheduler { st2.schedulers scheduler with adapter := true }
  Z_TRY_ADDREF st3 (st3.schedulers scheduler).adapter_fci

/-- The example state in which the callables 1 and 2 each have two references
(say a variable of the caller and one more holder). -/
def exampleHooks : State :=
  { exampleState with callables := fun _ => 2 }


/-- The fiber the dispatcher switches away from (task_scheduler.c:104-108):
the fiber of the yielding task, or the scheduler's own fiber when `run` calls
the dispatcher. -/
def suspend_source (st : State) (task : Option TaskId) (scheduler : SchedId) :
    Option FiberContext :=
  match task with
  | none => (st.schedulers scheduler).fiber
  | some t => (st.tasks t).fiber

/-- The fiber a call of the dispatcher switched into, given its result. -/
def suspend_target (st st1 : State) (target : Option TaskId) (scheduler : SchedId) :
    Option FiberContext :=
  match target with
  | none => (st.schedulers scheduler).fiber
  | some t => (st1.tasks t).fiber


/-! ## The activator and the flags of a scheduler -/

/-- Code that does not touch the head of the queue of `s` nor the flags
`activator`, `activate` and `running` of `s`. -/
def ActivatorFrame (s : SchedId) (st st2 : State) : Prop :=
  (st2.schedulers s).first = (st.schedulers s).first ∧
  (st2.schedulers s).activator = (st.schedulers s).activator ∧
  (st2.schedulers s).activate = (st.schedulers s).activate ∧
  (st2.schedulers s).running = (st.schedulers s).running

/-- The condition under which enqueue calls the activator can hold only on an
empty queue. -/
def ActivatorGuard (s : SchedId) (st : State) : Prop :=
  (st.schedulers s).activator = true → (st.schedulers s).activate = true →
    (st.schedulers s).running = false → (st.schedulers s).first = none

/-- What code outside the dispatcher does, as far as the activator of `s` is
concerned: enqueues, registrations of the activator at a moment when the
scheduler is running, has its `activate` flag cleared or has an empty queue,
and code that satisfies `ActivatorFrame`. -/
inductive ActivatorSteps (s : SchedId) : State → State → Prop where
  | refl (st : State) : ActivatorSteps s st st
  | enqueue {st st1 : State} (task : TaskId) :
      ActivatorSteps s st st1 →
      ActivatorSteps s st (concurrent_task_scheduler_enqueue st1 task).1
  | hook {st st1 : State} (cb : Nat) :
      ActivatorSteps s st st1 →
      ((st1.schedulers s).activate = true → (st1.schedulers s).running = false →
        (st1.schedulers s).first = none) →
      ActivatorSteps s st (TaskScheduler_activator st1 s cb)
  | other {st st1 st2 : State} :
      ActivatorSteps s st st1 → ActivatorFrame s st1 st2 → ActivatorSteps s st st2

/-- The states of scheduler `s` reachable from its creation by `ActivatorSteps`
and by complete calls of `run` whose task slices are `ActivatorSteps`. -/
inductive ActivatorReachable (s : SchedId) : State → Prop where
  | fresh (st : State) :
      st.schedulers s = concurrent_task_scheduler_object_create → ActivatorReachable s st
  | user {st st2 : State} :
      ActivatorReachable s st → ActivatorSteps s st st2 → ActivatorReachable s st2
  | run {st : State} (slice : TaskId → State → State) (fuel : Nat) (r : run_result) :
      ActivatorReachable s st → (∀ t st1, ActivatorSteps s st1 (slice t st1)) →
      TaskScheduler_run slice fuel st s = some r → ActivatorReachable s r.state

/-- The example state after `task()` has enqueued task 1 on the fresh scheduler
0 and `activator(5)` has then registered a callable. -/
def exampleLateActivator : State :=
  TaskScheduler_activator (concurrent_task_scheduler_enqueue exampleState 1).1 0 5

/-- The example state after `activator(5)` on the fresh scheduler 0. -/
def exampleEarlyActivator : State :=
  TaskScheduler_activator exampleState 0 5


/-! ## Operation tag and status of queued tasks -/

/-- Code that leaves the queue of `s` alone and, for every task, either keeps
operation tag and status, or does what `concurrent_task_execute_inline` does
with a task that has not started (tag cleared; status still `INIT` while the
callable runs, then `FINISHED` or `DEAD`), or works on a task that is not in
the queue. -/
def StatusFrame (s : SchedId) (st st2 : State) : Prop :=
  QueueFrame s st st2 ∧
  ∀ t, ((st2.tasks t).operation = (st.tasks t).operation ∧
      (st2.tasks t).status = (st.tasks t).status) ∨
    ((st.tasks t).status = fiber_status.INIT ∧
      (st2.tasks t).operation = task_operation.NONE ∧
      ((st2.tasks t).status = fiber_status.INIT ∨ (st2.tasks t).status = fiber_status.FINISHED ∨
        (st2.tasks t).status = fiber_status.DEAD)) ∨
    (∀ q, IsQueue st s q → t ∉ q)

/-- The queue of `s` is a list `q` in which a task tagged `START` has status
`INIT`, a task tagged `RESUME` has status `SUSPENDED`, and a task without a tag
has status `INIT`, `FINISHED` or `DEAD`. -/
def Consistent (s : SchedId) (st : State) : Prop :=
  ∃ q, IsQueue st s q ∧
    ∀ t ∈ q,
      ((st.tasks t).operation = task_operation.START → (st.tasks t).status = fiber_status.INIT) ∧
      ((st.tasks t).operation = task_operation.RESUME →
        (st.tasks t).status = fiber_status.SUSPENDED) ∧
      ((st.tasks t).operation = task_operation.NONE →
        (st.tasks t).status = fiber_status.INIT ∨ (st.tasks t).status = fiber_status.FINISHED ∨
          (st.tasks t).status = fiber_status.DEAD)

/-- What the code of a task does between two context switches, as far as the
queue, the operation tags and the statuses are concerned: enqueues of tasks
that are not queued, and code that satisfies `StatusFrame`. -/
inductive StatusSteps (s : SchedId) : State → State → Prop where
  | refl (st : State) : StatusSteps s st st
  | enqueue {st st1 : State} (task : TaskId) :
      StatusSteps s st st1 → Enqueueable s st1 task →
      StatusSteps s st (concurrent_task_scheduler_enqueue st1 task).1
  | other {st st1 st2 : State} :
      StatusSteps s st st1 → StatusFrame s st1 st2 → StatusSteps s st st2

/-- The states of scheduler `s` reachable from its creation by enqueue, by
code that satisfies `StatusFrame`, by passes of the dispatcher loop and by
complete calls of `run`. -/
inductive StatusReachable (s : SchedId) : State → Prop where
  | fresh (st : State) :
      st.schedulers s = concurrent_task_scheduler_object_create → StatusReachable s st
  | user {st st2 : State} : StatusReachable s st → StatusSteps s st st2 → StatusReachable s st2
  | pass {st : State} (source : Option FiberContext) :
      StatusReachable s st → StatusReachable s (dispatcher_pass st s source)
  | run {st : State} (slice : TaskId → State → State) (fuel : Nat) (r : run_result) :
      StatusReachable s st → (∀ t st1, StatusSteps s st1 (slice t st1)) →
      TaskScheduler_run slice fuel st s = some r → StatusReachable s r.state

/-- The scenario of `exampleStarted` continues: the running task 1 awaits the
queued, unstarted task 2; this is the state in which the inline path invokes
the callable of task 2. -/
def exampleInlineCall : State :=
  inline_call_state exampleStarted 2

/-- The scenario continues: the callable of task 2, running on the fiber of
task 1, awaits the pending deferred 0; the state in which the dispatcher is
entered. -/
def exampleInlineAwait : State :=
  (Task_await exampleEnv false exampleInlineCall
    (zval.OBJECT zend_class_entry.concurrent_deferred_awaitable_ce 0) true).1


/-! ## The `activate` flag of an idle scheduler -/

/-- Code that leaves the queue of `s` and the flags `activate` and `running`
of `s` alone. -/
def IdleFrame (s : SchedId) (st st2 : State) : Prop :=
  QueueFrame s st st2 ∧
  (st2.schedulers s).activate = (st.schedulers s).activate ∧
  (st2.schedulers s).running = (st.schedulers s).running

/-- The states of scheduler `s` in the histories in which `run` is never
called while a call of `run` on `s` is in progress.  The flag tells whether a
call is in progress.  Everywhere: enqueues of tasks that are not queued, and
code that satisfies `IdleFrame` (the entry of the dispatcher is such code).
Outside a call: the entry of `run` on a non-empty queue, and complete calls
whose task slices enqueue or leave the queue alone.  Inside a call: passes of
the dispatcher loop, and the exit of `run` on the empty queue.  A task that
calls `run` is not in these histories: `enter` and `run` start outside a
call only. -/
inductive IdleReachable (s : SchedId) : Bool → State → Prop where
  | fresh (st : State) :
      st.schedulers s = concurrent_task_scheduler_object_create → IdleReachable s false st
  | enqueue {b : Bool} {st : State} (task : TaskId) :
      IdleReachable s b st → Enqueueable s st task →
      IdleReachable s b (concurrent_task_scheduler_enqueue st task).1
  | other {b : Bool} {st st2 : State} :
      IdleReachable s b st → IdleFrame s st st2 → IdleReachable s b st2
  | enter {st : State} :
      IdleReachable s false st → (st.schedulers s).first ≠ none →
      IdleReachable s true (run_enter st s)
  | pass {st : State} (source : Option FiberContext) :
      IdleReachable s true st → IdleReachable s true (dispatcher_pass st s source)
  | leave {st : State} (fiber : Option TaskId) (prev : Option SchedId) :
      IdleReachable s true st → (st.schedulers s).first = none →
      IdleReachable s false (run_leave st s fiber prev).state
  | run {st : State} (slice : TaskId → State → State) (fuel : Nat) (r : run_result) :
      IdleReachable s false st → (∀ t st1, UserSteps s st1 (slice t st1)) →
      TaskScheduler_run slice fuel st s = some r → IdleReachable s false r.state

/-- The invariant behind the `activate` flag in those histories: the queue is
well formed, the scheduler is flagged running while a call of `run` is in
progress, and a scheduler that is not flagged running and has `activate`
cleared has a task queued. -/
def IdleInv (s : SchedId) (b : Bool) (st : State) : Prop :=
  WellFormed st s ∧
  (b = true → (st.schedulers s).running = true) ∧
  ((st.schedulers s).running = false → (st.schedulers s).activate = false →
    (st.schedulers s).first ≠ none)

/-- The example with an activator: task 1 was enqueued on scheduler 0, which
called the activator, and a complete `run` has then executed task 1. -/
def exampleAfterRun : State :=
  match TaskScheduler_run finishSlice 10 (concurrent_task_scheduler_enqueue exampleActivator 1).1 0
  with
  | some r => r.state
  | none => exampleActivator

/-- A nested `run`, first part.  `activator(5)` is registered on the fresh
scheduler 0, tasks 1 and 2 are enqueued (the first enqueue calls the
activator), `run` is entered and the dispatcher has started task 1; task 2 is
still queued. -/
def exampleNestedEntry : State :=
  stepSuspend (run_enter (enqueueAll exampleEarlyActivator [1, 2]) 0) none

/-- A nested `run`, second part.  The running task 1 calls `run` on its own
scheduler; the nested call executes task 2 and returns. -/
def exampleNestedRun : State :=
  match TaskScheduler_run finishSlice 10 exampleNestedEntry 0 with
  | some r => r.state
  | none => exampleNestedEntry

/-- A nested `run`, third part.  Task 1 goes on and enqueues task 3. -/
def exampleNestedSpawn : State :=
  (concurrent_task_scheduler_enqueue exampleNestedRun 3).1

/-- A nested `run`, last part.  Task 1 finishes and the dispatcher of the
outer `run`, which is still in progress, pops and starts task 3. -/
def exampleNestedLost : State :=
  stepSuspend (finishSlice 1 exampleNestedSpawn) (some 1)


/-! # Theorems -/

/-! ## Basic facts about the heaps -/

@[simp] theorem heapSet_same {α : Type} (h : Nat → α) (a : Nat) (v : α) :
    heapSet h a v a = v := by
  simp [heapSet]

theorem heapSet_other {α : Type} (h : Nat → α) (a b : Nat) (v : α) (hne : b ≠ a) :
    heapSet h a v b = h b := by
  simp [heapSet, hne]

theorem heapSet_apply {α : Type} (h : Nat → α) (a b : Nat) (v : α) :
    heapSet h a v b = if b = a then v else h b := rfl

@[simp] theorem setTask_tasks (st : State) (t : TaskId) (v : concurrent_task) :
    (st.setTask t v).tasks = heapSet st.tasks t v := rfl
@[simp] theorem setTask_schedulers (st : State) (t : TaskId) (v : concurrent_task) :
    (st.setTask t v).schedulers = st.schedulers := rfl
@[simp] theorem setTask_deferreds (st : State) (t : TaskId) (v : concurrent_task) :
    (st.setTask t v).deferreds = st.deferreds := rfl
@[simp] theorem setTask_g (st : State) (t : TaskId) (v : concurrent_task) :
    (st.setTask t v).g = st.g := rfl
@[simp] theorem setTask_trace (st : State) (t : TaskId) (v : concurrent_task) :
    (st.setTask t v).trace = st.trace := rfl
@[simp] theorem setTask_contexts (st : State) (t : TaskId) (v : concurrent_task) :
    (st.setTask t v).contexts = st.contexts := rfl
@[simp] theorem setSched_tasks (st : State) (s : SchedId) (v : concurrent_task_scheduler) :
    (st.setSched s v).tasks = st.tasks := rfl
@[simp] theorem setSched_schedulers (st : State) (s : SchedId) (v : concurrent_task_scheduler) :
    (st.setSched s v).schedulers = heapSet st.schedulers s v := rfl
@[simp] theorem setSched_deferreds (st : State) (s : SchedId) (v : concurrent_task_scheduler) :
    (st.setSched s v).deferreds = st.deferreds := rfl
@[simp] theorem setSched_g (st : State) (s : SchedId) (v : concurrent_task_scheduler) :
    (st.setSched s v).g = st.g := rfl
@[simp] theorem setSched_trace (st : State) (s : SchedId) (v : concurrent_task_scheduler) :
    (st.setSched s v).trace = st.trace := rfl
@[simp] theorem setSched_contexts (st : State) (s : SchedId) (v : concurrent_task_scheduler) :
    (st.setSched s v).contexts = st.contexts := rfl
@[simp] theorem setDefer_tasks (st : State) (d : DeferId) (v : concurrent_deferred) :
    (st.setDefer d v).tasks = st.tasks := rfl
@[simp] theorem setDefer_schedulers (st : State) (d : DeferId) (v : concurrent_deferred) :
    (st.setDefer d v).schedulers = st.schedulers := rfl
@[simp] theorem setDefer_g (st : State) (d : DeferId) (v : concurrent_deferred) :
    (st.setDefer d v).g = st.g := rfl
@[simp] theorem setDefer_trace (st : State) (d : DeferId) (v : concurrent_deferred) :
    (st.setDefer d v).trace = st.trace := rfl
@[simp] theorem emit_tasks (st : State) (e : Event) : (st.emit e).tasks = st.tasks := rfl
@[simp] theorem emit_schedulers (st : State) (e : Event) :
    (st.emit e).schedulers = st.schedulers := rfl
@[simp] theorem emit_deferreds (st : State) (e : Event) :
    (st.emit e).deferreds = st.deferreds := rfl
@[simp] theorem emit_g (st : State) (e : Event) : (st.emit e).g = st.g := rfl
@[simp] theorem emit_trace (st : State) (e : Event) : (st.emit e).trace = st.trace ++ [e] := rfl
@[simp] theorem emit_contexts (st : State) (e : Event) : (st.emit e).contexts = st.contexts := rfl

/-! ## List segments under heap updates -/

/-- A list segment only depends on the `next` pointers of its own cells. -/
theorem lseg_congr (tasks tasks2 : TaskId → concurrent_task) :
    ∀ (q : List TaskId) (p : Option TaskId),
      (∀ t ∈ q, (tasks2 t).next = (tasks t).next) → lseg tasks p q → lseg tasks2 p q
  | [], _, _, h => h
  | t :: q, p, hq, h => by
    refine ⟨h.1, ?_⟩
    rw [hq t (List.mem_cons_self t q)]
    exact lseg_congr tasks tasks2 q _ (fun a ha => hq a (List.mem_cons_of_mem t ha)) h.2

/-- Linking a new cell behind the final cell `l` of a segment extends the
segment by that cell. -/
theorem lseg_snoc (tasks tasks2 : TaskId → concurrent_task) (l task : TaskId)
    (hl : (tasks2 l).next = some task) (ht : (tasks2 task).next = none)
    (hother : ∀ a, a ≠ l → a ≠ task → (tasks2 a).next = (tasks a).next) :
    ∀ (front : List TaskId) (p : Option TaskId),
      l ∉ front → task ∉ front → lseg tasks p (front ++ [l]) →
      lseg tasks2 p (front ++ [l] ++ [task])
  | [], p, _, _, h => by
    simp only [List.nil_append, List.singleton_append, lseg] at h ⊢
    exact ⟨h.1, by rw [hl], by rw [ht]⟩
  | a :: front, p, hlf, htf, h => by
    simp only [List.cons_append, lseg] at h ⊢
    have hal : a ≠ l := fun e => hlf (e ▸ List.mem_cons_self a front)
    have hat : a ≠ task := fun e => htf (e ▸ List.mem_cons_self a front)
    refine ⟨h.1, ?_⟩
    rw [hother a hal hat]
    have := lseg_snoc tasks tasks2 l task hl ht hother front (tasks a).next
      (fun hm => hlf (List.mem_cons_of_mem a hm)) (fun hm => htf (List.mem_cons_of_mem a hm)) h.2
    simpa using this

/-! ## What an accepted enqueue writes -/

theorem enqueue_result (st : State) (task : TaskId) (s : SchedId) (o : task_operation)
    (hs : (st.tasks task).scheduler = some s)
    (ho : enqueue_operation (st.tasks task).status = some o) :
    (concurrent_task_scheduler_enqueue st task).2 = true := by
  unfold enqueue_operation at ho
  unfold concurrent_task_scheduler_enqueue
  simp only [hs, ho]
  split <;> rfl

theorem enqueue_tasks (st : State) (task : TaskId) (s : SchedId) (o : task_operation)
    (hs : (st.tasks task).scheduler = some s)
    (ho : enqueue_operation (st.tasks task).status = some o) (a : TaskId) :
    (concurrent_task_scheduler_enqueue st task).1.tasks a =
      { st.tasks a with
        operation := if a = task then o else (st.tasks a).operation
        refcount := if a = task then (st.tasks a).refcount + 1 else (st.tasks a).refcount
        next := if (st.schedulers s).last = some a then some task else (st.tasks a).next } := by
  unfold enqueue_operation at ho
  unfold concurrent_task_scheduler_enqueue
  simp only [hs, ho]
  cases hf : activator_fires (st.schedulers s) <;>
  simp only [activator_fires] at hf <;>
  cases hl : (st.schedulers s).last with
  | none =>
    by_cases hat : a = task
    · subst hat
      simp [GC_ADDREF, hl, heapSet_apply, hf, hs]
    · simp [GC_ADDREF, hl, heapSet_apply, hat, hf, hs]
  | some l =>
    by_cases hat : a = task <;> by_cases hal : l = a
    · subst hat; subst hal
      simp [GC_ADDREF, hl, heapSet_apply, hf, hs]
    · subst hat
      have hal2 : a ≠ l := fun e => hal e.symm
      simp [GC_ADDREF, hl, heapSet_apply, hal, hal2, hf, hs]
    · subst hal
      simp [GC_ADDREF, hl, heapSet_apply, hat, hf, hs]
    · have hal2 : a ≠ l := fun e => hal e.symm
      simp [GC_ADDREF, hl, heapSet_apply, hat, hal, hal2, hf, hs]

theorem enqueue_schedulers (st : State) (task : TaskId) (s : SchedId) (o : task_operation)
    (hs : (st.tasks task).scheduler = some s)
    (ho : enqueue_operation (st.tasks task).status = some o) (b : SchedId) :
    (concurrent_task_scheduler_enqueue st task).1.schedulers b =
      if b = s then
        { st.schedulers s with
          first := if (st.schedulers s).last = none then some task else (st.schedulers s).first
          last := some task
          scheduled := (st.schedulers s).scheduled + 1
          activate := if activator_fires (st.schedulers s) then false
            else (st.schedulers s).activate }
      else st.schedulers b := by
  unfold enqueue_operation at ho
  unfold concurrent_task_scheduler_enqueue
  simp only [hs, ho]
  cases hl : (st.schedulers s).last with
  | none =>
    by_cases hb : b = s
    · subst hb
      by_cases hf : activator_fires (st.schedulers b)
      · have hf2 := hf
        simp only [activator_fires] at hf2
        simp [GC_ADDREF, hl, heapSet_apply, hf, hf2]
      · have hf2 := hf
        simp only [activator_fires] at hf2
        simp [GC_ADDREF, hl, heapSet_apply, hf, hf2]
    · split <;> simp [GC_ADDREF, hl, heapSet_apply, hb]
  | some l =>
    by_cases hb : b = s
    · subst hb
      by_cases hf : activator_fires (st.schedulers b)
      · have hf2 := hf
        simp only [activator_fires] at hf2
        simp [GC_ADDREF, hl, heapSet_apply, hf, hf2]
      · have hf2 := hf
        simp only [activator_fires] at hf2
        simp [GC_ADDREF, hl, heapSet_apply, hf, hf2]
    · split <;> simp [GC_ADDREF, hl, heapSet_apply, hb]

theorem enqueue_trace (st : State) (task : TaskId) (s : SchedId) (o : task_operation)
    (hs : (st.tasks task).scheduler = some s)
    (ho : enqueue_operation (st.tasks task).status = some o) :
    (concurrent_task_scheduler_enqueue st task).1.trace =
      if activator_fires (st.schedulers s) then st.trace ++ [Event.activator_call s]
      else st.trace := by
  unfold enqueue_operation at ho
  unfold concurrent_task_scheduler_enqueue
  simp only [hs, ho]
  by_cases hf : activator_fires (st.schedulers s)
  · have hf2 := hf
    simp only [activator_fires] at hf2
    cases hl : (st.schedulers s).last <;> simp [GC_ADDREF, hl, heapSet_apply, hf, hf2]
  · have hf2 := hf
    simp only [activator_fires] at hf2
    cases hl : (st.schedulers s).last <;> simp [GC_ADDREF, hl, heapSet_apply, hf, hf2]

theorem enqueue_rejected_eq (st : State) (task : TaskId)
    (h : (st.tasks task).scheduler = none ∨ enqueue_operation (st.tasks task).status = none) :
    concurrent_task_scheduler_enqueue st task = (st, false) := by
  unfold concurrent_task_scheduler_enqueue
  cases hs : (st.tasks task).scheduler with
  | none => rfl
  | some s =>
    rcases h with h | h
    · rw [hs] at h; cases h
    · unfold enqueue_operation at h
      simp only [h]

theorem scheduler_pop_next (st : State) (s : SchedId) (t a : TaskId) :
    ((scheduler_pop st s t).tasks a).next = if a = t then none else (st.tasks a).next := by
  unfold scheduler_pop
  by_cases hat : a = t
  · subst hat; simp [heapSet_apply]
  · simp only [setTask_tasks, heapSet_apply, if_neg hat]
    split <;> rfl

theorem scheduler_pop_schedulers (st : State) (s : SchedId) (t : TaskId) (b : SchedId) :
    (scheduler_pop st s t).schedulers b =
      if b = s then
        { st.schedulers s with
          first := (st.tasks t).next
          scheduled := (st.schedulers s).scheduled - 1
          last := if (st.schedulers s).last = some t then none else (st.schedulers s).last }
      else st.schedulers b := by
  unfold scheduler_pop
  by_cases hb : b = s
  · subst hb
    by_cases hl : (st.schedulers b).last = some t <;> simp [heapSet_apply, hl]
  · by_cases hl : (st.schedulers s).last = some t <;> simp [heapSet_apply, hl, hb]

theorem scheduler_dispatch_frame (st st2 : State) (source : Option FiberContext) (next : TaskId)
    (h : scheduler_dispatch st source next = some st2) :
    st2.schedulers = st.schedulers ∧ st2.deferreds = st.deferreds ∧
    ∀ a, (st2.tasks a).next = (st.tasks a).next := by
  unfold scheduler_dispatch at h
  split at h
  · cases h
  · split at h
    · cases h
      refine ⟨rfl, rfl, fun a => ?_⟩
      by_cases ha : a = next
      · subst ha; simp [heapSet_apply]
      · simp [heapSet_apply, ha]
    · cases h
      refine ⟨rfl, rfl, fun a => ?_⟩
      by_cases ha : a = next
      · subst ha; simp [heapSet_apply]
      · simp [heapSet_apply, ha]

theorem OBJ_RELEASE_next (st : State) (t a : TaskId) :
    ((OBJ_RELEASE st t).tasks a).next = (st.tasks a).next := by
  unfold OBJ_RELEASE
  by_cases ha : a = t
  · subst ha; simp [heapSet_apply]
  · simp [heapSet_apply, ha]

theorem pass_next (st : State) (s : SchedId) (source : Option FiberContext) (t a : TaskId)
    (hf : (st.schedulers s).first = some t) :
    ((dispatcher_pass st s source).tasks a).next =
      if a = t then none else (st.tasks a).next := by
  unfold dispatcher_pass
  simp only [hf]
  split
  · rw [OBJ_RELEASE_next, scheduler_pop_next]
  · rename_i st2 h
    rw [(scheduler_dispatch_frame _ _ _ _ h).2.2, scheduler_pop_next]

theorem pass_schedulers (st : State) (s : SchedId) (source : Option FiberContext) (t : TaskId)
    (hf : (st.schedulers s).first = some t) (b : SchedId) :
    (dispatcher_pass st s source).schedulers b =
      if b = s then
        { st.schedulers s with
          first := (st.tasks t).next
          scheduled := (st.schedulers s).scheduled - 1
          last := if (st.schedulers s).last = some t then none else (st.schedulers s).last }
      else st.schedulers b := by
  unfold dispatcher_pass
  simp only [hf]
  split
  · show (scheduler_pop st s t).schedulers b = _
    exact scheduler_pop_schedulers st s t b
  · rename_i st2 h
    rw [(scheduler_dispatch_frame _ _ _ _ h).1]
    exact scheduler_pop_schedulers st s t b

theorem pass_empty (st : State) (s : SchedId) (source : Option FiberContext)
    (hf : (st.schedulers s).first = none) :
    dispatcher_pass st s source =
      st.emit (Event.switch_context source (st.schedulers s).fiber) := by
  unfold dispatcher_pass
  simp only [hf]

/-! ## The queue under enqueue, a dispatcher pass and other code -/

theorem lseg_nil_iff (tasks : TaskId → concurrent_task) (p : Option TaskId) :
    lseg tasks p [] ↔ p = none := Iff.rfl

/-- The list a queue holds is determined by the pointers. -/
theorem lseg_unique (tasks : TaskId → concurrent_task) :
    ∀ (q q2 : List TaskId) (p : Option TaskId), lseg tasks p q → lseg tasks p q2 → q = q2
  | [], [], _, _, _ => rfl
  | [], t :: q2, p, h1, h2 => by
    have h1 : p = none := h1
    have h2 := h2.1
    rw [h1] at h2; cases h2
  | t :: q, [], p, h1, h2 => by
    have h2 : p = none := h2
    have h1 := h1.1
    rw [h2] at h1; cases h1
  | t :: q, t2 :: q2, p, h1, h2 => by
    have e : t = t2 := by
      have := h1.1.symm.trans h2.1
      exact Option.some.inj this
    subst e
    rw [lseg_unique tasks q q2 _ h1.2 h2.2]

theorem IsQueue.unique {st : State} {s : SchedId} {q q2 : List TaskId}
    (h : IsQueue st s q) (h2 : IsQueue st s q2) : q = q2 :=
  lseg_unique st.tasks q q2 _ h.chain h2.chain

theorem IsQueue.frame {st st2 : State} {s : SchedId} {q : List TaskId}
    (h : IsQueue st s q) (hf : QueueFrame s st st2) : IsQueue st2 s q := by
  obtain ⟨h1, h2, _, h4⟩ := hf
  refine ⟨?_, ?_, h.nodup⟩
  · rw [h1]
    exact lseg_congr st.tasks st2.tasks q _ (fun t _ => h4 t) h.chain
  · rw [h2]; exact h.last_eq

theorem IsQueue.first_nil {st : State} {s : SchedId} (h : IsQueue st s []) :
    (st.schedulers s).first = none ∧ (st.schedulers s).last = none :=
  ⟨h.chain, h.last_eq⟩

theorem IsQueue.first_cons {st : State} {s : SchedId} {t : TaskId} {q : List TaskId}
    (h : IsQueue st s (t :: q)) : (st.schedulers s).first = some t := h.chain.1

/-- An accepted enqueue of a task that is not queued appends it to the queue. -/
theorem enqueue_isQueue (st : State) (task : TaskId) (s : SchedId) (o : task_operation)
    (q : List TaskId) (hs : (st.tasks task).scheduler = some s)
    (ho : enqueue_operation (st.tasks task).status = some o)
    (hq : IsQueue st s q) (hnq : task ∉ q) (hnext : (st.tasks task).next = none) :
    IsQueue (concurrent_task_scheduler_enqueue st task).1 s (q ++ [task]) := by
  have hT := enqueue_tasks st task s o hs ho
  have hS := enqueue_schedulers st task s o hs ho s
  rw [if_pos rfl] at hS
  refine ⟨?_, ?_, ?_⟩
  · rw [hS]
    rcases List.eq_nil_or_concat q with hnil | ⟨front, l, hql⟩
    · subst hnil
      have hl : (st.schedulers s).last = none := hq.last_eq
      simp only [hl, List.nil_append, lseg, if_true, true_and]
      rw [hT task]
      simp [hl, hnext]
    · rw [List.concat_eq_append] at hql
      subst hql
      have hl : (st.schedulers s).last = some l := by
        rw [hq.last_eq]; simp
      have hnd := hq.nodup
      rw [List.nodup_append] at hnd
      have hlf : l ∉ front := fun hm => hnd.2.2 hm (List.mem_singleton_self l)
      have htf : task ∉ front := fun hm => hnq (List.mem_append_left _ hm)
      have htl : task ≠ l := fun e => hnq (by rw [e]; simp)
      have hfirst : (st.schedulers s).first ≠ none := by
        intro hnone
        have hc := hq.chain
        rw [hnone] at hc
        cases front with
        | nil => exact absurd hc.1 (by simp)
        | cons a front => exact absurd hc.1 (by simp)
      simp only [hl]
      refine lseg_snoc st.tasks _ l task ?_ ?_ ?_ front _ hlf htf ?_
      · rw [hT l]; simp [hl]
      · rw [hT task]
        have : ¬ (some l = some task) := fun e => htl (Option.some.inj e).symm
        simp [hl, hnext, this]
      · intro a hal hat
        rw [hT a]
        have : ¬ (some l = some a) := fun e => hal (Option.some.inj e).symm
        simp [hl, this]
      · simpa using hq.chain
  · rw [hS]; simp
  · rw [List.nodup_append]
    refine ⟨hq.nodup, List.nodup_singleton task, ?_⟩
    intro a ha hb
    rw [List.mem_singleton] at hb
    subst hb
    exact hnq ha

/-- A pass of the dispatcher loop on a non-empty queue removes its head. -/
theorem pass_isQueue (st : State) (s : SchedId) (source : Option FiberContext) (t : TaskId)
    (q : List TaskId) (hq : IsQueue st s (t :: q)) :
    IsQueue (dispatcher_pass st s source) s q := by
  have hf := hq.first_cons
  have hS := pass_schedulers st s source t hf s
  rw [if_pos rfl] at hS
  have hnd := hq.nodup
  rw [List.nodup_cons] at hnd
  refine ⟨?_, ?_, hnd.2⟩
  · rw [hS]
    refine lseg_congr st.tasks _ q _ (fun a ha => ?_) hq.chain.2
    rw [pass_next st s source t a hf]
    have : a ≠ t := fun e => hnd.1 (e ▸ ha)
    simp [this]
  · rw [hS]
    have hl := hq.last_eq
    cases q with
    | nil =>
      simp at hl
      simp [hl]
    | cons b q =>
      rw [List.getLast?_cons_cons] at hl
      have hmem : ∀ l, (b :: q).getLast? = some l → l ≠ t := by
        intro l hl2 e
        subst e
        exact hnd.1 (List.mem_of_getLast?_eq_some hl2)
      cases hg : (b :: q).getLast? with
      | none => simp at hg
      | some l =>
        rw [hg] at hl
        have : ¬ (some l = some t) := fun e => hmem l hg (Option.some.inj e)
        simp [hl, this]

/-! ## Well-formedness is preserved -/

theorem enqueue_accepts_iff (st : State) (task : TaskId) (s : SchedId)
    (hs : (st.tasks task).scheduler = some s) :
    (concurrent_task_scheduler_enqueue st task).2 = true ↔
      ∃ o, enqueue_operation (st.tasks task).status = some o := by
  cases ho : enqueue_operation (st.tasks task).status with
  | none =>
    rw [enqueue_rejected_eq st task (Or.inr ho)]
    simp
  | some o =>
    rw [enqueue_result st task s o hs ho]
    simp

theorem wellFormed_frame {st st2 : State} {s : SchedId} (h : WellFormed st s)
    (hf : QueueFrame s st st2) : WellFormed st2 s := by
  obtain ⟨q, hq, hn⟩ := h
  exact ⟨q, hq.frame hf, by rw [hf.2.2.1]; exact hn⟩

theorem wellFormed_enqueue {st : State} {s : SchedId} (h : WellFormed st s) (task : TaskId)
    (he : Enqueueable s st task) :
    WellFormed (concurrent_task_scheduler_enqueue st task).1 s := by
  obtain ⟨q, hq, hn⟩ := h
  obtain ⟨hs, hnext, hnq⟩ := he
  cases ho : enqueue_operation (st.tasks task).status with
  | none =>
    rw [enqueue_rejected_eq st task (Or.inr ho)]
    exact ⟨q, hq, hn⟩
  | some o =>
    refine ⟨q ++ [task], enqueue_isQueue st task s o q hs ho hq (hnq q hq) hnext, ?_⟩
    rw [enqueue_schedulers st task s o hs ho s, if_pos rfl]
    simp [hn]

theorem wellFormed_pass {st : State} {s : SchedId} (h : WellFormed st s)
    (source : Option FiberContext) : WellFormed (dispatcher_pass st s source) s := by
  obtain ⟨q, hq, hn⟩ := h
  cases q with
  | nil =>
    rw [pass_empty st s source hq.first_nil.1]
    exact ⟨[], ⟨hq.chain, hq.last_eq, hq.nodup⟩, hn⟩
  | cons t q =>
    refine ⟨q, pass_isQueue st s source t q hq, ?_⟩
    rw [pass_schedulers st s source t hq.first_cons s, if_pos rfl]
    simp only [hn, List.length_cons]
    push_cast
    ring

theorem wellFormed_userSteps {st st2 : State} {s : SchedId} (h : WellFormed st s)
    (hu : UserSteps s st st2) : WellFormed st2 s := by
  induction hu with
  | refl => exact h
  | enqueue task _ he ih => exact wellFormed_enqueue ih task he
  | other _ hf ih => exact wellFormed_frame ih hf

theorem dispatcher_pass_of_release (st : State) (s : SchedId) (source : Option FiberContext)
    (next : TaskId) (hf : (st.schedulers s).first = some next)
    (hd : scheduler_dispatch (scheduler_pop st s next) source next = none) :
    dispatcher_pass st s source = OBJ_RELEASE (scheduler_pop st s next) next := by
  unfold dispatcher_pass
  simp only [hf, hd]

theorem dispatcher_pass_of_switch (st st2 : State) (s : SchedId) (source : Option FiberContext)
    (next : TaskId) (hf : (st.schedulers s).first = some next)
    (hd : scheduler_dispatch (scheduler_pop st s next) source next = some st2) :
    dispatcher_pass st s source = st2 := by
  unfold dispatcher_pass
  simp only [hf, hd]

/-- The dispatcher loop keeps the queue well formed, and it switches to the
scheduler's own fiber only on an empty queue. -/
theorem wellFormed_suspend_loop {s : SchedId} (source : Option FiberContext) :
    ∀ (fuel : Nat) (st st1 : State) (target : Option TaskId), WellFormed st s →
      suspend_loop s source fuel st = some (st1, target) →
      WellFormed st1 s ∧ (target = none → (st1.schedulers s).first = none)
  | 0, _, _, _, _, h => by simp [suspend_loop] at h
  | fuel + 1, st, st1, target, hw, h => by
    unfold suspend_loop at h
    cases hf : (st.schedulers s).first with
    | none =>
      simp only [hf] at h
      cases h
      exact ⟨wellFormed_frame hw ⟨rfl, rfl, rfl, fun _ => rfl⟩, fun _ => hf⟩
    | some next =>
      simp only [hf] at h
      cases hd : scheduler_dispatch (scheduler_pop st s next) source next with
      | none =>
        simp only [hd] at h
        have hp := wellFormed_pass hw source
        rw [dispatcher_pass_of_release st s source next hf hd] at hp
        exact wellFormed_suspend_loop source fuel _ st1 target hp h
      | some st2 =>
        simp only [hd] at h
        cases h
        have hp := wellFormed_pass hw source
        rw [dispatcher_pass_of_switch st st1 s source next hf hd] at hp
        exact ⟨hp, fun e => by cases e⟩

theorem OBJ_RELEASE_frame (s : SchedId) (st : State) (t : TaskId) :
    QueueFrame s st (OBJ_RELEASE st t) :=
  ⟨rfl, rfl, rfl, fun a => OBJ_RELEASE_next st t a⟩

theorem QueueFrame.trans {s : SchedId} {st st2 st3 : State} (h : QueueFrame s st st2)
    (h2 : QueueFrame s st2 st3) : QueueFrame s st st3 :=
  ⟨h2.1.trans h.1, h2.2.1.trans h.2.1, h2.2.2.1.trans h.2.2.1,
    fun t => (h2.2.2.2 t).trans (h.2.2.2 t)⟩

theorem QueueFrame.refl (s : SchedId) (st : State) : QueueFrame s st st :=
  ⟨rfl, rfl, rfl, fun _ => rfl⟩

/-- Changing fields of `s` other than `first`, `last` and `scheduled`. -/
theorem setSched_frame (s : SchedId) (st : State) (v : concurrent_task_scheduler)
    (h1 : v.first = (st.schedulers s).first) (h2 : v.last = (st.schedulers s).last)
    (h3 : v.scheduled = (st.schedulers s).scheduled) : QueueFrame s st (st.setSched s v) := by
  refine ⟨?_, ?_, ?_, fun _ => rfl⟩ <;> simp [heapSet_apply, h1, h2, h3]

theorem suspend_entry_frame (s : SchedId) (st : State) (task : Option TaskId) :
    QueueFrame s st
      ((match (st.schedulers s).current with
        | some c => OBJ_RELEASE st c
        | none => st).setSched s
        { (match (st.schedulers s).current with
            | some c => OBJ_RELEASE st c
            | none => st).schedulers s with current := task }) := by
  cases (st.schedulers s).current with
  | none => exact setSched_frame s st _ rfl rfl rfl
  | some c =>
    exact (OBJ_RELEASE_frame s st c).trans (setSched_frame s _ _ rfl rfl rfl)

theorem wellFormed_suspend {s : SchedId} (fuel : Nat) (st st1 : State)
    (task target : Option TaskId) (hw : WellFormed st s)
    (h : concurrent_task_scheduler_suspend fuel st task s = some (st1, target)) :
    WellFormed st1 s ∧ (target = none → (st1.schedulers s).first = none) := by
  unfold concurrent_task_scheduler_suspend at h
  exact wellFormed_suspend_loop _ fuel _ st1 target (wellFormed_frame hw (suspend_entry_frame s st task)) h

theorem wellFormed_dispatch {s : SchedId} (slice : TaskId → State → State)
    (hslice : ∀ t st1, UserSteps s st1 (slice t st1)) :
    ∀ (fuel : Nat) (st st1 : State) (task : Option TaskId), WellFormed st s →
      dispatch slice s fuel st task = some st1 →
      WellFormed st1 s ∧ (st1.schedulers s).first = none
  | 0, _, _, _, _, h => by simp [dispatch] at h
  | fuel + 1, st, st1, task, hw, h => by
    unfold dispatch at h
    cases hs : concurrent_task_scheduler_suspend (fuel + 1) st task s with
    | none => simp [hs] at h
    | some r =>
      obtain ⟨st2, target⟩ := r
      have hw2 := wellFormed_suspend (fuel + 1) st st2 task target hw hs
      cases target with
      | none =>
        simp only [hs] at h
        cases h
        exact ⟨hw2.1, hw2.2 rfl⟩
      | some next =>
        simp only [hs] at h
        exact wellFormed_dispatch slice hslice fuel _ st1 (some next)
          (wellFormed_userSteps hw2.1 (hslice next st2)) h

theorem run_enter_frame (s : SchedId) (st : State) : QueueFrame s st (run_enter st s) := by
  unfold run_enter
  cases st.g.current_fiber with
  | some fiber =>
    refine ⟨?_, ?_, ?_, fun _ => rfl⟩ <;> simp [heapSet_apply]
  | none =>
    cases st.g.root with
    | some r => refine ⟨?_, ?_, ?_, fun _ => rfl⟩ <;> simp [heapSet_apply]
    | none => refine ⟨?_, ?_, ?_, fun _ => rfl⟩ <;> simp [heapSet_apply]

theorem run_leave_frame (s : SchedId) (st : State) (fiber : Option TaskId)
    (prev : Option SchedId) (hl : (st.schedulers s).last = none) :
    QueueFrame s st (run_leave st s fiber prev).state := by
  unfold run_leave
  cases hc : (st.schedulers s).current with
  | none =>
    cases hfat : st.g.fatal with
    | none =>
      simp only [hc, hfat, run_result.state]
      refine ⟨?_, ?_, ?_, fun _ => rfl⟩ <;> simp [heapSet_apply, hl]
    | some e =>
      simp only [hc, hfat, run_result.state]
      refine ⟨?_, ?_, ?_, fun _ => rfl⟩ <;> simp [heapSet_apply, hl]
  | some c =>
    cases hfat : st.g.fatal with
    | none =>
      simp only [hc, hfat, run_result.state, OBJ_RELEASE, setTask_g, setSched_g]
      refine ⟨?_, ?_, ?_, fun a => ?_⟩ <;> simp [heapSet_apply, hl]
      by_cases ha : a = c
      · subst ha; simp
      · simp [ha]
    | some e =>
      simp only [hc, hfat, run_result.state, OBJ_RELEASE, setTask_g, setSched_g]
      refine ⟨?_, ?_, ?_, fun a => ?_⟩ <;> simp [heapSet_apply, hl]
      by_cases ha : a = c
      · subst ha; simp
      · simp [ha]

theorem wellFormed_run {s : SchedId} (slice : TaskId → State → State)
    (hslice : ∀ t st1, UserSteps s st1 (slice t st1)) (fuel : Nat) (st : State)
    (r : run_result) (hw : WellFormed st s) (h : TaskScheduler_run slice fuel st s = some r) :
    WellFormed r.state s := by
  unfold TaskScheduler_run at h
  cases hf : (st.schedulers s).first with
  | none =>
    simp only [hf] at h
    cases h
    exact hw
  | some t =>
    simp only [hf] at h
    cases hd : dispatch slice s fuel (run_enter st s) none with
    | none => simp [hd] at h
    | some st1 =>
      simp only [hd] at h
      cases h
      have hw1 := wellFormed_dispatch slice hslice fuel _ st1 none
        (wellFormed_frame hw (run_enter_frame s st)) hd
      obtain ⟨⟨q, hq, hn⟩, hfirst⟩ := hw1
      have hl : (st1.schedulers s).last = none := by
        cases q with
        | nil => exact hq.first_nil.2
        | cons a q => rw [hq.first_cons] at hfirst; cases hfirst
      exact wellFormed_frame ⟨q, hq, hn⟩ (run_leave_frame s st1 _ _ hl)

theorem Reachable.wellFormed {s : SchedId} {st : State} (h : Reachable s st) :
    WellFormed st s := by
  induction h with
  | fresh st hfresh =>
    refine ⟨[], ⟨?_, ?_, List.nodup_nil⟩, ?_⟩
    · show (st.schedulers s).first = none
      rw [hfresh]; rfl
    · rw [hfresh]; rfl
    · rw [hfresh]; rfl
  | user _ hu ih => exact wellFormed_userSteps ih hu
  | pass source _ ih => exact wellFormed_pass ih source
  | run slice fuel r _ hslice hrun ih => exact wellFormed_run slice hslice fuel _ r ih hrun

theorem enqueueable_of_isQueue {s : SchedId} {st : State} {task : TaskId} (q : List TaskId)
    (hq : IsQueue st s q) (hs : (st.tasks task).scheduler = some s)
    (hnext : (st.tasks task).next = none) (hnq : task ∉ q) : Enqueueable s st task :=
  ⟨hs, hnext, fun q2 hq2 => by rw [← hq.unique hq2]; exact hnq⟩

theorem isQueue_nil_of_first {st : State} {s : SchedId} {q : List TaskId} (hq : IsQueue st s q)
    (hf : (st.schedulers s).first = none) : q = [] := by
  cases q with
  | nil => rfl
  | cons t q => rw [hq.first_cons] at hf; cases hf

theorem isQueue_cons_of_first {st : State} {s : SchedId} {q : List TaskId} {t : TaskId}
    (hq : IsQueue st s q) (hf : (st.schedulers s).first = some t) : ∃ q2, q = t :: q2 := by
  cases q with
  | nil => rw [hq.first_nil.1] at hf; cases hf
  | cons a q =>
    rw [hq.first_cons] at hf
    cases hf
    exact ⟨q, rfl⟩

/-- One admissible step keeps the FIFO relation between the log and the queue. -/
theorem fifo_step (s : SchedId) (step : QueueStep) (acc : State × QueueLog)
    (hadm : step.admissible s acc.1)
    (h : ∃ q, IsQueue acc.1 s q ∧ acc.2.popped ++ q = acc.2.enqueued) :
    ∃ q, IsQueue (step.exec s acc).1 s q ∧
      (step.exec s acc).2.popped ++ q = (step.exec s acc).2.enqueued := by
  obtain ⟨st, log⟩ := acc
  obtain ⟨q, hq, hlog⟩ := h
  cases step with
  | enqueue task =>
    obtain ⟨hs, hnext, hnq⟩ := hadm
    cases ho : enqueue_operation (st.tasks task).status with
    | none =>
      simp only [QueueStep.exec, enqueue_rejected_eq st task (Or.inr ho)]
      exact ⟨q, hq, hlog⟩
    | some o =>
      refine ⟨q ++ [task], ?_, ?_⟩
      · exact enqueue_isQueue st task s o q hs ho hq (hnq q hq) hnext
      · simp only [QueueStep.exec, enqueue_result st task s o hs ho, if_true]
        rw [← List.append_assoc]
        exact congrArg (fun l => l ++ [task]) hlog
  | pass source =>
    cases hf : (st.schedulers s).first with
    | none =>
      have hnil := isQueue_nil_of_first hq hf
      subst hnil
      refine ⟨[], ?_, ?_⟩
      · simp only [QueueStep.exec]
        rw [pass_empty st s source hf]
        exact ⟨hq.chain, hq.last_eq, hq.nodup⟩
      · simp only [QueueStep.exec, hf]
        exact hlog
    | some next =>
      obtain ⟨q2, hq2⟩ := isQueue_cons_of_first hq hf
      subst hq2
      refine ⟨q2, pass_isQueue st s source next q2 hq, ?_⟩
      simp only [QueueStep.exec, hf]
      simpa using hlog
  | other f =>
    exact ⟨q, hq.frame hadm, hlog⟩

theorem fifo_steps (s : SchedId) :
    ∀ (steps : List QueueStep) (acc : State × QueueLog), Admissible s steps acc →
      (∃ q, IsQueue acc.1 s q ∧ acc.2.popped ++ q = acc.2.enqueued) →
      ∃ q, IsQueue (execSteps s steps acc).1 s q ∧
        (execSteps s steps acc).2.popped ++ q = (execSteps s steps acc).2.enqueued
  | [], _, _, h => h
  | step :: steps, acc, hadm, h => by
    have h1 := fifo_step s step acc hadm.1 h
    have h2 := fifo_steps s steps (step.exec s acc) hadm.2 h1
    simpa [execSteps] using h2

/-! ## C1: FIFO dispatch -/

/-- C1.  FIFO dispatch.  Take any history on a scheduler whose queue is empty
at the start: calls of `concurrent_task_scheduler_enqueue` on tasks of that
scheduler that are not queued at the time of the call, passes of the loop of
`concurrent_task_scheduler_suspend`, and other code that leaves the queue
alone.  Then the tasks popped so far followed by the tasks still queued are
exactly the accepted enqueues, in enqueue order.  So the popped sequence is
the enqueue sequence position by position: a task enqueued before another is
popped before it, and a re-enqueued task is popped after all tasks that were
queued ahead of it. -/
theorem fifo_dispatch (s : SchedId) (steps : List QueueStep) (st : State)
    (hempty : IsQueue st s [])
    (hadm : Admissible s steps (st, { enqueued := [], popped := [] })) :
    (∃ q, IsQueue (execSteps s steps (st, { enqueued := [], popped := [] })).1 s q ∧
      (execSteps s steps (st, { enqueued := [], popped := [] })).2.popped ++ q =
        (execSteps s steps (st, { enqueued := [], popped := [] })).2.enqueued) ∧
    ∀ i, i < (execSteps s steps (st, { enqueued := [], popped := [] })).2.popped.length →
      (execSteps s steps (st, { enqueued := [], popped := [] })).2.popped.get? i =
        (execSteps s steps (st, { enqueued := [], popped := [] })).2.enqueued.get? i := by
  have h := fifo_steps s steps (st, { enqueued := [], popped := [] }) hadm ⟨[], hempty, rfl⟩
  refine ⟨h, fun i hi => ?_⟩
  obtain ⟨q, _, hlog⟩ := h
  rw [← hlog, List.get?_eq_getElem?, List.get?_eq_getElem?, List.getElem?_append_left hi]

/-- The history used to exercise C1: enqueue tasks 1 and 2, pop, let the popped
task 1 suspend, re-enqueue it behind task 2, enqueue task 3, pop twice. -/
theorem fifo_dispatch_witness :
    IsQueue exampleState 0 [] ∧
    (execSteps 0
      [QueueStep.enqueue 1, QueueStep.enqueue 2, QueueStep.pass none,
        QueueStep.other (fun st =>
          st.setTask 1 { st.tasks 1 with status := fiber_status.SUSPENDED }),
        QueueStep.enqueue 1, QueueStep.enqueue 3, QueueStep.pass none, QueueStep.pass none]
      (exampleState, { enqueued := [], popped := [] })).2.popped = [1, 2, 1] ∧
    (execSteps 0
      [QueueStep.enqueue 1, QueueStep.enqueue 2, QueueStep.pass none,
        QueueStep.other (fun st =>
          st.setTask 1 { st.tasks 1 with status := fiber_status.SUSPENDED }),
        QueueStep.enqueue 1, QueueStep.enqueue 3, QueueStep.pass none, QueueStep.pass none]
      (exampleState, { enqueued := [], popped := [] })).2.enqueued = [1, 2, 1, 3] ∧
    ∀ i, i < 3 → [1, 2, 1].get? i = [1, 2, 1, 3].get? i := by
  have hq0 : IsQueue exampleState 0 [] := ⟨rfl, rfl, List.nodup_nil⟩
  refine ⟨hq0, by decide, by decide, ?_⟩
  have h := (fifo_dispatch 0
      [QueueStep.enqueue 1, QueueStep.enqueue 2, QueueStep.pass none,
        QueueStep.other (fun st =>
          st.setTask 1 { st.tasks 1 with status := fiber_status.SUSPENDED }),
        QueueStep.enqueue 1, QueueStep.enqueue 3, QueueStep.pass none, QueueStep.pass none]
      exampleState hq0 (by
        refine ⟨?_, ?_, trivial, ?_, ?_, ?_, trivial, trivial, trivial⟩
        · exact enqueueable_of_isQueue [] ⟨by decide, by decide, by decide⟩ (by decide)
            (by decide) (by decide)
        · exact enqueueable_of_isQueue [1] ⟨by decide, by decide, by decide⟩ (by decide)
            (by decide) (by decide)
        · exact ⟨by decide, by decide, by decide, fun t => by
            by_cases ht : t = 1
            · subst ht; decide
            · simp [QueueStep.exec, heapSet_apply, ht]⟩
        · exact enqueueable_of_isQueue [2] ⟨by decide, by decide, by decide⟩ (by decide)
            (by decide) (by decide)
        · exact enqueueable_of_isQueue [2, 1] ⟨by decide, by decide, by decide⟩ (by decide)
            (by decide) (by decide))).2
  exact h

/-! ## C2: successful enqueue -/

/-- C2.  Successful enqueue.  For a task whose scheduler is `s`, whose status
is `INIT` or `SUSPENDED` and which is not queued (its `next` pointer is null
and it is not a cell of the queue `q` of `s`),
`concurrent_task_scheduler_enqueue` returns true, sets the operation to `START`
for `INIT` and to `RESUME` for `SUSPENDED`, makes the queue `q ++ [task]` (the
earlier tasks keep their order in front of it), makes the task `last`, and also
`first` when the queue was empty, adds exactly 1 to `scheduled` and exactly 1
to the task's reference count, and leaves the task's status alone. -/
theorem enqueue_success (st : State) (task : TaskId) (s : SchedId) (q : List TaskId)
    (hs : (st.tasks task).scheduler = some s)
    (hstatus : (st.tasks task).status = fiber_status.INIT ∨
      (st.tasks task).status = fiber_status.SUSPENDED)
    (hq : IsQueue st s q) (hnq : task ∉ q) (hnext : (st.tasks task).next = none) :
    (concurrent_task_scheduler_enqueue st task).2 = true ∧
    ((st.tasks task).status = fiber_status.INIT →
      ((concurrent_task_scheduler_enqueue st task).1.tasks task).operation
        = task_operation.START) ∧
    ((st.tasks task).status = fiber_status.SUSPENDED →
      ((concurrent_task_scheduler_enqueue st task).1.tasks task).operation
        = task_operation.RESUME) ∧
    IsQueue (concurrent_task_scheduler_enqueue st task).1 s (q ++ [task]) ∧
    ((concurrent_task_scheduler_enqueue st task).1.schedulers s).last = some task ∧
    (q = [] → ((concurrent_task_scheduler_enqueue st task).1.schedulers s).first = some task) ∧
    ((concurrent_task_scheduler_enqueue st task).1.schedulers s).scheduled
      = (st.schedulers s).scheduled + 1 ∧
    ((concurrent_task_scheduler_enqueue st task).1.tasks task).refcount
      = (st.tasks task).refcount + 1 ∧
    ((concurrent_task_scheduler_enqueue st task).1.tasks task).status
      = (st.tasks task).status := by
  have ho : ∃ o, enqueue_operation (st.tasks task).status = some o ∧
      ((st.tasks task).status = fiber_status.INIT → o = task_operation.START) ∧
      ((st.tasks task).status = fiber_status.SUSPENDED → o = task_operation.RESUME) := by
    rcases hstatus with h | h
    · exact ⟨task_operation.START, by simp [enqueue_operation, h], fun _ => rfl,
        (fun h2 => by rw [h] at h2; cases h2)⟩
    · exact ⟨task_operation.RESUME, by simp [enqueue_operation, h],
        (fun h2 => by rw [h] at h2; cases h2), fun _ => rfl⟩
  obtain ⟨o, ho, hinit, hsusp⟩ := ho
  have hT := enqueue_tasks st task s o hs ho task
  have hS := enqueue_schedulers st task s o hs ho s
  rw [if_pos rfl] at hS
  refine ⟨enqueue_result st task s o hs ho, ?_, ?_,
    enqueue_isQueue st task s o q hs ho hq hnq hnext, ?_, ?_, ?_, ?_, ?_⟩
  · intro h; rw [hT]; simp [hinit h]
  · intro h; rw [hT]; simp [hsusp h]
  · rw [hS]
  · intro hnil
    subst hnil
    rw [hS]
    simp [hq.first_nil.2]
  · rw [hS]
  · rw [hT]; simp
  · rw [hT]

/-- C2 on the example state: task 3 is enqueued behind tasks 1 and 2. -/
theorem enqueue_success_witness :
    (exampleQueued.tasks 3).scheduler = some 0 ∧
    (exampleQueued.tasks 3).status = fiber_status.INIT ∧
    IsQueue exampleQueued 0 [1, 2] ∧ 3 ∉ [1, 2] ∧ (exampleQueued.tasks 3).next = none ∧
    (concurrent_task_scheduler_enqueue exampleQueued 3).2 = true ∧
    IsQueue (concurrent_task_scheduler_enqueue exampleQueued 3).1 0 [1, 2, 3] ∧
    ((concurrent_task_scheduler_enqueue exampleQueued 3).1.schedulers 0).scheduled = 3 ∧
    ((concurrent_task_scheduler_enqueue exampleQueued 3).1.tasks 3).refcount = 2 := by
  have hq : IsQueue exampleQueued 0 [1, 2] := ⟨by decide, by decide, by decide⟩
  have h := enqueue_success exampleQueued 3 0 [1, 2] (by decide) (Or.inl (by decide)) hq
    (by decide) (by decide)
  exact ⟨by decide, by decide, hq, by decide, by decide, h.1, h.2.2.2.1, h.2.2.2.2.2.2.1,
    h.2.2.2.2.2.2.2.1⟩

/-! ## C3: rejected enqueue -/

/-- C3.  Rejected enqueue is a no-op.  For a task with no scheduler, and for a
task whose status is neither `INIT` nor `SUSPENDED`,
`concurrent_task_scheduler_enqueue` returns false and the state after the call
is the state before it: the task's operation, `next` pointer and reference
count, every field of every scheduler, and the trace of external calls (so the
activator is not invoked and nothing is raised). -/
theorem enqueue_rejected (st : State) (task : TaskId)
    (h : (st.tasks task).scheduler = none ∨
      ((st.tasks task).status ≠ fiber_status.INIT ∧
        (st.tasks task).status ≠ fiber_status.SUSPENDED)) :
    concurrent_task_scheduler_enqueue st task = (st, false) := by
  refine enqueue_rejected_eq st task ?_
  rcases h with h | ⟨h1, h2⟩
  · exact Or.inl h
  · exact Or.inr (by simp [enqueue_operation, h1, h2])

/-- C3 on the example state, for a running task of a scheduler whose activator
is armed. -/
theorem enqueue_rejected_witness :
    (((exampleState.setTask 1
        { exampleTask 1 with status := fiber_status.RUNNING }).setSched 0
        { concurrent_task_scheduler_object_create with activator := true }).tasks 1).status
      ≠ fiber_status.INIT ∧
    (concurrent_task_scheduler_enqueue
      ((exampleState.setTask 1
        { exampleTask 1 with status := fiber_status.RUNNING }).setSched 0
        { concurrent_task_scheduler_object_create with activator := true }) 1).2 = false ∧
    (concurrent_task_scheduler_enqueue
      ((exampleState.setTask 1
        { exampleTask 1 with status := fiber_status.RUNNING }).setSched 0
        { concurrent_task_scheduler_object_create with activator := true }) 1).1.trace = [] := by
  have h := enqueue_rejected
    ((exampleState.setTask 1
        { exampleTask 1 with status := fiber_status.RUNNING }).setSched 0
        { concurrent_task_scheduler_object_create with activator := true }) 1
    (Or.inr ⟨by decide, by decide⟩)
  refine ⟨by decide, ?_, ?_⟩
  · rw [h]
  · rw [h]; rfl

/-! ## C4: queue well-formedness -/

/-- C4.  Queue well-formedness.  In every state of scheduler `s` reachable
from its creation by enqueue (of tasks of `s` that are not queued), by other
code that leaves the queue alone, by passes of the dispatcher loop and by
calls of `run` (whose task slices consist of such enqueues and other code),
`first` is null iff `last` is null iff `scheduled` is 0, the `next` pointers
lead from `first` through a duplicate-free list `q` of tasks that ends in
`last`, and `scheduled`, which is what `TaskScheduler::count()` returns, is the
length of `q`. -/
theorem queue_wellFormed (s : SchedId) (st : State) (h : Reachable s st) :
    (((st.schedulers s).first = none ↔ (st.schedulers s).last = none) ∧
      ((st.schedulers s).last = none ↔ (st.schedulers s).scheduled = 0)) ∧
    ∃ q : List TaskId, IsQueue st s q ∧ (st.schedulers s).scheduled = q.length ∧
      TaskScheduler_count st s = q.length := by
  obtain ⟨q, hq, hn⟩ := Reachable.wellFormed h
  refine ⟨?_, q, hq, hn, hn⟩
  cases q with
  | nil =>
    have h1 := hq.first_nil
    simp [h1.1, h1.2, hn]
  | cons t q =>
    have h1 := hq.first_cons
    have h2 := hq.last_eq
    have h3 : (t :: q).getLast? ≠ none := by simp
    have h4 : (st.schedulers s).last ≠ none := by rw [h2]; exact h3
    have h5 : (st.schedulers s).scheduled ≠ 0 := by
      rw [hn]; simp only [List.length_cons]; push_cast; omega
    simp [h1, h4, h5]

/-- C4 on a state reached by two enqueues and a complete `run`. -/
theorem queue_wellFormed_witness :
    (TaskScheduler_run finishSlice 10 exampleQueued 0).isSome = true ∧
    ∀ r, TaskScheduler_run finishSlice 10 exampleQueued 0 = some r →
      (((r.state.schedulers 0).first = none ↔ (r.state.schedulers 0).last = none) ∧
        ((r.state.schedulers 0).last = none ↔ (r.state.schedulers 0).scheduled = 0)) ∧
      ∃ q : List TaskId, IsQueue r.state 0 q ∧ (r.state.schedulers 0).scheduled = q.length ∧
        TaskScheduler_count r.state 0 = q.length := by
  refine ⟨by decide, fun r hr => ?_⟩
  refine queue_wellFormed 0 r.state ?_
  have h0 : Reachable 0 exampleState := Reachable.fresh exampleState rfl
  have h1 : Reachable 0 exampleQueued := by
    refine Reachable.user h0 ?_
    refine UserSteps.enqueue 2 (UserSteps.enqueue 1 (UserSteps.refl _) ?_) ?_
    · exact enqueueable_of_isQueue [] ⟨by decide, by decide, by decide⟩ (by decide)
        (by decide) (by decide)
    · exact enqueueable_of_isQueue [1] ⟨by decide, by decide, by decide⟩ (by decide)
        (by decide) (by decide)
  refine Reachable.run finishSlice 10 r h1 (fun t st1 => ?_) hr
  refine UserSteps.other (UserSteps.refl st1) ⟨rfl, rfl, rfl, fun a => ?_⟩
  by_cases ha : a = t
  · subst ha; simp [finishSlice, heapSet_apply]
  · simp [finishSlice, heapSet_apply, ha]

/-! ## C5: `run` on a scheduler that is already running -/

/-- C5.  `TaskScheduler::run()` has no guard on the `running` flag.  Called
from the slice of task 1 while the scheduler is dispatching (`running` is true,
`activate` is false, task 2 is queued), it enters the dispatcher again, pops
and runs task 2, and on return has cleared `running` and set `activate`, in
the middle of the outer dispatch. -/
theorem run_nested_enters_dispatcher :
    (exampleDispatching.schedulers 0).running = true ∧
    (exampleDispatching.schedulers 0).activate = false ∧
    (exampleDispatching.schedulers 0).first = some 2 ∧
    (exampleDispatching.schedulers 0).scheduled = 1 ∧
    (exampleDispatching.tasks 2).status = fiber_status.INIT ∧
    exampleDispatching.g.current_fiber = some 1 ∧
    (TaskScheduler_run finishSlice 10 exampleDispatching 0).map
      (fun r => ((r.state.schedulers 0).running, (r.state.schedulers 0).activate,
        (r.state.schedulers 0).first, (r.state.schedulers 0).scheduled,
        (r.state.tasks 2).status, (r.state.schedulers 0).fiber))
      = some (false, true, none, 0, fiber_status.FINISHED, none) := by
  refine ⟨by decide, by decide, by decide, by decide, by decide, by decide, ?_⟩
  rfl

/-! ## C6: `run` on an empty queue -/

/-- C6.  `run()` on an empty queue is a no-op.  When `first` is null,
`TaskScheduler::run()` returns at once and the state after the call is the
state before it: every scheduler field, the thread's current scheduler, current
fiber and root fiber, the allocator of native contexts (no root fiber is
created) and the trace of external calls (no context switch is performed). -/
theorem run_empty (slice : TaskId → State → State) (fuel : Nat) (st : State) (s : SchedId)
    (h : (st.schedulers s).first = none) :
    TaskScheduler_run slice fuel st s = some (run_result.returned st) := by
  unfold TaskScheduler_run
  simp only [h]

/-- C6 on the example state, without any fuel. -/
theorem run_empty_witness :
    (exampleState.schedulers 0).first = none ∧
    (TaskScheduler_run finishSlice 0 exampleState 0).map run_result.state = some exampleState :=
  ⟨rfl, by rw [run_empty finishSlice 0 exampleState 0 rfl]; rfl⟩

/-! ## C7: what `run` sets up and what it restores -/

theorem run_enter_dispatching (st : State) (s : SchedId) : Dispatching s (run_enter st s) := by
  unfold run_enter Dispatching
  cases st.g.current_fiber with
  | some fiber => simp [heapSet_apply]
  | none =>
    cases st.g.root with
    | some r => simp [heapSet_apply]
    | none => simp [heapSet_apply]

theorem run_leave_fields (st : State) (s : SchedId) (fiber : Option TaskId)
    (prev : Option SchedId) :
    ((run_leave st s fiber prev).state.schedulers s).running = false ∧
    ((run_leave st s fiber prev).state.schedulers s).activate = true ∧
    ((run_leave st s fiber prev).state.schedulers s).current = none ∧
    ((run_leave st s fiber prev).state.schedulers s).fiber = none ∧
    (run_leave st s fiber prev).state.g.scheduler = prev ∧
    (run_leave st s fiber prev).state.g.current_fiber = fiber := by
  unfold run_leave
  cases hc : (st.schedulers s).current <;> cases hfat : st.g.fatal <;>
    simp [hc, hfat, run_result.state, OBJ_RELEASE, heapSet_apply]

/-- C8.  Await is the identity on non-awaitables.  Inside a task in status
`RUNNING`, for a value `v` that is not an object or whose class does not
implement the awaitable interface, `Task::await(v)` returns `v` and the state
after the call is the state before it: the task stays `RUNNING`, no
continuation is attached anywhere, reference counts and the value pointer are
unchanged and the trace shows no yield.  Awaiting the returned value again
gives `v` once more. -/
theorem await_non_awaitable (env : Env) (uninit : Bool) (st : State) (v : zval)
    (used_ret : Bool) (task : TaskId) (hf : st.g.current_fiber = some task)
    (ht : (st.tasks task).type = CONCURRENT_FIBER_TYPE_TASK)
    (hs : (st.tasks task).status = fiber_status.RUNNING)
    (hv : ∀ ce h, v = zval.OBJECT ce h → instanceof_awaitable ce = false) :
    Task_await env uninit st v used_ret = (st, await_result.returned v) ∧
    ∀ st1 v1 used2, Task_await env uninit st v used_ret = (st1, await_result.returned v1) →
      Task_await env uninit st1 v1 used2 = (st, await_result.returned v) := by
  have key : ∀ u, Task_await env uninit st v u = (st, await_result.returned v) := by
    intro u
    unfold Task_await
    simp only [hf, ht, hs, ne_eq, not_true_eq_false, if_false]
    cases v with
    | OBJECT ce h => simp [hv ce h rfl]
    | UNDEF => rfl
    | NULL => rfl
    | LONG n => rfl
    | STRING str => rfl
  refine ⟨key used_ret, fun st1 v1 used2 h => ?_⟩
  rw [key used_ret] at h
  cases h
  exact key used2

/-- C8 on the example state, inside the running task 1, for an integer and for
an object of a class that is not awaitable. -/
theorem await_non_awaitable_witness :
    exampleDispatching.g.current_fiber = some 1 ∧
    (exampleDispatching.tasks 1).status = fiber_status.RUNNING ∧
    Task_await exampleEnv false exampleDispatching (zval.LONG 7) true
      = (exampleDispatching, await_result.returned (zval.LONG 7)) ∧
    Task_await exampleEnv false exampleDispatching (zval.OBJECT (zend_class_entry.user 5 false) 9) true
      = (exampleDispatching,
          await_result.returned (zval.OBJECT (zend_class_entry.user 5 false) 9)) :=
  ⟨by decide, by decide,
    (await_non_awaitable _ false exampleDispatching (zval.LONG 7) true 1 (by decide) (by decide)
      (by decide) (fun ce h e => by cases e)).1,
    (await_non_awaitable _ false exampleDispatching
      (zval.OBJECT (zend_class_entry.user 5 false) 9) true 1 (by decide) (by decide)
      (by decide) (fun ce h e => by cases e; rfl)).1⟩

/-! ## C9: await on a task that has settled -/

/-- C9.  Awaiting a settled task does not yield.  Inside a task in status
`RUNNING`, for a task `T` on the same scheduler: if `T` is `FINISHED`,
`Task::await(T)` returns the value in `T`'s result slot; if `T` is `DEAD`, it
re-raises the error stored for `T`, which the code keeps in `T`'s result slot
(task.c:132, 410-414).  In both cases the state after the call is the state
before it: the awaiting task stays `RUNNING`, no continuation is attached to
`T`, reference counts are unchanged and the trace shows no yield. -/
theorem await_settled_task (env : Env) (uninit : Bool) (st : State) (used_ret : Bool)
    (task inner : TaskId) (hf : st.g.current_fiber = some task)
    (ht : (st.tasks task).type = CONCURRENT_FIBER_TYPE_TASK)
    (hs : (st.tasks task).status = fiber_status.RUNNING)
    (hsched : (st.tasks inner).scheduler = (st.tasks task).scheduler) :
    ((st.tasks inner).status = fiber_status.FINISHED →
      Task_await env uninit st (zval.OBJECT zend_class_entry.concurrent_task_ce inner) used_ret
        = (st, await_result.returned (st.tasks inner).result)) ∧
    ((st.tasks inner).status = fiber_status.DEAD →
      Task_await env uninit st (zval.OBJECT zend_class_entry.concurrent_task_ce inner) used_ret
        = (st, await_result.exception (st.tasks inner).result)) := by
  constructor
  · intro hi
    unfold Task_await
    simp only [hf, ht, hs, ne_eq, not_true_eq_false, if_false, instanceof_awaitable, if_true]
    unfold await_task
    simp [hsched, hi]
  · intro hi
    unfold Task_await
    simp only [hf, ht, hs, ne_eq, not_true_eq_false, if_false, instanceof_awaitable, if_true]
    unfold await_task
    simp [hsched, hi]

/-- C9 on the example state: task 1, running, awaits task 2 after task 2 has
finished with 42, and after task 2 has died with an exception object. -/
theorem await_settled_task_witness :
    Task_await exampleEnv false (finishSlice 2 exampleDispatching)
      (zval.OBJECT zend_class_entry.concurrent_task_ce 2) true
      = (finishSlice 2 exampleDispatching, await_result.returned (zval.LONG 42)) ∧
    Task_await exampleEnv false
      (exampleDispatching.setTask 2
        { exampleDispatching.tasks 2 with
          status := fiber_status.DEAD
          result := zval.OBJECT (zend_class_entry.user 7 false) 3 })
      (zval.OBJECT zend_class_entry.concurrent_task_ce 2) true
      = (exampleDispatching.setTask 2
          { exampleDispatching.tasks 2 with
            status := fiber_status.DEAD
            result := zval.OBJECT (zend_class_entry.user 7 false) 3 },
        await_result.exception (zval.OBJECT (zend_class_entry.user 7 false) 3)) :=
  ⟨(await_settled_task _ false (finishSlice 2 exampleDispatching) true 1 2 (by decide)
      (by decide) (by decide) (by decide)).1 (by decide),
    (await_settled_task _ false
      (exampleDispatching.setTask 2
        { exampleDispatching.tasks 2 with
          status := fiber_status.DEAD
          result := zval.OBJECT (zend_class_entry.user 7 false) 3 }) true 1 2 (by decide)
      (by decide) (by decide) (by decide)).2 (by decide)⟩

/-! ## Continuations leave status, fiber and (for settled tasks) operation alone -/

theorem enqueue_keeps (st : State) (task a : TaskId) :
    ((concurrent_task_scheduler_enqueue st task).1.tasks a).status = (st.tasks a).status ∧
    ((concurrent_task_scheduler_enqueue st task).1.tasks a).fiber = (st.tasks a).fiber ∧
    ((concurrent_task_scheduler_enqueue st task).1.tasks a).result = (st.tasks a).result ∧
    (enqueue_operation (st.tasks a).status = none →
      ((concurrent_task_scheduler_enqueue st task).1.tasks a).operation
        = (st.tasks a).operation) := by
  cases hs : (st.tasks task).scheduler with
  | none =>
    rw [enqueue_rejected_eq st task (Or.inl hs)]
    exact ⟨rfl, rfl, rfl, fun _ => rfl⟩
  | some s =>
    cases ho : enqueue_operation (st.tasks task).status with
    | none =>
      rw [enqueue_rejected_eq st task (Or.inr ho)]
      exact ⟨rfl, rfl, rfl, fun _ => rfl⟩
    | some o =>
      rw [enqueue_tasks st task s o hs ho a]
      refine ⟨rfl, rfl, rfl, fun hn => ?_⟩
      by_cases hat : a = task
      · subst hat; rw [ho] at hn; cases hn
      · simp [hat]

theorem enqueue_trace_extends (st : State) (task : TaskId) :
    ∃ l, (concurrent_task_scheduler_enqueue st task).1.trace = st.trace ++ l := by
  cases hs : (st.tasks task).scheduler with
  | none =>
    rw [enqueue_rejected_eq st task (Or.inl hs)]
    exact ⟨[], by simp⟩
  | some s =>
    cases ho : enqueue_operation (st.tasks task).status with
    | none =>
      rw [enqueue_rejected_eq st task (Or.inr ho)]
      exact ⟨[], by simp⟩
    | some o =>
      rw [enqueue_trace st task s o hs ho]
      split
      · exact ⟨_, rfl⟩
      · exact ⟨[], by simp⟩

/-- The state `concurrent_task_continuation` hands to enqueue. -/
theorem continuation_eq (st : State) (w : TaskId) (result : zval) (success : Bool) :
    ∃ st2 : State,
      concurrent_task_continuation st w result success
        = OBJ_RELEASE (concurrent_task_scheduler_enqueue st2 w).1 w ∧
      st2.trace = st.trace ∧
      ∀ a, (st2.tasks a).status = (st.tasks a).status ∧ (st2.tasks a).fiber = (st.tasks a).fiber ∧
        (st2.tasks a).operation = (st.tasks a).operation ∧
        ((st2.tasks a).result = (st.tasks a).result ∨ (st2.tasks a).result = result) := by
  refine ⟨_, rfl, ?_, fun a => ?_⟩
  · cases success
    · rfl
    · simp only [if_true]
      cases (st.tasks w).value with
      | none => rfl
      | some p => cases p <;> rfl
  · by_cases ha : a = w
    · subst ha
      cases success
      · simp [heapSet_apply]
      · simp only [if_true]
        cases (st.tasks a).value with
        | none => simp [heapSet_apply]
        | some p => cases p <;> simp [heapSet_apply]
    · cases success
      · simp [heapSet_apply, ha]
      · simp only [if_true]
        cases (st.tasks w).value with
        | none => simp [heapSet_apply, ha]
        | some p => cases p <;> simp [heapSet_apply, ha]

theorem OBJ_RELEASE_keeps (st : State) (t a : TaskId) :
    ((OBJ_RELEASE st t).tasks a).status = (st.tasks a).status ∧
    ((OBJ_RELEASE st t).tasks a).fiber = (st.tasks a).fiber ∧
    ((OBJ_RELEASE st t).tasks a).operation = (st.tasks a).operation ∧
    ((OBJ_RELEASE st t).tasks a).result = (st.tasks a).result := by
  unfold OBJ_RELEASE
  by_cases ha : a = t
  · subst ha; simp [heapSet_apply]
  · simp [heapSet_apply, ha]

/-- What the continuation callback keeps of any task `a`: status and native
context always, the operation tag when `a` has settled, and a result slot that
already holds the delivered value. -/
theorem continuation_keeps (st : State) (w : TaskId) (result : zval) (success : Bool)
    (a : TaskId) :
    ((concurrent_task_continuation st w result success).tasks a).status = (st.tasks a).status ∧
    ((concurrent_task_continuation st w result success).tasks a).fiber = (st.tasks a).fiber ∧
    (enqueue_operation (st.tasks a).status = none →
      ((concurrent_task_continuation st w result success).tasks a).operation
        = (st.tasks a).operation) ∧
    ((st.tasks a).result = result →
      ((concurrent_task_continuation st w result success).tasks a).result = result) ∧
    ∃ l, (concurrent_task_continuation st w result success).trace = st.trace ++ l := by
  obtain ⟨st2, heq, htr, hk⟩ := continuation_eq st w result success
  rw [heq]
  have hr := OBJ_RELEASE_keeps (concurrent_task_scheduler_enqueue st2 w).1 w a
  have he := enqueue_keeps st2 w a
  obtain ⟨h1, h2, h3, h4⟩ := hk a
  refine ⟨by rw [hr.1, he.1, h1], by rw [hr.2.1, he.2.1, h2], fun hn => ?_, fun hres => ?_, ?_⟩
  · rw [hr.2.2.1, he.2.2.2 (by rw [h1]; exact hn), h3]
  · rw [hr.2.2.2, he.2.2.1]
    rcases h4 with h4 | h4
    · rw [h4, hres]
    · exact h4
  · obtain ⟨l, hl⟩ := enqueue_trace_extends st2 w
    exact ⟨l, by show (concurrent_task_scheduler_enqueue st2 w).1.trace = _; rw [hl, htr]⟩

theorem continuation_fold_keeps (result : zval) (success : Bool) (a : TaskId) :
    ∀ (waiters : List TaskId) (st : State),
      ((waiters.foldl (fun acc w => concurrent_task_continuation acc w result success) st).tasks
          a).status = (st.tasks a).status ∧
      ((waiters.foldl (fun acc w => concurrent_task_continuation acc w result success) st).tasks
          a).fiber = (st.tasks a).fiber ∧
      (enqueue_operation (st.tasks a).status = none →
        ((waiters.foldl (fun acc w => concurrent_task_continuation acc w result success)
          st).tasks a).operation = (st.tasks a).operation) ∧
      ((st.tasks a).result = result →
        ((waiters.foldl (fun acc w => concurrent_task_continuation acc w result success)
          st).tasks a).result = result) ∧
      ∃ l, (waiters.foldl (fun acc w => concurrent_task_continuation acc w result success)
          st).trace = st.trace ++ l
  | [], st => ⟨rfl, rfl, fun _ => rfl, fun h => h, [], by simp⟩
  | w :: waiters, st => by
    have h1 := continuation_keeps st w result success a
    have h2 := continuation_fold_keeps result success a waiters
      (concurrent_task_continuation st w result success)
    simp only [List.foldl_cons]
    refine ⟨by rw [h2.1, h1.1], by rw [h2.2.1, h1.2.1], fun hn => ?_, fun hres => ?_, ?_⟩
    · rw [h2.2.2.1 (by rw [h1.1]; exact hn), h1.2.2.1 hn]
    · exact h2.2.2.2.1 (h1.2.2.2.1 hres)
    · obtain ⟨l1, hl1⟩ := h1.2.2.2.2
      obtain ⟨l2, hl2⟩ := h2.2.2.2.2
      exact ⟨l1 ++ l2, by rw [hl2, hl1, List.append_assoc]⟩

/-- Triggering the continuation record of a settled task `inner` whose result
slot holds the delivered value keeps its status, native context, operation tag
and result, and only adds to the trace. -/
theorem trigger_keeps (st : State) (inner : TaskId) (success : Bool)
    (hsettled : enqueue_operation (st.tasks inner).status = none) :
    ((concurrent_awaitable_trigger_continuation st inner (st.tasks inner).result
        success).tasks inner).status = (st.tasks inner).status ∧
    ((concurrent_awaitable_trigger_continuation st inner (st.tasks inner).result
        success).tasks inner).fiber = (st.tasks inner).fiber ∧
    ((concurrent_awaitable_trigger_continuation st inner (st.tasks inner).result
        success).tasks inner).operation = (st.tasks inner).operation ∧
    ((concurrent_awaitable_trigger_continuation st inner (st.tasks inner).result
        success).tasks inner).result = (st.tasks inner).result ∧
    ∃ l, (concurrent_awaitable_trigger_continuation st inner (st.tasks inner).result
        success).trace = st.trace ++ l := by
  unfold concurrent_awaitable_trigger_continuation
  cases (st.tasks inner).continuation with
  | none => exact ⟨rfl, rfl, rfl, rfl, [], by simp⟩
  | some waiters =>
    have h := continuation_fold_keeps (st.tasks inner).result success inner waiters st
    simp only [setTask_tasks, heapSet_same, setTask_trace]
    exact ⟨h.1, h.2.1, h.2.2.1 hsettled, h.2.2.2.1 rfl, h.2.2.2.2⟩

/-! ## C10: the inline fast path -/

/-- What `concurrent_task_execute_inline` leaves behind for the inlined task. -/
theorem execute_inline_spec (env : Env) (uninit : Bool) (st : State) (inner : TaskId) :
    (((concurrent_task_execute_inline env uninit st inner).tasks inner).status
        = fiber_status.FINISHED ∨
      ((concurrent_task_execute_inline env uninit st inner).tasks inner).status
        = fiber_status.DEAD) ∧
    (CallKeeps env inner →
      ((concurrent_task_execute_inline env uninit st inner).tasks inner).operation
          = task_operation.NONE ∧
      ((concurrent_task_execute_inline env uninit st inner).tasks inner).fiber
          = (st.tasks inner).fiber) ∧
    (TraceExtending env →
      InlineCalled st (concurrent_task_execute_inline env uninit st inner) inner) := by
  unfold concurrent_task_execute_inline
  simp only
  generalize hst3 : (({ st.setTask inner { st.tasks inner with operation := task_operation.NONE }
      with g := { (st.setTask inner { st.tasks inner with operation := task_operation.NONE }).g
        with current_context :=
          ((st.setTask inner { st.tasks inner with operation := task_operation.NONE }).tasks
            inner).context } } : State).emit (Event.call_function inner)) = st3
  have h3op : (st3.tasks inner).operation = task_operation.NONE := by
    rw [← hst3]; simp [heapSet_apply]
  have h3fiber : (st3.tasks inner).fiber = (st.tasks inner).fiber := by
    rw [← hst3]; simp [heapSet_apply]
  have h3trace : st3.trace = st.trace ++ [Event.call_function inner] := by
    rw [← hst3]; rfl
  cases hr : (env.call (st3.tasks inner).fci st3).2 with
  | threw e =>
    simp only
    generalize hst5 : (State.setTask _ inner _) = st5
    have h5s : (st5.tasks inner).status = fiber_status.DEAD := by
      rw [← hst5]; simp [heapSet_apply]
    have h5o : (st5.tasks inner).operation
        = ((env.call (st3.tasks inner).fci st3).1.tasks inner).operation := by
      rw [← hst5]; simp [heapSet_apply]
    have h5f : (st5.tasks inner).fiber
        = ((env.call (st3.tasks inner).fci st3).1.tasks inner).fiber := by
      rw [← hst5]; simp [heapSet_apply]
    have h5t : st5.trace = (env.call (st3.tasks inner).fci st3).1.trace := by
      rw [← hst5]; rfl
    have hk := trigger_keeps st5 inner uninit (by rw [h5s]; rfl)
    refine ⟨Or.inr (by rw [hk.1, h5s]), fun hc => ?_, fun hte => ?_⟩
    · obtain ⟨c1, c2⟩ := hc (st3.tasks inner).fci st3
      exact ⟨by rw [hk.2.2.1, h5o, c1, h3op], by rw [hk.2.1, h5f, c2, h3fiber]⟩
    · obtain ⟨l1, hl1⟩ := hte (st3.tasks inner).fci st3
      obtain ⟨l2, hl2⟩ := hk.2.2.2.2
      exact ⟨l1 ++ l2, by rw [hl2, h5t, hl1, h3trace]; simp⟩
  | returned v =>
    simp only
    generalize hst5 : (State.setTask _ inner _) = st5
    have h5s : (st5.tasks inner).status = fiber_status.FINISHED := by
      rw [← hst5]; simp [heapSet_apply]
    have h5o : (st5.tasks inner).operation
        = ((env.call (st3.tasks inner).fci st3).1.tasks inner).operation := by
      rw [← hst5]; simp [heapSet_apply]
    have h5f : (st5.tasks inner).fiber
        = ((env.call (st3.tasks inner).fci st3).1.tasks inner).fiber := by
      rw [← hst5]; simp [heapSet_apply]
    have h5t : st5.trace = (env.call (st3.tasks inner).fci st3).1.trace := by
      rw [← hst5]; rfl
    have hk := trigger_keeps st5 inner true (by rw [h5s]; rfl)
    refine ⟨Or.inl (by rw [hk.1, h5s]), fun hc => ?_, fun hte => ?_⟩
    · obtain ⟨c1, c2⟩ := hc (st3.tasks inner).fci st3
      exact ⟨by rw [hk.2.2.1, h5o, c1, h3op], by rw [hk.2.1, h5f, c2, h3fiber]⟩
    · obtain ⟨l1, hl1⟩ := hte (st3.tasks inner).fci st3
      obtain ⟨l2, hl2⟩ := hk.2.2.2.2
      exact ⟨l1 ++ l2, by rw [hl2, h5t, hl1, h3trace]; simp⟩

theorem await_task_eq (env : Env) (uninit : Bool) (st : State) (used_ret : Bool)
    (task inner : TaskId) (hf : st.g.current_fiber = some task)
    (ht : (st.tasks task).type = CONCURRENT_FIBER_TYPE_TASK)
    (hs : (st.tasks task).status = fiber_status.RUNNING) :
    Task_await env uninit st (zval.OBJECT zend_class_entry.concurrent_task_ce inner) used_ret
      = await_task env uninit st task inner used_ret := by
  unfold Task_await
  simp only [hf, ht, hs, ne_eq, not_true_eq_false, if_false, instanceof_awaitable, if_true]

/-- Without the inline condition `await` does not consult its collaborators,
and the only external call it can make is the yield. -/
theorem await_task_no_inline (env : Env) (uninit : Bool) (st : State) (used_ret : Bool)
    (task inner : TaskId) (hc : ¬ inline_condition st task inner) :
    (∀ env2 uninit2, await_task env2 uninit2 st task inner used_ret
      = await_task env uninit st task inner used_ret) ∧
    ((await_task env uninit st task inner used_ret).1.trace = st.trace ∨
      (await_task env uninit st task inner used_ret).1.trace
        = st.trace ++ [Event.fiber_yield task]) := by
  unfold inline_condition at hc
  by_cases h1 : (st.tasks inner).scheduler = (st.tasks task).scheduler
  · by_cases h2 : (st.tasks inner).status = fiber_status.INIT
    · have h3 : ¬ (st.tasks inner).stack_size ≤ (st.tasks task).stack_size :=
        fun h3 => hc ⟨h1, h2, h3⟩
      constructor
      · intro env2 uninit2
        unfold await_task
        simp only [h1, h2, h3, ne_eq, not_true_eq_false, if_false, if_true]
      · unfold await_task
        simp only [h1, h2, h3, ne_eq, not_true_eq_false, if_false, if_true]
        simp [await_suspend, GC_ADDREF]
    · constructor
      · intro env2 uninit2
        unfold await_task
        simp only [h1, h2, ne_eq, not_true_eq_false, if_false]
      · unfold await_task
        simp only [h1, h2, ne_eq, not_true_eq_false, if_false]
        split
        · exact Or.inl rfl
        · split
          · exact Or.inl rfl
          · exact Or.inr (by simp [await_suspend, GC_ADDREF])
  · constructor
    · intro env2 uninit2
      unfold await_task
      simp only [h1, ne_eq, not_false_eq_true, if_true]
    · unfold await_task
      simp [h1]

/-- C10.  Inline fast path condition.  Inside a running task `task`, consider
`Task::await(T)` for a task object `T` (`inner`).
(1) `T`'s callable is invoked inline, as the first external call of the await,
if and only if `T` is on the same scheduler, `T` is `INIT` and
`T.stack_size <= task.stack_size` (user callables only add to the trace).
(2) When the condition holds, the state after the await is the one
`concurrent_task_execute_inline` produces, `T` is then `FINISHED` and the await
returns its result, or `DEAD` and the await re-raises; if the callable itself
leaves `T`'s operation tag and native context alone, `T`'s operation is `NONE`
and `T` has the native context it had before (it is given no fiber).
(3) When the condition fails, the await does not depend on the callable at
all.
(4) An `INIT` task on the same scheduler with a larger stack takes the normal
suspend path: it stays `INIT`, `task` is appended to its continuation record,
and `task` becomes `SUSPENDED` and yields.
(5) `await(self)` never satisfies the condition, because `self` is `RUNNING`. -/
theorem inline_fast_path (env : Env) (uninit : Bool) (st : State) (used_ret : Bool)
    (task inner : TaskId) (hf : st.g.current_fiber = some task)
    (ht : (st.tasks task).type = CONCURRENT_FIBER_TYPE_TASK)
    (hs : (st.tasks task).status = fiber_status.RUNNING) :
    (TraceExtending env →
      (InlineCalled st
          (Task_await env uninit st
            (zval.OBJECT zend_class_entry.concurrent_task_ce inner) used_ret).1 inner
        ↔ inline_condition st task inner)) ∧
    (inline_condition st task inner →
      (Task_await env uninit st
          (zval.OBJECT zend_class_entry.concurrent_task_ce inner) used_ret).1
        = concurrent_task_execute_inline env uninit st inner ∧
      ((((concurrent_task_execute_inline env uninit st inner).tasks inner).status
            = fiber_status.FINISHED ∧
          (Task_await env uninit st
            (zval.OBJECT zend_class_entry.concurrent_task_ce inner) used_ret).2
            = await_result.returned
                ((concurrent_task_execute_inline env uninit st inner).tasks inner).result) ∨
        (((concurrent_task_execute_inline env uninit st inner).tasks inner).status
            = fiber_status.DEAD ∧
          (Task_await env uninit st
            (zval.OBJECT zend_class_entry.concurrent_task_ce inner) used_ret).2
            = await_result.exception
                ((concurrent_task_execute_inline env uninit st inner).tasks inner).result)) ∧
      (CallKeeps env inner →
        ((concurrent_task_execute_inline env uninit st inner).tasks inner).operation
            = task_operation.NONE ∧
        ((concurrent_task_execute_inline env uninit st inner).tasks inner).fiber
            = (st.tasks inner).fiber)) ∧
    (¬ inline_condition st task inner →
      ∀ env2 uninit2,
        Task_await env2 uninit2 st
            (zval.OBJECT zend_class_entry.concurrent_task_ce inner) used_ret
          = Task_await env uninit st
            (zval.OBJECT zend_class_entry.concurrent_task_ce inner) used_ret) ∧
    ((st.tasks inner).scheduler = (st.tasks task).scheduler →
      (st.tasks inner).status = fiber_status.INIT →
      (st.tasks task).stack_size < (st.tasks inner).stack_size →
      (Task_await env uninit st
          (zval.OBJECT zend_class_entry.concurrent_task_ce inner) used_ret).2
        = await_result.suspended task (st.tasks task).value st.g.current_context ∧
      (((Task_await env uninit st
          (zval.OBJECT zend_class_entry.concurrent_task_ce inner) used_ret).1.tasks
          task).status = fiber_status.SUSPENDED) ∧
      (((Task_await env uninit st
          (zval.OBJECT zend_class_entry.concurrent_task_ce inner) used_ret).1.tasks
          inner).status = fiber_status.INIT) ∧
      (((Task_await env uninit st
          (zval.OBJECT zend_class_entry.concurrent_task_ce inner) used_ret).1.tasks
          inner).continuation = attach_continuation (st.tasks inner).continuation task) ∧
      (((Task_await env uninit st
          (zval.OBJECT zend_class_entry.concurrent_task_ce inner) used_ret).1.tasks
          inner).fiber = (st.tasks inner).fiber)) ∧
    ¬ inline_condition st task task := by
  have heq := await_task_eq env uninit st used_ret task inner hf ht hs
  have hinl : inline_condition st task inner →
      await_task env uninit st task inner used_ret
        = (concurrent_task_execute_inline env uninit st inner,
          if ((concurrent_task_execute_inline env uninit st inner).tasks inner).status
              = fiber_status.FINISHED then
            await_result.returned
              ((concurrent_task_execute_inline env uninit st inner).tasks inner).result
          else
            await_result.exception
              ((concurrent_task_execute_inline env uninit st inner).tasks inner).result) := by
    intro hc
    obtain ⟨c1, c2, c3⟩ := hc
    have hsp := (execute_inline_spec env uninit st inner).1
    unfold await_task
    simp only [c1, c2, c3, ne_eq, not_true_eq_false, if_false, if_true]
    rcases hsp with h | h
    · simp [h]
    · simp [h]
  refine ⟨fun hte => ⟨fun hcalled => ?_, fun hc => ?_⟩, fun hc => ?_, fun hc env2 uninit2 => ?_,
    fun c1 c2 c3 => ?_, fun hc => ?_⟩
  · by_contra hc
    rw [heq] at hcalled
    obtain ⟨rest, hrest⟩ := hcalled
    rcases (await_task_no_inline env uninit st used_ret task inner hc).2 with h | h
    · rw [h] at hrest
      have := congrArg List.length hrest
      simp at this
    · rw [h] at hrest
      have := List.append_cancel_left hrest
      cases this
  · rw [heq, hinl hc]
    exact (execute_inline_spec env uninit st inner).2.2 hte
  · rw [heq, hinl hc]
    refine ⟨rfl, ?_, (execute_inline_spec env uninit st inner).2.1⟩
    rcases (execute_inline_spec env uninit st inner).1 with h | h
    · exact Or.inl ⟨h, by simp [h]⟩
    · exact Or.inr ⟨h, by simp [h]⟩
  · rw [heq, await_task_eq env2 uninit2 st used_ret task inner hf ht hs]
    exact (await_task_no_inline env uninit st used_ret task inner hc).1 env2 uninit2
  · rw [heq]
    have hne : inner ≠ task := by
      intro e
      rw [e, hs] at c2
      cases c2
    have hne2 : task ≠ inner := fun e => hne e.symm
    have h3 : ¬ (st.tasks inner).stack_size ≤ (st.tasks task).stack_size := by omega
    unfold await_task
    simp only [c1, c2, h3, ne_eq, not_true_eq_false, if_false, if_true]
    simp [await_suspend, GC_ADDREF, heapSet_apply, hne, hne2, c2]
  · obtain ⟨_, c2, _⟩ := hc
    rw [hs] at c2
    cases c2

/-- C10 on the example state: the running task 1 awaits the queued, unstarted
task 2 of the same stack size.  Task 2 is executed inline, finishes with the
value of its callable, has operation `NONE` and no native context, and is
still the head of the queue. -/
theorem inline_fast_path_witness :
    inline_condition exampleDispatching 1 2 ∧
    InlineCalled exampleDispatching
      (Task_await exampleEnv false exampleDispatching
        (zval.OBJECT zend_class_entry.concurrent_task_ce 2) true).1 2 ∧
    (Task_await exampleEnv false exampleDispatching
        (zval.OBJECT zend_class_entry.concurrent_task_ce 2) true).2
      = await_result.returned (zval.LONG 2) ∧
    ((Task_await exampleEnv false exampleDispatching
        (zval.OBJECT zend_class_entry.concurrent_task_ce 2) true).1.tasks 2).status
      = fiber_status.FINISHED ∧
    ((Task_await exampleEnv false exampleDispatching
        (zval.OBJECT zend_class_entry.concurrent_task_ce 2) true).1.tasks 2).operation
      = task_operation.NONE ∧
    ((Task_await exampleEnv false exampleDispatching
        (zval.OBJECT zend_class_entry.concurrent_task_ce 2) true).1.tasks 2).fiber = none ∧
    ((Task_await exampleEnv false exampleDispatching
        (zval.OBJECT zend_class_entry.concurrent_task_ce 2) true).1.schedulers 0).first
      = some 2 := by
  have hc : inline_condition exampleDispatching 1 2 := ⟨by decide, by decide, by decide⟩
  have h := inline_fast_path exampleEnv false exampleDispatching true 1 2 (by decide)
    (by decide) (by decide)
  have hte : TraceExtending exampleEnv := fun f st => ⟨[], by simp [exampleEnv]⟩
  exact ⟨hc, (h.1 hte).mpr hc, by decide, by decide, by decide, by decide, by decide⟩

/-! ## C11: await on a task of another scheduler -/

/-- C11.  Cross-scheduler await fails atomically.  Inside a task in status
`RUNNING`, for a task `T` whose scheduler differs from the awaiting task's
scheduler, `Task::await(T)` throws the error "Cannot await a task that runs on
a different task scheduler" whatever the status of `T`, and the state after the
call is the state before it: `T` is not executed inline, `T`'s status,
operation and continuation record are unchanged, and the awaiting task stays
`RUNNING` with the same reference count. -/
theorem await_cross_scheduler (env : Env) (uninit : Bool) (st : State) (used_ret : Bool)
    (task inner : TaskId) (hf : st.g.current_fiber = some task)
    (ht : (st.tasks task).type = CONCURRENT_FIBER_TYPE_TASK)
    (hs : (st.tasks task).status = fiber_status.RUNNING)
    (hne : (st.tasks inner).scheduler ≠ (st.tasks task).scheduler) :
    Task_await env uninit st (zval.OBJECT zend_class_entry.concurrent_task_ce inner) used_ret
      = (st, await_result.error
          "Cannot await a task that runs on a different task scheduler") := by
  rw [await_task_eq env uninit st used_ret task inner hf ht hs]
  unfold await_task
  simp [hne]

/-- C11 on the example state: the running task 1 of scheduler 0 awaits task 2
after task 2 has been moved to scheduler 1, unstarted and finished. -/
theorem await_cross_scheduler_witness :
    Task_await exampleEnv false
      (exampleDispatching.setTask 2 { exampleDispatching.tasks 2 with scheduler := some 1 })
      (zval.OBJECT zend_class_entry.concurrent_task_ce 2) true
      = (exampleDispatching.setTask 2 { exampleDispatching.tasks 2 with scheduler := some 1 },
        await_result.error "Cannot await a task that runs on a different task scheduler") ∧
    Task_await exampleEnv false
      (exampleDispatching.setTask 2
        { exampleDispatching.tasks 2 with
          scheduler := some 1, status := fiber_status.FINISHED })
      (zval.OBJECT zend_class_entry.concurrent_task_ce 2) true
      = (exampleDispatching.setTask 2
          { exampleDispatching.tasks 2 with
            scheduler := some 1, status := fiber_status.FINISHED },
        await_result.error "Cannot await a task that runs on a different task scheduler") :=
  ⟨await_cross_scheduler exampleEnv false _ true 1 2 (by decide) (by decide) (by decide)
      (by decide),
    await_cross_scheduler exampleEnv false _ true 1 2 (by decide) (by decide) (by decide)
      (by decide)⟩

/-! ## C13: the second half of an await -/

theorem continuation_unfold (st : State) (task : TaskId) (result : zval) (success : Bool) :
    concurrent_task_continuation st task result success
      = OBJ_RELEASE
          (concurrent_task_scheduler_enqueue (continuation_store st task result success) task).1
          task := rfl

/-- What `continuation_store` writes to the task itself. -/
theorem continuation_store_self (st : State) (task : TaskId) (result : zval) (success : Bool) :
    (continuation_store st task result success).tasks task =
      { st.tasks task with
        value := none
        result := if success = true ∧ (st.tasks task).value = some value_ptr.result then result
          else (st.tasks task).result
        return_value :=
          if success = true ∧ (st.tasks task).value = some value_ptr.return_value then result
          else (st.tasks task).return_value
        error := if success = true then (st.tasks task).error else result } := by
  unfold continuation_store
  cases success
  · simp [heapSet_apply]
  · cases hv : (st.tasks task).value with
    | none => simp [heapSet_apply, hv]
    | some p => cases p <;> simp [heapSet_apply, hv]

theorem continuation_store_other (st : State) (task a : TaskId) (result : zval)
    (success : Bool) (ha : a ≠ task) :
    (continuation_store st task result success).tasks a = st.tasks a := by
  unfold continuation_store
  cases success
  · simp [heapSet_apply, ha]
  · cases hv : (st.tasks task).value with
    | none => simp [heapSet_apply, hv, ha]
    | some p => cases p <;> simp [heapSet_apply, hv, ha]

theorem continuation_store_rest (st : State) (task : TaskId) (result : zval) (success : Bool) :
    (continuation_store st task result success).schedulers = st.schedulers ∧
    (continuation_store st task result success).trace = st.trace ∧
    (continuation_store st task result success).g = st.g ∧
    (continuation_store st task result success).deferreds = st.deferreds := by
  unfold continuation_store
  cases success
  · exact ⟨rfl, rfl, rfl, rfl⟩
  · cases hv : (st.tasks task).value with
    | none => exact ⟨rfl, rfl, rfl, rfl⟩
    | some p => cases p <;> exact ⟨rfl, rfl, rfl, rfl⟩

/-- C13.  Resumption of an await.  The first half of an await that suspends
saves the task's value pointer and the current context
(`await_suspend`); a task starts out with a value pointer that designates its
result slot (`concurrent_task_object_create`); a successful continuation writes
its result where the redirected value pointer designates, the `return_value`
of the await, and leaves the error slot alone.  When the task is resumed with
a status other than `DEAD`: if its error slot is populated, the slot is set to
undefined and that error is raised; otherwise the await returns what is in its
`return_value`.  In both cases the error slot is undefined afterwards, the
current context is the saved one, the value pointer is the saved one, and the
status is unchanged. -/
theorem await_resumption (st : State) (task : TaskId) (value : Option value_ptr)
    (context : Option ContextId) (hstatus : (st.tasks task).status ≠ fiber_status.DEAD) :
    (∀ st0 used_ret, (await_suspend st0 task used_ret).2
      = await_result.suspended task (st0.tasks task).value st0.g.current_context) ∧
    (∀ pointer_size st0,
      ((concurrent_task_object_create pointer_size task st0).tasks task).value
        = some value_ptr.result) ∧
    (∀ st1 result, (st1.tasks task).value = some value_ptr.return_value →
      ((concurrent_task_continuation st1 task result true).tasks task).return_value = result ∧
      ((concurrent_task_continuation st1 task result true).tasks task).error
        = (st1.tasks task).error) ∧
    ((st.tasks task).error ≠ zval.UNDEF →
      (Task_await_resume st task value context).2
        = await_result.exception (st.tasks task).error) ∧
    ((st.tasks task).error = zval.UNDEF →
      (Task_await_resume st task value context).2
        = await_result.returned (st.tasks task).return_value) ∧
    ((Task_await_resume st task value context).1.tasks task).error = zval.UNDEF ∧
    (Task_await_resume st task value context).1.g.current_context = context ∧
    ((Task_await_resume st task value context).1.tasks task).value = value ∧
    ((Task_await_resume st task value context).1.tasks task).status
      = (st.tasks task).status := by
  refine ⟨fun _ _ => ?_, fun _ _ => ?_, fun st1 result hv => ?_, ?_⟩
  · simp [await_suspend, GC_ADDREF, heapSet_apply]
  · simp [concurrent_task_object_create]
  · rw [continuation_unfold]
    have hk := OBJ_RELEASE_keeps
      (concurrent_task_scheduler_enqueue (continuation_store st1 task result true) task).1
      task task
    have hs := continuation_store_self st1 task result true
    have he : ∀ st2 : State,
        ((concurrent_task_scheduler_enqueue st2 task).1.tasks task).return_value
            = (st2.tasks task).return_value ∧
        ((concurrent_task_scheduler_enqueue st2 task).1.tasks task).error
            = (st2.tasks task).error := by
      intro st2
      cases hsch : (st2.tasks task).scheduler with
      | none => rw [enqueue_rejected_eq st2 task (Or.inl hsch)]; exact ⟨rfl, rfl⟩
      | some s =>
        cases ho : enqueue_operation (st2.tasks task).status with
        | none => rw [enqueue_rejected_eq st2 task (Or.inr ho)]; exact ⟨rfl, rfl⟩
        | some o => rw [enqueue_tasks st2 task s o hsch ho task]; exact ⟨rfl, rfl⟩
    have hr : ∀ st2 : State,
        ((OBJ_RELEASE st2 task).tasks task).return_value = (st2.tasks task).return_value ∧
        ((OBJ_RELEASE st2 task).tasks task).error = (st2.tasks task).error := by
      intro st2
      simp [OBJ_RELEASE, heapSet_apply]
    rw [(hr _).1, (hr _).2, (he _).1, (he _).2, hs]
    simp [hv]
  · have hd : ((({ st with g := { st.g with current_context := context } } : State).setTask task
        { st.tasks task with value := value }).tasks task).status ≠ fiber_status.DEAD := by
      simpa [heapSet_apply] using hstatus
    unfold Task_await_resume
    by_cases he : (st.tasks task).error = zval.UNDEF
    · simp [heapSet_apply, hstatus, he]
    · simp [heapSet_apply, hstatus, he]

/-- C13 on the example scenario: task 1, suspended in an await of task 2, is
resumed after task 2 returned 2, and after task 2 failed and the failure was
delivered as such. -/
theorem await_resumption_witness :
    (exampleResumed.tasks 1).status ≠ fiber_status.DEAD ∧
    (Task_await_resume exampleResumed 1 (some value_ptr.result) none).2
      = await_result.returned (zval.LONG 2) ∧
    ((Task_await_resume exampleResumed 1 (some value_ptr.result) none).1.tasks 1).value
      = some value_ptr.result ∧
    (Task_await_resume (exampleFailed false) 1 (some value_ptr.result) none).2
      = await_result.exception (zval.OBJECT (zend_class_entry.user 7 false) 2) ∧
    ((Task_await_resume (exampleFailed false) 1 (some value_ptr.result) none).1.tasks 1).error
      = zval.UNDEF := by
  have h1 := await_resumption exampleResumed 1 (some value_ptr.result) none (by decide)
  have h2 := await_resumption (exampleFailed false) 1 (some value_ptr.result) none (by decide)
  refine ⟨by decide, ?_, h1.2.2.2.2.2.2.2.1, ?_, h2.2.2.2.2.2.1⟩
  · rw [h1.2.2.2.2.1 (by decide)]; decide
  · rw [h2.2.2.2.1 (by decide)]; decide

/-! ## C14: the continuation callback of a suspended task -/

/-- C14.  The callback `concurrent_task_continuation(t, result, success)` for a
task `t` in status `SUSPENDED` with scheduler `s`.  With `success` it copies
`result` to where `t`'s value pointer designates (its result slot or the
`return_value` of its await; nowhere when the pointer is null) and leaves the
error slot untouched; without `success` it copies `result` into the error slot
and leaves the other two slots untouched.  In both cases the value pointer is
null afterwards, `t` has operation `RESUME` and is still `SUSPENDED`,
`scheduled` has grown by 1, `t` is `last`, the queue is the old queue followed
by `t` (for a `t` that was not queued), and `t`'s reference count is what it
was: the queue reference is taken and the pin is released. -/
theorem on_settle (st : State) (t : TaskId) (s : SchedId) (result : zval) (success : Bool)
    (hstatus : (st.tasks t).status = fiber_status.SUSPENDED)
    (hs : (st.tasks t).scheduler = some s) :
    (success = true →
      ((st.tasks t).value = some value_ptr.result →
        ((concurrent_task_continuation st t result success).tasks t).result = result) ∧
      ((st.tasks t).value = some value_ptr.return_value →
        ((concurrent_task_continuation st t result success).tasks t).return_value = result) ∧
      ((st.tasks t).value ≠ some value_ptr.result →
        ((concurrent_task_continuation st t result success).tasks t).result
          = (st.tasks t).result) ∧
      ((st.tasks t).value ≠ some value_ptr.return_value →
        ((concurrent_task_continuation st t result success).tasks t).return_value
          = (st.tasks t).return_value) ∧
      ((concurrent_task_continuation st t result success).tasks t).error = (st.tasks t).error) ∧
    (success = false →
      ((concurrent_task_continuation st t result success).tasks t).error = result ∧
      ((concurrent_task_continuation st t result success).tasks t).result
        = (st.tasks t).result ∧
      ((concurrent_task_continuation st t result success).tasks t).return_value
        = (st.tasks t).return_value) ∧
    ((concurrent_task_continuation st t result success).tasks t).value = none ∧
    ((concurrent_task_continuation st t result success).tasks t).operation
      = task_operation.RESUME ∧
    ((concurrent_task_continuation st t result success).tasks t).status
      = fiber_status.SUSPENDED ∧
    ((concurrent_task_continuation st t result success).schedulers s).scheduled
      = (st.schedulers s).scheduled + 1 ∧
    ((concurrent_task_continuation st t result success).schedulers s).last = some t ∧
    ((concurrent_task_continuation st t result success).tasks t).refcount
      = (st.tasks t).refcount ∧
    (∀ q, IsQueue st s q → t ∉ q → (st.tasks t).next = none →
      IsQueue (concurrent_task_continuation st t result success) s (q ++ [t])) := by
  have hself := continuation_store_self st t result success
  have hrest := continuation_store_rest st t result success
  have hs2 : ((continuation_store st t result success).tasks t).scheduler = some s := by
    rw [hself]; exact hs
  have ho2 : enqueue_operation ((continuation_store st t result success).tasks t).status
      = some task_operation.RESUME := by
    rw [hself]; simp [enqueue_operation, hstatus]
  have hT := enqueue_tasks (continuation_store st t result success) t s task_operation.RESUME
    hs2 ho2 t
  have hS := enqueue_schedulers (continuation_store st t result success) t s
    task_operation.RESUME hs2 ho2 s
  rw [if_pos rfl] at hS
  have hfinal : (concurrent_task_continuation st t result success).tasks t =
      { (concurrent_task_scheduler_enqueue (continuation_store st t result success) t).1.tasks t
        with refcount :=
          ((concurrent_task_scheduler_enqueue (continuation_store st t result success)
            t).1.tasks t).refcount - 1 } := by
    rw [continuation_unfold]
    simp [OBJ_RELEASE, heapSet_apply]
  have hsched : (concurrent_task_continuation st t result success).schedulers
      = (concurrent_task_scheduler_enqueue (continuation_store st t result success)
          t).1.schedulers := by
    rw [continuation_unfold]; rfl
  refine ⟨fun hsucc => ?_, fun hsucc => ?_, ?_, ?_, ?_, ?_, ?_, ?_, fun q hq hnq hnext => ?_⟩
  · subst hsucc
    rw [hfinal, hT, hself]
    refine ⟨fun hv => by simp [hv], fun hv => by simp [hv], fun hv => by simp [hv],
      fun hv => by simp [hv], by simp⟩
  · subst hsucc
    rw [hfinal, hT, hself]
    simp
  · rw [hfinal, hT, hself]
  · rw [hfinal, hT, hself]; simp
  · rw [hfinal, hT, hself]; exact hstatus
  · rw [hsched, hS, hrest.1]
  · rw [hsched, hS]
  · rw [hfinal, hT, hself]; simp
  · have hq2 : IsQueue (continuation_store st t result success) s q := by
      refine hq.frame ⟨by rw [hrest.1], by rw [hrest.1], by rw [hrest.1], fun a => ?_⟩
      by_cases ha : a = t
      · subst ha; rw [hself]
      · rw [continuation_store_other st t a result success ha]
    have hnext2 : ((continuation_store st t result success).tasks t).next = none := by
      rw [hself]; exact hnext
    have hE := enqueue_isQueue (continuation_store st t result success) t s
      task_operation.RESUME q hs2 ho2 hq2 hnq hnext2
    rw [continuation_unfold]
    exact hE.frame (OBJ_RELEASE_frame s _ t)

/-- C14 on the example scenario: the continuation of the suspended task 1 is
fired with the value 9, and with an exception object as a failure. -/
theorem on_settle_witness :
    (exampleAwaiting.tasks 1).status = fiber_status.SUSPENDED ∧
    (exampleAwaiting.tasks 1).scheduler = some 0 ∧
    (exampleAwaiting.tasks 1).value = some value_ptr.return_value ∧
    ((concurrent_task_continuation exampleAwaiting 1 (zval.LONG 9) true).tasks 1).return_value
      = zval.LONG 9 ∧
    ((concurrent_task_continuation exampleAwaiting 1
        (zval.OBJECT (zend_class_entry.user 7 false) 4) false).tasks 1).error
      = zval.OBJECT (zend_class_entry.user 7 false) 4 ∧
    ((concurrent_task_continuation exampleAwaiting 1 (zval.LONG 9) true).tasks 1).refcount = 3 ∧
    IsQueue (concurrent_task_continuation exampleAwaiting 1 (zval.LONG 9) true) 0 [2, 1] := by
  have h1 := on_settle exampleAwaiting 1 0 (zval.LONG 9) true (by decide) (by decide)
  have h2 := on_settle exampleAwaiting 1 0 (zval.OBJECT (zend_class_entry.user 7 false) 4) false
    (by decide) (by decide)
  refine ⟨by decide, by decide, by decide, (h1.1 rfl).2.1 (by decide), (h2.2.1 rfl).1, ?_, ?_⟩
  · rw [h1.2.2.2.2.2.2.2.1]; decide
  · exact h1.2.2.2.2.2.2.2.2 [2] ⟨by decide, by decide, by decide⟩ (by decide) (by decide)

/-! ## C15: when enqueue invokes the activator -/

theorem enqueue_scheduler_field (st : State) (task a : TaskId) :
    ((concurrent_task_scheduler_enqueue st task).1.tasks a).scheduler
      = (st.tasks a).scheduler := by
  cases hs : (st.tasks task).scheduler with
  | none => rw [enqueue_rejected_eq st task (Or.inl hs)]
  | some s =>
    cases ho : enqueue_operation (st.tasks task).status with
    | none => rw [enqueue_rejected_eq st task (Or.inr ho)]
    | some o => rw [enqueue_tasks st task s o hs ho a]

/-- With a cleared `activate` flag an enqueue on `s` makes no external call
and leaves the flag cleared. -/
theorem enqueue_idle (st : State) (task : TaskId) (s : SchedId)
    (hs : (st.tasks task).scheduler = some s) (ha : (st.schedulers s).activate = false) :
    (concurrent_task_scheduler_enqueue st task).1.trace = st.trace ∧
    ((concurrent_task_scheduler_enqueue st task).1.schedulers s).activate = false := by
  cases ho : enqueue_operation (st.tasks task).status with
  | none => rw [enqueue_rejected_eq st task (Or.inr ho)]; exact ⟨rfl, ha⟩
  | some o =>
    rw [enqueue_trace st task s o hs ho, enqueue_schedulers st task s o hs ho s, if_pos rfl]
    simp [activator_fires, ha]

theorem enqueueAll_idle (s : SchedId) :
    ∀ (tasks : List TaskId) (st : State), (∀ t ∈ tasks, (st.tasks t).scheduler = some s) →
      (st.schedulers s).activate = false →
      (enqueueAll st tasks).trace = st.trace ∧
      ((enqueueAll st tasks).schedulers s).activate = false
  | [], _, _, ha => ⟨rfl, ha⟩
  | t :: tasks, st, hs, ha => by
    have h1 := enqueue_idle st t s (hs t (List.mem_cons_self t tasks)) ha
    have h2 := enqueueAll_idle s tasks (concurrent_task_scheduler_enqueue st t).1
      (fun a hm => by
        rw [enqueue_scheduler_field]
        exact hs a (List.mem_cons_of_mem t hm)) h1.2
    simp only [enqueueAll, List.foldl_cons] at h2 ⊢
    exact ⟨h2.1.trans h1.1, h2.2⟩

/-- C15.  Activator trigger condition.  An accepted enqueue on scheduler `s`
invokes the activator, with `s` as its argument, exactly when before the call
an activator is registered, `activate` is set and `s` is not running; the
invocation is then the only external call of the enqueue, it is made last, and
`activate` is cleared in the state it is made in.  In every other case no
external call is made and `activate` is unchanged.  Once `activate` is cleared,
further enqueues on `s`, in any number, invoke nothing and leave it cleared:
of several enqueues on an idle scheduler only the first invokes the
activator.  A scheduler is created with `activate` set and no activator. -/
theorem activator_trigger (st : State) (task : TaskId) (s : SchedId) (o : task_operation)
    (hs : (st.tasks task).scheduler = some s)
    (ho : enqueue_operation (st.tasks task).status = some o) :
    (((st.schedulers s).activator = true ∧ (st.schedulers s).activate = true ∧
        (st.schedulers s).running = false) →
      (concurrent_task_scheduler_enqueue st task).1.trace
        = st.trace ++ [Event.activator_call s] ∧
      ((concurrent_task_scheduler_enqueue st task).1.schedulers s).activate = false) ∧
    (¬ ((st.schedulers s).activator = true ∧ (st.schedulers s).activate = true ∧
        (st.schedulers s).running = false) →
      (concurrent_task_scheduler_enqueue st task).1.trace = st.trace ∧
      ((concurrent_task_scheduler_enqueue st task).1.schedulers s).activate
        = (st.schedulers s).activate) ∧
    (∀ tasks : List TaskId, (∀ t ∈ tasks, (st.tasks t).scheduler = some s) →
      ((concurrent_task_scheduler_enqueue st task).1.schedulers s).activate = false →
      (enqueueAll (concurrent_task_scheduler_enqueue st task).1 tasks).trace
        = (concurrent_task_scheduler_enqueue st task).1.trace ∧
      ((enqueueAll (concurrent_task_scheduler_enqueue st task).1 tasks).schedulers s).activate
        = false) ∧
    concurrent_task_scheduler_object_create.activate = true ∧
    concurrent_task_scheduler_object_create.activator = false := by
  have hT := enqueue_trace st task s o hs ho
  have hS := enqueue_schedulers st task s o hs ho s
  rw [if_pos rfl] at hS
  refine ⟨fun hc => ?_, fun hc => ?_, fun tasks hts ha => ?_, rfl, rfl⟩
  · have hf : activator_fires (st.schedulers s) = true := by
      simp [activator_fires, hc.1, hc.2.1, hc.2.2]
    rw [hT, hS]
    simp [hf]
  · have hf : activator_fires (st.schedulers s) = false := by
      cases h : activator_fires (st.schedulers s) with
      | false => rfl
      | true =>
        exfalso
        apply hc
        simp only [activator_fires, Bool.and_eq_true, Bool.not_eq_true'] at h
        exact ⟨h.1.1, h.1.2, h.2⟩
    rw [hT, hS]
    simp [hf]
  · exact enqueueAll_idle s tasks _
      (fun t hm => by rw [enqueue_scheduler_field]; exact hts t hm) ha

/-- C15 on the example state with an activator registered on scheduler 0:
tasks 1, 2 and 3 are enqueued before any run; the activator is invoked once,
by the first enqueue. -/
theorem activator_trigger_witness :
    (concurrent_task_scheduler_enqueue exampleActivator 1).1.trace = [Event.activator_call 0] ∧
    (enqueueAll (concurrent_task_scheduler_enqueue exampleActivator 1).1 [2, 3]).trace
      = [Event.activator_call 0] ∧
    ((enqueueAll (concurrent_task_scheduler_enqueue exampleActivator 1).1 [2, 3]).schedulers
      0).scheduled = 3 := by
  have h := activator_trigger exampleActivator 1 0 task_operation.START (by decide) (by decide)
  have h1 := h.1 ⟨by decide, by decide, by decide⟩
  have h2 := h.2.2.1 [2, 3] (fun t _ => rfl) h1.2
  refine ⟨h1.1, ?_, by decide⟩
  rw [h2.1, h1.1]
  rfl

/-! ## C16: destruction of a task -/

/-- C16.  Destroy while suspended delivers the destruction error.  When a task
is destroyed in status `SUSPENDED`, the destructor switches into its fiber
exactly once, in a state in which the status has already been set to `DEAD`
(`destroy_switch_state`), and finishes the destruction with whatever the fiber
leaves behind.  The second half of the await the task is suspended in, run in
that state, throws "Task has been destroyed" and neither returns a value nor
touches the error slot, also when the error slot is populated.  A task
destroyed in status `INIT` has its callable and arguments released; its fiber
is not switched into: the destructor does not consult the fiber at all and the
external calls it makes are the release of the callable, the disposal of a
continuation record if there is one, the release of the context and the
destruction of the native context. -/
theorem destroy_task (resume : TaskId → State → State) (st : State) (task : TaskId) :
    ((st.tasks task).status = fiber_status.SUSPENDED →
      concurrent_task_object_destroy resume st task
        = destroy_finish (resume task (destroy_switch_state st task)) task ∧
      ((destroy_switch_state st task).tasks task).status = fiber_status.DEAD ∧
      (destroy_switch_state st task).trace = st.trace ++ [Event.fiber_switch_to task] ∧
      ∀ value context,
        (Task_await_resume (destroy_switch_state st task) task value context).2
          = await_result.error "Task has been destroyed" ∧
        ((Task_await_resume (destroy_switch_state st task) task value context).1.tasks
          task).error = (st.tasks task).error) ∧
    ((st.tasks task).status = fiber_status.INIT →
      (∀ resume2, concurrent_task_object_destroy resume2 st task
        = concurrent_task_object_destroy resume st task) ∧
      (concurrent_task_object_destroy resume st task).trace
        = st.trace ++ [Event.callable_release task]
          ++ (if (st.tasks task).continuation ≠ none then [Event.dispose_continuation task]
              else [])
          ++ [Event.context_release (st.tasks task).context,
              Event.fiber_destroy (st.tasks task).fiber] ∧
      Event.fiber_switch_to task ∉
        [Event.callable_release task]
          ++ (if (st.tasks task).continuation ≠ none then [Event.dispose_continuation task]
              else [])
          ++ [Event.context_release (st.tasks task).context,
              Event.fiber_destroy (st.tasks task).fiber]) := by
  constructor
  · intro h
    refine ⟨by simp [concurrent_task_object_destroy, h], by simp [destroy_switch_state], rfl,
      fun value context => ?_⟩
    simp [Task_await_resume, destroy_switch_state, heapSet_apply]
  · intro h
    have hne : (st.tasks task).status ≠ fiber_status.SUSPENDED := by rw [h]; decide
    refine ⟨fun resume2 => by simp [concurrent_task_object_destroy, hne], ?_, ?_⟩
    · by_cases hc : (st.tasks task).continuation = none
      · simp [concurrent_task_object_destroy, destroy_finish, hne, h, hc]
      · simp [concurrent_task_object_destroy, destroy_finish, hne, h, hc, heapSet_apply]
    · by_cases hc : (st.tasks task).continuation = none <;> simp [hc]

/-- C16 on the example scenario: the suspended task 1 is destroyed, its fiber
running the second half of the await; and the unstarted task 1 of the example
state is destroyed. -/
theorem destroy_task_witness :
    (exampleAwaiting.tasks 1).status = fiber_status.SUSPENDED ∧
    (Task_await_resume (destroy_switch_state exampleAwaiting 1) 1 (some value_ptr.result)
      none).2 = await_result.error "Task has been destroyed" ∧
    ((concurrent_task_object_destroy
        (fun t st => (Task_await_resume st t (some value_ptr.result) none).1)
        exampleAwaiting 1).tasks 1).status = fiber_status.DEAD ∧
    (exampleState.tasks 1).status = fiber_status.INIT ∧
    (concurrent_task_object_destroy
        (fun t st => (Task_await_resume st t (some value_ptr.result) none).1)
        exampleState 1).trace
      = [Event.callable_release 1, Event.context_release none, Event.fiber_destroy none] := by
  have h1 := (destroy_task (fun t st => (Task_await_resume st t (some value_ptr.result) none).1)
    exampleAwaiting 1).1 (by decide)
  have h2 := (destroy_task (fun t st => (Task_await_resume st t (some value_ptr.result) none).1)
    exampleState 1).2 (by decide)
  refine ⟨by decide, (h1.2.2.2 (some value_ptr.result) none).1, by decide, by decide, ?_⟩
  rw [h2.2.1]
  decide

/-! ## C17: await outside any task -/

/-- The no-fiber branch of `await` on an object: other classes are refused, a
task of a running scheduler is refused, in both cases without entering the run
loop; otherwise the run loop is executed and the await returns the result of a
`FINISHED` task, re-raises what a `DEAD` task stored, and fails for any other
status. -/
theorem await_no_fiber_object (env : Env) (uninit : Bool) (st : State) (used_ret : Bool)
    (ce : zend_class_entry) (handle : Nat) (hf : st.g.current_fiber = none) :
    (ce ≠ zend_class_entry.concurrent_task_ce →
      Task_await env uninit st (zval.OBJECT ce handle) used_ret
        = (st, await_result.error "Only tasks can be waited when no scheduler is running")) ∧
    (∀ sched, ce = zend_class_entry.concurrent_task_ce →
      (st.tasks handle).scheduler = some sched →
      ((st.schedulers sched).running = true →
        Task_await env uninit st (zval.OBJECT ce handle) used_ret
          = (st, await_result.error
              "Cannot dispatch tasks because the dispatcher is already running")) ∧
      ((st.schedulers sched).running = false →
        (Task_await env uninit st (zval.OBJECT ce handle) used_ret).1
          = env.run_loop sched (st.emit (Event.run_loop sched)) ∧
        (((env.run_loop sched (st.emit (Event.run_loop sched))).tasks handle).status
            = fiber_status.FINISHED →
          (Task_await env uninit st (zval.OBJECT ce handle) used_ret).2
            = await_result.returned
                ((env.run_loop sched (st.emit (Event.run_loop sched))).tasks handle).result) ∧
        (((env.run_loop sched (st.emit (Event.run_loop sched))).tasks handle).status
            = fiber_status.DEAD →
          (Task_await env uninit st (zval.OBJECT ce handle) used_ret).2
            = await_result.exception
                ((env.run_loop sched (st.emit (Event.run_loop sched))).tasks handle).result) ∧
        (((env.run_loop sched (st.emit (Event.run_loop sched))).tasks handle).status
            ≠ fiber_status.FINISHED →
          ((env.run_loop sched (st.emit (Event.run_loop sched))).tasks handle).status
            ≠ fiber_status.DEAD →
          (Task_await env uninit st (zval.OBJECT ce handle) used_ret).2
            = await_result.error "Awaited task did not run to completion"))) := by
  unfold Task_await await_no_fiber
  simp only [hf]
  refine ⟨fun hce => by simp [hce], fun sched hce hs => ?_⟩
  subst hce
  simp only [hs, ne_eq, not_true_eq_false, if_false]
  refine ⟨fun hr => by simp [hr], fun hr => ?_⟩
  simp only [hr, Bool.false_eq_true, if_false]
  refine ⟨?_, fun h => by simp [h], fun h => ?_, fun h1 h2 => by simp [h1, h2]⟩
  · split
    · rfl
    · split <;> rfl
  · have : ((env.run_loop sched (st.emit (Event.run_loop sched))).tasks handle).status
        ≠ fiber_status.FINISHED := by rw [h]; decide
    simp [h]

/-- C17.  Await outside any task on a value that is not an object.  With no
current fiber, `Task::await(5)` reads the class entry through the object
pointer of its argument (task.c:331) before it tests that the argument is an
object (task.c:333): the call dereferences an integer as an object pointer
instead of throwing "Only tasks can be waited when no scheduler is running".
Inside a running task the type is tested first (task.c:381-385) and the same
argument is returned unchanged. -/
theorem await_outside_task_non_object :
    exampleState.g.current_fiber = none ∧
    Task_await exampleEnv false exampleState (zval.LONG 5) true
      = (exampleState, await_result.fault) ∧
    Task_await exampleEnv false exampleState (zval.LONG 5) true
      ≠ (exampleState,
          await_result.error "Only tasks can be waited when no scheduler is running") ∧
    Task_await exampleEnv false exampleDispatching (zval.LONG 5) true
      = (exampleDispatching, await_result.returned (zval.LONG 5)) := by
  refine ⟨rfl, rfl, ?_, rfl⟩
  intro h
  have h2 := congrArg Prod.snd h
  simp [Task_await, await_no_fiber, exampleState] at h2

/-! ## C12: suspension on a pending awaitable -/

/-- What the suspending half of an await writes. -/
theorem await_suspend_spec (st : State) (task : TaskId) (used_ret : Bool) :
    (await_suspend st task used_ret).2
      = await_result.suspended task (st.tasks task).value st.g.current_context ∧
    ((await_suspend st task used_ret).1.tasks task).refcount = (st.tasks task).refcount + 1 ∧
    ((await_suspend st task used_ret).1.tasks task).status = fiber_status.SUSPENDED ∧
    (await_suspend st task used_ret).1.trace = st.trace ++ [Event.fiber_yield task] ∧
    (await_suspend st task used_ret).1.deferreds = st.deferreds ∧
    ∀ a, ((await_suspend st task used_ret).1.tasks a).continuation
      = (st.tasks a).continuation := by
  refine ⟨by simp [await_suspend, GC_ADDREF, heapSet_apply],
    by simp [await_suspend, GC_ADDREF, heapSet_apply],
    by simp [await_suspend, GC_ADDREF, heapSet_apply],
    by simp [await_suspend, GC_ADDREF], by simp [await_suspend, GC_ADDREF], fun a => ?_⟩
  by_cases ha : a = task
  · subst ha; simp [await_suspend, GC_ADDREF, heapSet_apply]
  · simp [await_suspend, GC_ADDREF, heapSet_apply, ha]

/-- C12, as amended.  Suspension on a pending awaitable.  Inside a running task
`task`, an await of a task on the same scheduler that is neither settled nor
executed inline, or of a pending deferred awaitable, registers `task` once on
the target's continuation record (a record holding just `task` when the target
had none, otherwise `task` appended behind the entries already there) and on
no other record, raises the reference count of `task` by exactly 1, sets its
status from `RUNNING` to `SUSPENDED` and yields, keeping the value pointer and
the current context for the resumption. -/
theorem await_pending (env : Env) (uninit : Bool) (st : State) (used_ret : Bool)
    (task : TaskId) (hf : st.g.current_fiber = some task)
    (ht : (st.tasks task).type = CONCURRENT_FIBER_TYPE_TASK)
    (hs : (st.tasks task).status = fiber_status.RUNNING) :
    (∀ inner, (st.tasks inner).scheduler = (st.tasks task).scheduler →
      (st.tasks inner).status ≠ fiber_status.FINISHED →
      (st.tasks inner).status ≠ fiber_status.DEAD →
      ¬ inline_condition st task inner →
      (Task_await env uninit st
          (zval.OBJECT zend_class_entry.concurrent_task_ce inner) used_ret).2
        = await_result.suspended task (st.tasks task).value st.g.current_context ∧
      ((Task_await env uninit st
          (zval.OBJECT zend_class_entry.concurrent_task_ce inner) used_ret).1.tasks
          inner).continuation = attach_continuation (st.tasks inner).continuation task ∧
      (∀ a, a ≠ inner →
        ((Task_await env uninit st
          (zval.OBJECT zend_class_entry.concurrent_task_ce inner) used_ret).1.tasks
          a).continuation = (st.tasks a).continuation) ∧
      (Task_await env uninit st
          (zval.OBJECT zend_class_entry.concurrent_task_ce inner) used_ret).1.deferreds
        = st.deferreds ∧
      ((Task_await env uninit st
          (zval.OBJECT zend_class_entry.concurrent_task_ce inner) used_ret).1.tasks
          task).refcount = (st.tasks task).refcount + 1 ∧
      ((Task_await env uninit st
          (zval.OBJECT zend_class_entry.concurrent_task_ce inner) used_ret).1.tasks
          task).status = fiber_status.SUSPENDED ∧
      (Task_await env uninit st
          (zval.OBJECT zend_class_entry.concurrent_task_ce inner) used_ret).1.trace
        = st.trace ++ [Event.fiber_yield task]) ∧
    (∀ defer, (st.deferreds defer).status = deferred_status.PENDING →
      (Task_await env uninit st
          (zval.OBJECT zend_class_entry.concurrent_deferred_awaitable_ce defer) used_ret).2
        = await_result.suspended task (st.tasks task).value st.g.current_context ∧
      ((Task_await env uninit st
          (zval.OBJECT zend_class_entry.concurrent_deferred_awaitable_ce defer)
          used_ret).1.deferreds defer).continuation
        = attach_continuation (st.deferreds defer).continuation task ∧
      (∀ e, e ≠ defer →
        (Task_await env uninit st
          (zval.OBJECT zend_class_entry.concurrent_deferred_awaitable_ce defer)
          used_ret).1.deferreds e = st.deferreds e) ∧
      (∀ a, ((Task_await env uninit st
          (zval.OBJECT zend_class_entry.concurrent_deferred_awaitable_ce defer)
          used_ret).1.tasks a).continuation = (st.tasks a).continuation) ∧
      ((Task_await env uninit st
          (zval.OBJECT zend_class_entry.concurrent_deferred_awaitable_ce defer)
          used_ret).1.tasks task).refcount = (st.tasks task).refcount + 1 ∧
      ((Task_await env uninit st
          (zval.OBJECT zend_class_entry.concurrent_deferred_awaitable_ce defer)
          used_ret).1.tasks task).status = fiber_status.SUSPENDED ∧
      (Task_await env uninit st
          (zval.OBJECT zend_class_entry.concurrent_deferred_awaitable_ce defer)
          used_ret).1.trace = st.trace ++ [Event.fiber_yield task]) ∧
    attach_continuation none task = some [task] ∧
    (∀ waiters, attach_continuation (some waiters) task = some (waiters ++ [task])) := by
  refine ⟨fun inner hsch hnf hnd hni => ?_, fun defer hp => ?_, rfl, fun _ => rfl⟩
  · have heq : Task_await env uninit st
          (zval.OBJECT zend_class_entry.concurrent_task_ce inner) used_ret
        = await_suspend
            (st.setTask inner
              { st.tasks inner with
                continuation := attach_continuation (st.tasks inner).continuation task })
            task used_ret := by
      rw [await_task_eq env uninit st used_ret task inner hf ht hs]
      unfold inline_condition at hni
      unfold await_task
      by_cases h2 : (st.tasks inner).status = fiber_status.INIT
      · have h3 : ¬ (st.tasks inner).stack_size ≤ (st.tasks task).stack_size :=
          fun h3 => hni ⟨hsch, h2, h3⟩
        simp [hsch, h2, h3]
      · simp [hsch, h2, hnf, hnd]
    rw [heq]
    have hsp := await_suspend_spec
      (st.setTask inner
        { st.tasks inner with
          continuation := attach_continuation (st.tasks inner).continuation task })
      task used_ret
    obtain ⟨h1, h2, h3, h4, h5, h6⟩ := hsp
    by_cases hit : task = inner
    · subst hit
      refine ⟨by rw [h1]; simp [heapSet_apply], by rw [h6]; simp [heapSet_apply],
        fun a ha => by rw [h6]; simp [heapSet_apply, ha], h5,
        by rw [h2]; simp [heapSet_apply], h3, h4⟩
    · refine ⟨by rw [h1]; simp [heapSet_apply, hit], by rw [h6]; simp [heapSet_apply],
        fun a ha => by rw [h6]; simp [heapSet_apply, ha], h5,
        by rw [h2]; simp [heapSet_apply, hit], h3, h4⟩
  · have heq : Task_await env uninit st
          (zval.OBJECT zend_class_entry.concurrent_deferred_awaitable_ce defer) used_ret
        = await_suspend
            (st.setDefer defer
              { st.deferreds defer with
                continuation := attach_continuation (st.deferreds defer).continuation task })
            task used_ret := by
      unfold Task_await
      simp only [hf, ht, hs, ne_eq, not_true_eq_false, if_false, instanceof_awaitable]
      simp [await_deferred, hp]
    rw [heq]
    have hsp := await_suspend_spec
      (st.setDefer defer
        { st.deferreds defer with
          continuation := attach_continuation (st.deferreds defer).continuation task })
      task used_ret
    obtain ⟨h1, h2, h3, h4, h5, h6⟩ := hsp
    refine ⟨h1, by rw [h5]; simp [State.setDefer, heapSet_apply],
      fun e he => by rw [h5]; simp [State.setDefer, heapSet_apply, he], fun a => h6 a, h2, h3,
      h4⟩

/-- C12 on the example scenario: task 1, running, awaits the unstarted task 2,
whose stack is larger than its own. -/
theorem await_pending_witness :
    (Task_await exampleEnv false (stepSuspend (run_enter exampleSpawned 0) none)
        (zval.OBJECT zend_class_entry.concurrent_task_ce 2) true).2
      = await_result.suspended 1 (some value_ptr.result) none ∧
    ((Task_await exampleEnv false (stepSuspend (run_enter exampleSpawned 0) none)
        (zval.OBJECT zend_class_entry.concurrent_task_ce 2) true).1.tasks 2).continuation
      = some [1] ∧
    ((Task_await exampleEnv false (stepSuspend (run_enter exampleSpawned 0) none)
        (zval.OBJECT zend_class_entry.concurrent_task_ce 2) true).1.tasks 1).refcount = 3 ∧
    ((Task_await exampleEnv false (stepSuspend (run_enter exampleSpawned 0) none)
        (zval.OBJECT zend_class_entry.concurrent_task_ce 2) true).1.tasks 1).status
      = fiber_status.SUSPENDED := by
  have h := (await_pending exampleEnv false (stepSuspend (run_enter exampleSpawned 0) none) true
    1 (by decide) (by decide) (by decide)).1 2 (by decide) (by decide) (by decide)
    (fun hc => absurd hc.2.2 (by decide))
  refine ⟨?_, ?_, ?_, h.2.2.2.2.2.1⟩
  · rw [h.1]; decide
  · rw [h.2.1]; decide
  · rw [h.2.2.2.2.1]; decide

/-- C12, the claim as stated fails: in the example scenario, after task 2 has
settled and its continuation record has been triggered and emptied, task 1 is
still `SUSPENDED` (it is queued for resumption) but is registered on no
continuation record, neither of a task nor of a deferred. -/
theorem suspended_task_unregistered :
    (exampleAwaiting.tasks 1).status = fiber_status.SUSPENDED ∧
    (exampleAwaiting.tasks 2).continuation = some [1] ∧
    (exampleSettled.tasks 1).status = fiber_status.SUSPENDED ∧
    (exampleSettled.tasks 1).operation = task_operation.RESUME ∧
    (∀ t, (exampleSettled.tasks t).continuation = none) ∧
    (∀ d, (exampleSettled.deferreds d).continuation = none) := by
  refine ⟨by decide, by decide, by decide, by decide, fun t => ?_, fun d => rfl⟩
  by_cases h1 : t = 1
  · subst h1; decide
  by_cases h2 : t = 2
  · subst h2; decide
  by_cases h3 : t = 3
  · subst h3; decide
  simp [exampleSettled, exampleAwaiting, exampleSpawned, stepSuspend, Task_await, await_task,
    concurrent_task_execute_inline, concurrent_awaitable_trigger_continuation,
    concurrent_task_continuation, concurrent_task_scheduler_enqueue, OBJ_RELEASE, GC_ADDREF,
    concurrent_task_scheduler_suspend, suspend_loop, scheduler_pop, scheduler_dispatch,
    run_enter, TaskScheduler_task, concurrent_task_object_create, setStackSize, exampleState,
    exampleTask, exampleEnv, await_suspend, attach_continuation, heapSet_apply,
    concurrent_task_scheduler_object_create, instanceof_awaitable, CONCURRENT_FIBER_TYPE_TASK,
    h1, h2, h3]

/-! ## C19 and C20: the slots and the settlement flag of the inline path -/

theorem continuation_error_other (st : State) (w a : TaskId) (result : zval) (success : Bool)
    (ha : a ≠ w) :
    ((concurrent_task_continuation st w result success).tasks a).error = (st.tasks a).error := by
  rw [continuation_unfold]
  have h1 : ∀ st2 : State, ((OBJ_RELEASE st2 w).tasks a).error = (st2.tasks a).error := by
    intro st2; simp [OBJ_RELEASE, heapSet_apply, ha]
  have h2 : ∀ st2 : State,
      ((concurrent_task_scheduler_enqueue st2 w).1.tasks a).error = (st2.tasks a).error := by
    intro st2
    cases hsch : (st2.tasks w).scheduler with
    | none => rw [enqueue_rejected_eq st2 w (Or.inl hsch)]
    | some s =>
      cases ho : enqueue_operation (st2.tasks w).status with
      | none => rw [enqueue_rejected_eq st2 w (Or.inr ho)]
      | some o => rw [enqueue_tasks st2 w s o hsch ho a]
  rw [h1, h2, continuation_store_other st w a result success ha]

theorem continuation_fold_error (result : zval) (success : Bool) (a : TaskId) :
    ∀ (waiters : List TaskId) (st : State), a ∉ waiters →
      ((waiters.foldl (fun acc w => concurrent_task_continuation acc w result success) st).tasks
        a).error = (st.tasks a).error
  | [], _, _ => rfl
  | w :: waiters, st, hm => by
    simp only [List.foldl_cons]
    rw [continuation_fold_error result success a waiters _
      (fun h => hm (List.mem_cons_of_mem w h))]
    exact continuation_error_other st w a result success
      (fun e => hm (e ▸ List.mem_cons_self a waiters))

theorem trigger_error (st : State) (inner : TaskId) (result : zval) (success : Bool)
    (hm : inner ∉ waiters_of st inner) :
    ((concurrent_awaitable_trigger_continuation st inner result success).tasks inner).error
      = (st.tasks inner).error := by
  unfold concurrent_awaitable_trigger_continuation
  unfold waiters_of at hm
  cases hc : (st.tasks inner).continuation with
  | none => rfl
  | some waiters =>
    rw [hc] at hm
    simp only [setTask_tasks, heapSet_same]
    exact continuation_fold_error result success inner waiters st hm

/-- The inline path written out: the callable is invoked in
`inline_call_state`, then status and result slot are set and the continuation
record is triggered with the flag the code has at that point. -/
theorem execute_inline_unfold (env : Env) (uninit : Bool) (st : State) (inner : TaskId) :
    concurrent_task_execute_inline env uninit st inner =
      match (inline_call env st inner).2 with
      | call_result.threw e =>
        concurrent_awaitable_trigger_continuation
          (({ (inline_call env st inner).1 with
              g := { (inline_call env st inner).1.g with
                current_context := st.g.current_context } } : State).setTask inner
            { (inline_call env st inner).1.tasks inner with
              status := fiber_status.DEAD, result := e }) inner e uninit
      | call_result.returned v =>
        concurrent_awaitable_trigger_continuation
          (({ (inline_call env st inner).1 with
              g := { (inline_call env st inner).1.g with
                current_context := st.g.current_context } } : State).setTask inner
            { (inline_call env st inner).1.tasks inner with
              result := v, status := fiber_status.FINISHED }) inner v true := by
  unfold concurrent_task_execute_inline inline_call inline_call_state
  simp only
  split <;> simp [heapSet_apply]

/-- C19, as amended.  Terminal slots of the inline path.  When
`concurrent_task_execute_inline` has run the callable of a task: if the
callable returned `v`, the task is `FINISHED` and its result slot holds `v`; if
the callable raised `e`, the task is `DEAD` and its result slot holds `e`,
while its error slot is the one the callable left (for a task that is not its
own waiter), which is the undefined value a task is created with.  A task is
created with a `NULL` result slot and an undefined error slot. -/
theorem terminal_slots (env : Env) (uninit : Bool) (st : State) (inner : TaskId) :
    (∀ v, (inline_call env st inner).2 = call_result.returned v →
      ((concurrent_task_execute_inline env uninit st inner).tasks inner).status
        = fiber_status.FINISHED ∧
      ((concurrent_task_execute_inline env uninit st inner).tasks inner).result = v) ∧
    (∀ e, (inline_call env st inner).2 = call_result.threw e →
      ((concurrent_task_execute_inline env uninit st inner).tasks inner).status
        = fiber_status.DEAD ∧
      ((concurrent_task_execute_inline env uninit st inner).tasks inner).result = e ∧
      (inner ∉ waiters_of (inline_call env st inner).1 inner →
        ((concurrent_task_execute_inline env uninit st inner).tasks inner).error
          = ((inline_call env st inner).1.tasks inner).error)) ∧
    (∀ pointer_size st0,
      ((concurrent_task_object_create pointer_size inner st0).tasks inner).result = zval.NULL ∧
      ((concurrent_task_object_create pointer_size inner st0).tasks inner).error
        = zval.UNDEF) := by
  refine ⟨fun v hv => ?_, fun e he => ?_, fun _ _ => by simp [concurrent_task_object_create]⟩
  · rw [execute_inline_unfold, hv]
    simp only
    generalize hst5 : (State.setTask _ inner _) = st5
    have h5r : (st5.tasks inner).result = v := by rw [← hst5]; simp [heapSet_apply]
    have h5s : (st5.tasks inner).status = fiber_status.FINISHED := by
      rw [← hst5]; simp [heapSet_apply]
    have hk := trigger_keeps st5 inner true (by rw [h5s]; rfl)
    rw [h5r] at hk
    exact ⟨by rw [hk.1, h5s], hk.2.2.2.1⟩
  · rw [execute_inline_unfold, he]
    simp only
    generalize hst5 : (State.setTask _ inner _) = st5
    have h5r : (st5.tasks inner).result = e := by rw [← hst5]; simp [heapSet_apply]
    have h5s : (st5.tasks inner).status = fiber_status.DEAD := by
      rw [← hst5]; simp [heapSet_apply]
    have h5e : (st5.tasks inner).error = ((inline_call env st inner).1.tasks inner).error := by
      rw [← hst5]; simp [heapSet_apply]
    have h5w : waiters_of st5 inner = waiters_of (inline_call env st inner).1 inner := by
      rw [← hst5]; simp [waiters_of, heapSet_apply]
    have hk := trigger_keeps st5 inner uninit (by rw [h5s]; rfl)
    rw [h5r] at hk
    refine ⟨by rw [hk.1, h5s], hk.2.2.2.1, fun hm => ?_⟩
    rw [trigger_error st5 inner e uninit (by rw [h5w]; exact hm), h5e]

/-- C19 on the example scenario, for a callable that returns and for one that
raises. -/
theorem terminal_slots_witness :
    (inline_call exampleEnv exampleAwaiting 2).2 = call_result.returned (zval.LONG 2) ∧
    ((concurrent_task_execute_inline exampleEnv false exampleAwaiting 2).tasks 2).status
      = fiber_status.FINISHED ∧
    ((concurrent_task_execute_inline exampleEnv false exampleAwaiting 2).tasks 2).result
      = zval.LONG 2 ∧
    (inline_call throwEnv exampleAwaiting 2).2
      = call_result.threw (zval.OBJECT (zend_class_entry.user 7 false) 2) ∧
    ((concurrent_task_execute_inline throwEnv false exampleAwaiting 2).tasks 2).status
      = fiber_status.DEAD ∧
    ((concurrent_task_execute_inline throwEnv false exampleAwaiting 2).tasks 2).result
      = zval.OBJECT (zend_class_entry.user 7 false) 2 := by
  have h1 := (terminal_slots exampleEnv false exampleAwaiting 2).1 (zval.LONG 2) rfl
  have h2 := (terminal_slots throwEnv false exampleAwaiting 2).2.1
    (zval.OBJECT (zend_class_entry.user 7 false) 2) rfl
  exact ⟨rfl, h1.1, h1.2, rfl, h2.1, h2.2.1⟩

/-- C19, the claim as stated fails: in the example scenario task 2 is created
by `TaskScheduler::task`, still `INIT` when task 3 awaits it, and its callable
raises the exception object `E`.  After the inline execution task 2 is `DEAD`,
its error slot is still undefined, and `E` is in its result slot. -/
theorem inline_failure_leaves_error_slot_undefined :
    (exampleAwaiting.tasks 2).status = fiber_status.INIT ∧
    inline_condition exampleAwaiting 3 2 ∧
    ((Task_await throwEnv false exampleAwaiting
        (zval.OBJECT zend_class_entry.concurrent_task_ce 2) true).1.tasks 2).status
      = fiber_status.DEAD ∧
    ((Task_await throwEnv false exampleAwaiting
        (zval.OBJECT zend_class_entry.concurrent_task_ce 2) true).1.tasks 2).error
      = zval.UNDEF ∧
    ((Task_await throwEnv false exampleAwaiting
        (zval.OBJECT zend_class_entry.concurrent_task_ce 2) true).1.tasks 2).error
      ≠ zval.OBJECT (zend_class_entry.user 7 false) 2 ∧
    ((Task_await throwEnv false exampleAwaiting
        (zval.OBJECT zend_class_entry.concurrent_task_ce 2) true).1.tasks 2).result
      = zval.OBJECT (zend_class_entry.user 7 false) 2 :=
  ⟨by decide, ⟨by decide, by decide, by decide⟩, by decide, by decide, by decide, by decide⟩

/-- C20.  Settlement flag of the inline path on a failure.  In the example
scenario task 1 is registered on task 2, and the callable of task 2 raises the
exception object `E` when task 3 executes it inline.  The local `success` is
not assigned on this path (task.c:129-138).  When it happens to hold a
non-zero value, the waiter receives `E` as a success: `E` is stored in the
`return_value` of its await, its error slot stays undefined, and its resumed
await returns `E` instead of raising it.  Only when the indeterminate value
happens to be zero is the failure delivered as one. -/
theorem inline_failure_flag_indeterminate :
    (exampleAwaiting.tasks 2).continuation = some [1] ∧
    ((Task_await throwEnv true exampleAwaiting
        (zval.OBJECT zend_class_entry.concurrent_task_ce 2) true).1.tasks 2).status
      = fiber_status.DEAD ∧
    ((Task_await throwEnv true exampleAwaiting
        (zval.OBJECT zend_class_entry.concurrent_task_ce 2) true).1.tasks 1).error
      = zval.UNDEF ∧
    ((Task_await throwEnv true exampleAwaiting
        (zval.OBJECT zend_class_entry.concurrent_task_ce 2) true).1.tasks 1).return_value
      = zval.OBJECT (zend_class_entry.user 7 false) 2 ∧
    (Task_await_resume (exampleFailed true) 1 (some value_ptr.result) none).2
      = await_result.returned (zval.OBJECT (zend_class_entry.user 7 false) 2) ∧
    (Task_await_resume (exampleFailed false) 1 (some value_ptr.result) none).2
      = await_result.exception (zval.OBJECT (zend_class_entry.user 7 false) 2) :=
  ⟨by decide, by decide, by decide, by decide, by decide, by decide⟩

/-! ## C18: operation tags and queue membership -/

theorem suspend_eq (fuel : Nat) (st : State) (task : Option TaskId) (s : SchedId) :
    concurrent_task_scheduler_suspend fuel st task s
      = suspend_loop s
          (match task with
            | none => ((suspend_entry st task s).schedulers s).fiber
            | some t => ((suspend_entry st task s).tasks t).fiber)
          fuel (suspend_entry st task s) := rfl

/-- A property that every pass of the dispatcher loop keeps is kept by the
loop. -/
theorem suspend_loop_preserves {s : SchedId} (P : State → Prop)
    (hpass : ∀ st source, P st → P (dispatcher_pass st s source))
    (source : Option FiberContext) :
    ∀ (fuel : Nat) (st st1 : State) (target : Option TaskId), P st →
      suspend_loop s source fuel st = some (st1, target) → P st1
  | 0, _, _, _, _, h => by simp [suspend_loop] at h
  | fuel + 1, st, st1, target, hp, h => by
    unfold suspend_loop at h
    have hp2 := hpass st source hp
    cases hf : (st.schedulers s).first with
    | none =>
      simp only [hf] at h
      cases h
      rw [pass_empty st s source hf] at hp2
      exact hp2
    | some next =>
      simp only [hf] at h
      cases hd : scheduler_dispatch (scheduler_pop st s next) source next with
      | none =>
        simp only [hd] at h
        rw [dispatcher_pass_of_release st s source next hf hd] at hp2
        exact suspend_loop_preserves P hpass source fuel _ st1 target hp2 h
      | some st2 =>
        simp only [hd] at h
        cases h
        rw [dispatcher_pass_of_switch st st1 s source next hf hd] at hp2
        exact hp2

/-- The dispatcher loop switches to the scheduler's own fiber only on an empty
queue. -/
theorem suspend_loop_root {s : SchedId} (source : Option FiberContext) :
    ∀ (fuel : Nat) (st st1 : State), suspend_loop s source fuel st = some (st1, none) →
      (st1.schedulers s).first = none
  | 0, _, _, h => by simp [suspend_loop] at h
  | fuel + 1, st, st1, h => by
    unfold suspend_loop at h
    cases hf : (st.schedulers s).first with
    | none =>
      simp only [hf] at h
      cases h
      exact hf
    | some next =>
      simp only [hf] at h
      cases hd : scheduler_dispatch (scheduler_pop st s next) source next with
      | none =>
        simp only [hd] at h
        exact suspend_loop_root source fuel _ st1 h
      | some st2 =>
        simp only [hd] at h
        cases h

/-- A property kept by the entry of the dispatcher, by every pass of its loop
and by every task slice is kept by the whole dispatch, which ends on an empty
queue. -/
theorem dispatch_preserves {s : SchedId} (P : State → Prop)
    (hentry : ∀ st task, P st → P (suspend_entry st task s))
    (hpass : ∀ st source, P st → P (dispatcher_pass st s source))
    (slice : TaskId → State → State) (hslice : ∀ t st, P st → P (slice t st)) :
    ∀ (fuel : Nat) (st st1 : State) (task : Option TaskId), P st →
      dispatch slice s fuel st task = some st1 → P st1 ∧ (st1.schedulers s).first = none
  | 0, _, _, _, _, h => by simp [dispatch] at h
  | fuel + 1, st, st1, task, hp, h => by
    unfold dispatch at h
    cases hs : concurrent_task_scheduler_suspend (fuel + 1) st task s with
    | none => simp [hs] at h
    | some r =>
      obtain ⟨st2, target⟩ := r
      have hs2 := hs
      rw [suspend_eq] at hs2
      have hp2 := suspend_loop_preserves P hpass _ (fuel + 1) _ st2 target
        (hentry st task hp) hs2
      cases target with
      | none =>
        simp only [hs] at h
        cases h
        exact ⟨hp2, suspend_loop_root _ (fuel + 1) _ st1 hs2⟩
      | some next =>
        simp only [hs] at h
        exact dispatch_preserves P hentry hpass slice hslice fuel _ st1 (some next)
          (hslice next st2 hp2) h

/-- A property kept by the parts of `run` is kept by `run`. -/
theorem run_preserves {s : SchedId} (P : State → Prop)
    (henter : ∀ st, P st → P (run_enter st s))
    (hentry : ∀ st task, P st → P (suspend_entry st task s))
    (hpass : ∀ st source, P st → P (dispatcher_pass st s source))
    (hleave : ∀ st fiber prev, P st → (st.schedulers s).first = none →
      P (run_leave st s fiber prev).state)
    (slice : TaskId → State → State) (hslice : ∀ t st, P st → P (slice t st))
    (fuel : Nat) (st : State) (r : run_result) (hp : P st)
    (h : TaskScheduler_run slice fuel st s = some r) : P r.state := by
  unfold TaskScheduler_run at h
  cases hf : (st.schedulers s).first with
  | none =>
    simp only [hf] at h
    cases h
    exact hp
  | some t =>
    simp only [hf] at h
    cases hd : dispatch slice s fuel (run_enter st s) none with
    | none => simp [hd] at h
    | some st1 =>
      simp only [hd] at h
      cases h
      have h1 := dispatch_preserves P hentry hpass slice hslice fuel _ st1 none (henter st hp) hd
      exact hleave st1 _ _ h1.1 h1.2

theorem OBJ_RELEASE_scheduler (st : State) (t a : TaskId) :
    ((OBJ_RELEASE st t).tasks a).scheduler = (st.tasks a).scheduler := by
  unfold OBJ_RELEASE
  by_cases ha : a = t
  · subst ha; simp [heapSet_apply]
  · simp [heapSet_apply, ha]

/-- Code that leaves the queue, the operation tags and the scheduler pointers
alone satisfies `TagFrame`. -/
theorem tagFrame_of_same {s : SchedId} {st st2 : State} (hq : QueueFrame s st st2)
    (h : ∀ t, (st2.tasks t).operation = (st.tasks t).operation ∧
      (st2.tasks t).scheduler = (st.tasks t).scheduler) : TagFrame s st st2 :=
  ⟨hq, fun t ht => Or.inr ⟨(h t).1, by rw [← (h t).2]; exact ht⟩⟩

theorem suspend_entry_tagFrame (s : SchedId) (st : State) (task : Option TaskId) :
    TagFrame s st (suspend_entry st task s) := by
  refine tagFrame_of_same (suspend_entry_frame s st task) (fun t => ?_)
  unfold suspend_entry
  cases (st.schedulers s).current with
  | none => exact ⟨rfl, rfl⟩
  | some c => exact ⟨(OBJ_RELEASE_keeps st c t).2.2.1, OBJ_RELEASE_scheduler st c t⟩

theorem run_enter_tagFrame (s : SchedId) (st : State) : TagFrame s st (run_enter st s) := by
  refine tagFrame_of_same (run_enter_frame s st) (fun t => ?_)
  unfold run_enter
  cases st.g.current_fiber with
  | some fiber => exact ⟨rfl, rfl⟩
  | none =>
    cases st.g.root with
    | some r => exact ⟨rfl, rfl⟩
    | none => exact ⟨rfl, rfl⟩

theorem run_leave_tagFrame (s : SchedId) (st : State) (fiber : Option TaskId)
    (prev : Option SchedId) (hl : (st.schedulers s).last = none) :
    TagFrame s st (run_leave st s fiber prev).state := by
  refine tagFrame_of_same (run_leave_frame s st fiber prev hl) (fun t => ?_)
  unfold run_leave
  cases hc : (st.schedulers s).current <;> cases hfat : st.g.fatal
  · simp [hc, hfat, run_result.state]
  · simp [hc, hfat, run_result.state]
  · simp only [hc, hfat, run_result.state, setSched_tasks, setTask_g, setSched_g]
    exact ⟨(OBJ_RELEASE_keeps _ _ t).2.2.1, OBJ_RELEASE_scheduler _ _ t⟩
  · simp only [hc, hfat, run_result.state, setSched_tasks, setTask_g, setSched_g]
    exact ⟨(OBJ_RELEASE_keeps _ _ t).2.2.1, OBJ_RELEASE_scheduler _ _ t⟩

theorem scheduler_pop_fields (st : State) (s : SchedId) (t a : TaskId) :
    ((scheduler_pop st s t).tasks a).operation = (st.tasks a).operation ∧
    ((scheduler_pop st s t).tasks a).scheduler = (st.tasks a).scheduler ∧
    ((scheduler_pop st s t).tasks a).status = (st.tasks a).status := by
  unfold scheduler_pop
  by_cases ha : a = t
  · subst ha
    simp only [setTask_tasks, heapSet_same]
    split <;> exact ⟨rfl, rfl, rfl⟩
  · simp only [setTask_tasks, heapSet_apply, if_neg ha]
    split <;> exact ⟨rfl, rfl, rfl⟩

/-- After a pass of the dispatcher loop the popped task carries no tag; the
other tags and all scheduler pointers are as before. -/
theorem pass_operation (st : State) (s : SchedId) (source : Option FiberContext) (t a : TaskId)
    (hf : (st.schedulers s).first = some t) :
    ((dispatcher_pass st s source).tasks a).operation
      = (if a = t then task_operation.NONE else (st.tasks a).operation) ∧
    ((dispatcher_pass st s source).tasks a).scheduler = (st.tasks a).scheduler := by
  have hp := scheduler_pop_fields st s t a
  cases hd : scheduler_dispatch (scheduler_pop st s t) source t with
  | none =>
    rw [dispatcher_pass_of_release st s source t hf hd]
    rw [(OBJ_RELEASE_keeps _ t a).2.2.1, OBJ_RELEASE_scheduler, hp.1, hp.2.1]
    refine ⟨?_, rfl⟩
    by_cases ha : a = t
    · subst ha
      unfold scheduler_dispatch at hd
      split at hd
      · rename_i hop
        rw [(scheduler_pop_fields st s a a).1] at hop
        simp [hop]
      · split at hd <;> cases hd
    · simp [ha]
  | some st2 =>
    rw [dispatcher_pass_of_switch st st2 s source t hf hd]
    unfold scheduler_dispatch at hd
    split at hd
    · cases hd
    · split at hd
      · cases hd
        by_cases ha : a = t
        · subst ha; simp [heapSet_apply, hp.2.1]
        · simp [heapSet_apply, ha, hp.1, hp.2.1]
      · cases hd
        by_cases ha : a = t
        · subst ha; simp [heapSet_apply, hp.2.1]
        · simp [heapSet_apply, ha, hp.1, hp.2.1]

theorem tagged_frame {s : SchedId} {st st2 : State} (h : Tagged s st) (hf : TagFrame s st st2) :
    Tagged s st2 := by
  obtain ⟨q, hq, ht⟩ := h
  refine ⟨q, hq.frame hf.1, fun t hs hop => ?_⟩
  rcases hf.2 t hs with h0 | ⟨h1, h2⟩
  · rw [h0] at hop
    rcases hop with h | h <;> cases h
  · rw [h1] at hop
    exact ht t h2 hop

theorem tagged_enqueue {s : SchedId} {st : State} (h : Tagged s st) (task : TaskId)
    (he : Enqueueable s st task) : Tagged s (concurrent_task_scheduler_enqueue st task).1 := by
  obtain ⟨q, hq, ht⟩ := h
  obtain ⟨hs, hnext, hnq⟩ := he
  cases ho : enqueue_operation (st.tasks task).status with
  | none =>
    rw [enqueue_rejected_eq st task (Or.inr ho)]
    exact ⟨q, hq, ht⟩
  | some o =>
    refine ⟨q ++ [task], enqueue_isQueue st task s o q hs ho hq (hnq q hq) hnext,
      fun t hsch hop => ?_⟩
    rw [enqueue_scheduler_field] at hsch
    by_cases hat : t = task
    · subst hat; simp
    · rw [enqueue_tasks st task s o hs ho t] at hop
      simp only [if_neg hat] at hop
      exact List.mem_append_left _ (ht t hsch hop)

theorem tagged_pass {s : SchedId} {st : State} (h : Tagged s st)
    (source : Option FiberContext) : Tagged s (dispatcher_pass st s source) := by
  obtain ⟨q, hq, ht⟩ := h
  cases q with
  | nil =>
    rw [pass_empty st s source hq.first_nil.1]
    exact ⟨[], ⟨hq.chain, hq.last_eq, hq.nodup⟩, ht⟩
  | cons a q =>
    refine ⟨q, pass_isQueue st s source a q hq, fun t hsch hop => ?_⟩
    have hpo := pass_operation st s source a t hq.first_cons
    rw [hpo.2] at hsch
    rw [hpo.1] at hop
    by_cases hta : t = a
    · subst hta
      simp at hop
    · simp only [if_neg hta] at hop
      have := ht t hsch hop
      rcases List.mem_cons.mp this with h | h
      · exact absurd h hta
      · exact h

theorem tagged_tagSteps {s : SchedId} {st st2 : State} (h : Tagged s st)
    (hu : TagSteps s st st2) : Tagged s st2 := by
  induction hu with
  | refl => exact h
  | enqueue task _ he ih => exact tagged_enqueue ih task he
  | other _ hf ih => exact tagged_frame ih hf

theorem tagged_run_leave {s : SchedId} (st : State) (fiber : Option TaskId)
    (prev : Option SchedId) (h : Tagged s st) (hf : (st.schedulers s).first = none) :
    Tagged s (run_leave st s fiber prev).state := by
  obtain ⟨q, hq, ht⟩ := h
  have hnil := isQueue_nil_of_first hq hf
  subst hnil
  exact tagged_frame ⟨[], hq, ht⟩ (run_leave_tagFrame s st fiber prev hq.first_nil.2)

/-- C18, as amended.  In every state of scheduler `s` reachable from its
creation by enqueue (of tasks of `s` that are not queued), by code that leaves
the queue alone and clears or keeps operation tags, by passes of the dispatcher
loop and by calls of `run`, every task of `s` whose operation is `START` or
`RESUME` is in the queue of `s`. -/
theorem tagged_tasks_are_queued (s : SchedId) (st : State) (h : TagReachable s st) :
    ∃ q, IsQueue st s q ∧
      ∀ t, (st.tasks t).scheduler = some s →
        ((st.tasks t).operation = task_operation.START ∨
          (st.tasks t).operation = task_operation.RESUME) → t ∈ q := by
  induction h with
  | fresh st hfresh hops =>
    refine ⟨[], ⟨?_, ?_, List.nodup_nil⟩, fun t hs hop => ?_⟩
    · show (st.schedulers s).first = none
      rw [hfresh]; rfl
    · rw [hfresh]; rfl
    · rw [hops t hs] at hop
      rcases hop with h | h <;> cases h
  | user _ hu ih => exact tagged_tagSteps ih hu
  | pass source _ ih => exact tagged_pass ih source
  | run slice fuel r _ hslice hrun ih =>
    exact run_preserves (Tagged s)
      (fun st hp => tagged_frame hp (run_enter_tagFrame s st))
      (fun st task hp => tagged_frame hp (suspend_entry_tagFrame s st task))
      (fun st source hp => tagged_pass hp source)
      (fun st fiber prev hp hf => tagged_run_leave st fiber prev hp hf)
      slice (fun t st hp => tagged_tagSteps hp (hslice t st)) fuel _ r ih hrun

theorem exampleQueued_tagReachable : TagReachable 0 exampleQueued := by
  have h0 : TagReachable 0 exampleState := TagReachable.fresh exampleState rfl (fun _ _ => rfl)
  refine TagReachable.user h0 ?_
  refine TagSteps.enqueue 2 (TagSteps.enqueue 1 (TagSteps.refl _) ?_) ?_
  · exact enqueueable_of_isQueue [] ⟨by decide, by decide, by decide⟩ (by decide)
      (by decide) (by decide)
  · exact enqueueable_of_isQueue [1] ⟨by decide, by decide, by decide⟩ (by decide)
      (by decide) (by decide)

theorem exampleInlined_tagFrame : TagFrame 0 exampleStarted exampleInlined := by
  refine ⟨⟨by decide, by decide, by decide, fun t => ?_⟩, fun t _ => ?_⟩
  · by_cases h1 : t = 1
    · subst h1; decide
    by_cases h2 : t = 2
    · subst h2; decide
    simp [exampleInlined, exampleStarted, exampleQueued, dispatcher_pass, Task_await, await_task,
      concurrent_task_execute_inline, concurrent_awaitable_trigger_continuation,
      concurrent_task_scheduler_enqueue, OBJ_RELEASE, GC_ADDREF, scheduler_pop,
      scheduler_dispatch, exampleState, exampleTask, exampleEnv, heapSet_apply,
      concurrent_task_scheduler_object_create, instanceof_awaitable,
      CONCURRENT_FIBER_TYPE_TASK, h1, h2]
  · by_cases h1 : t = 1
    · subst h1; exact Or.inr ⟨by decide, by decide⟩
    by_cases h2 : t = 2
    · subst h2; exact Or.inl (by decide)
    refine Or.inr ⟨?_, ?_⟩
    · simp [exampleInlined, exampleStarted, exampleQueued, dispatcher_pass, Task_await,
        await_task, concurrent_task_execute_inline, concurrent_awaitable_trigger_continuation,
        concurrent_task_scheduler_enqueue, OBJ_RELEASE, GC_ADDREF, scheduler_pop,
        scheduler_dispatch, exampleState, exampleTask, exampleEnv, heapSet_apply,
        concurrent_task_scheduler_object_create, instanceof_awaitable,
        CONCURRENT_FIBER_TYPE_TASK, h1, h2]
    · simp [exampleStarted, exampleQueued, dispatcher_pass,
        concurrent_task_scheduler_enqueue, OBJ_RELEASE, GC_ADDREF, scheduler_pop,
        scheduler_dispatch, exampleState, exampleTask, heapSet_apply,
        concurrent_task_scheduler_object_create, h1, h2]

/-- C18 on the example state with tasks 1 and 2 enqueued: both carry the tag
`START` and both are in the queue. -/
theorem tagged_tasks_are_queued_witness :
    (exampleQueued.tasks 1).operation = task_operation.START ∧
    (exampleQueued.tasks 2).operation = task_operation.START ∧
    ∃ q, IsQueue exampleQueued 0 q ∧
      ∀ t, (exampleQueued.tasks t).scheduler = some 0 →
        ((exampleQueued.tasks t).operation = task_operation.START ∨
          (exampleQueued.tasks t).operation = task_operation.RESUME) → t ∈ q :=
  ⟨by decide, by decide, tagged_tasks_are_queued 0 exampleQueued exampleQueued_tagReachable⟩

/-- C18, the claim as stated fails: the state in which the running task 1 has
awaited the queued task 2 is reachable, task 2 was executed inline and is
still in the queue of its scheduler, but its operation is `NONE`, neither
`START` nor `RESUME`. -/
theorem queued_task_without_tag :
    TagReachable 0 exampleInlined ∧
    IsQueue exampleInlined 0 [2] ∧
    (exampleInlined.tasks 2).scheduler = some 0 ∧
    (exampleInlined.tasks 2).status = fiber_status.FINISHED ∧
    (exampleInlined.tasks 2).operation = task_operation.NONE ∧
    ¬ ((exampleInlined.tasks 2).operation = task_operation.START ∨
      (exampleInlined.tasks 2).operation = task_operation.RESUME) := by
  refine ⟨?_, ⟨by decide, by decide, by decide⟩, by decide, by decide, by decide, by decide⟩
  have h1 : TagReachable 0 exampleStarted := TagReachable.pass none exampleQueued_tagReachable
  exact TagReachable.user h1 (TagSteps.other (TagSteps.refl _) exampleInlined_tagFrame)

/-! ## C21: reference accounting of the hooks -/

@[simp] theorem setTask_callables (st : State) (t : TaskId) (v : concurrent_task) :
    (st.setTask t v).callables = st.callables := rfl
@[simp] theorem setSched_callables (st : State) (s : SchedId) (v : concurrent_task_scheduler) :
    (st.setSched s v).callables = st.callables := rfl
@[simp] theorem emit_callables (st : State) (e : Event) :
    (st.emit e).callables = st.callables := rfl

/-- Installing a hook on a scheduler that has none: the scheduler records the
callable, sets the flag and takes exactly one reference; no other reference
count changes. -/
theorem hook_first_install (st : State) (s : SchedId) (cb : Nat) :
    ((st.schedulers s).activator = false →
      ((TaskScheduler_activator st s cb).schedulers s).activator = true ∧
      ((TaskScheduler_activator st s cb).schedulers s).activator_fci = some cb ∧
      (TaskScheduler_activator st s cb).callables cb = st.callables cb + 1 ∧
      ∀ c, c ≠ cb → (TaskScheduler_activator st s cb).callables c = st.callables c) ∧
    ((st.schedulers s).adapter = false →
      ((TaskScheduler_adapter st s cb).schedulers s).adapter = true ∧
      ((TaskScheduler_adapter st s cb).schedulers s).adapter_fci = some cb ∧
      (TaskScheduler_adapter st s cb).callables cb = st.callables cb + 1 ∧
      ∀ c, c ≠ cb → (TaskScheduler_adapter st s cb).callables c = st.callables c) := by
  constructor
  · intro h
    refine ⟨?_, ?_, ?_, fun c hc => ?_⟩ <;>
      simp [TaskScheduler_activator, Z_TRY_ADDREF, zval_ptr_dtor, heapSet_apply, h]
    exact fun e => absurd e hc
  · intro h
    refine ⟨?_, ?_, ?_, fun c hc => ?_⟩ <;>
      simp [TaskScheduler_adapter, Z_TRY_ADDREF, zval_ptr_dtor, heapSet_apply, h]
    exact fun e => absurd e hc

/-- Replacing an installed hook: the release goes to the callable that was
just parsed into the field, so for a new callable that has a reference to
drop no reference count changes at all, the one of the replaced callable
included. -/
theorem hook_replace (st : State) (s : SchedId) (cb : Nat) (hpos : 0 < st.callables cb) :
    ((st.schedulers s).activator = true →
      ((TaskScheduler_activator st s cb).schedulers s).activator_fci = some cb ∧
      (TaskScheduler_activator st s cb).callables = st.callables) ∧
    ((st.schedulers s).adapter = true →
      ((TaskScheduler_adapter st s cb).schedulers s).adapter_fci = some cb ∧
      (TaskScheduler_adapter st s cb).callables = st.callables) := by
  constructor
  · intro h
    refine ⟨by simp [TaskScheduler_activator, Z_TRY_ADDREF, zval_ptr_dtor, heapSet_apply, h], ?_⟩
    funext c
    by_cases hc : c = cb
    · subst hc
      simp [TaskScheduler_activator, Z_TRY_ADDREF, zval_ptr_dtor, heapSet_apply, h]
      omega
    · simp [TaskScheduler_activator, Z_TRY_ADDREF, zval_ptr_dtor, heapSet_apply, h, hc]
  · intro h
    refine ⟨by simp [TaskScheduler_adapter, Z_TRY_ADDREF, zval_ptr_dtor, heapSet_apply, h], ?_⟩
    funext c
    by_cases hc : c = cb
    · subst hc
      simp [TaskScheduler_adapter, Z_TRY_ADDREF, zval_ptr_dtor, heapSet_apply, h]
      omega
    · simp [TaskScheduler_adapter, Z_TRY_ADDREF, zval_ptr_dtor, heapSet_apply, h, hc]

/-- C21.  Hook reference accounting on replacement.  On the example scheduler
the activator is first set to callable 1, whose reference count goes from 2 to
3, and is then replaced by callable 2.  After the replacement the scheduler
records callable 2, but the reference count of callable 1 is still 3 (the
reference the scheduler held on it is not released) and the one of callable 2
is still 2 (it has not grown by 1).  The adapter behaves the same way. -/
theorem hook_replacement_keeps_counts :
    (TaskScheduler_activator exampleHooks 0 1).callables 1 = 3 ∧
    ((TaskScheduler_activator (TaskScheduler_activator exampleHooks 0 1) 0 2).schedulers
      0).activator_fci = some 2 ∧
    (TaskScheduler_activator (TaskScheduler_activator exampleHooks 0 1) 0 2).callables 1 = 3 ∧
    (TaskScheduler_activator (TaskScheduler_activator exampleHooks 0 1) 0 2).callables 2 = 2 ∧
    (TaskScheduler_adapter exampleHooks 0 1).callables 1 = 3 ∧
    ((TaskScheduler_adapter (TaskScheduler_adapter exampleHooks 0 1) 0 2).schedulers
      0).adapter_fci = some 2 ∧
    (TaskScheduler_adapter (TaskScheduler_adapter exampleHooks 0 1) 0 2).callables 1 = 3 ∧
    (TaskScheduler_adapter (TaskScheduler_adapter exampleHooks 0 1) 0 2).callables 2 = 2 := by
  decide

/-! ## C23: one call of the dispatcher -/

theorem scheduler_pop_tasks (st : State) (s : SchedId) (t a : TaskId) :
    (scheduler_pop st s t).tasks a
      = if a = t then { st.tasks t with next := none } else st.tasks a := by
  unfold scheduler_pop
  by_cases ha : a = t
  · subst ha
    simp only [setTask_tasks, heapSet_same, if_true]
    split <;> rfl
  · simp only [setTask_tasks, heapSet_apply, if_neg ha]
    split <;> rfl

theorem scheduler_pop_rest (st : State) (s : SchedId) (t : TaskId) :
    (scheduler_pop st s t).trace = st.trace ∧ (scheduler_pop st s t).contexts = st.contexts ∧
    (scheduler_pop st s t).g = st.g := by
  unfold scheduler_pop
  simp only [setTask_trace, setTask_contexts, setTask_g]
  split <;> exact ⟨rfl, rfl, rfl⟩

/-- A pass of the dispatcher loop over a head without a tag: the task is
unlinked and its queue reference released; nothing is switched into. -/
theorem pass_release_spec (st : State) (s : SchedId) (source : Option FiberContext)
    (h : TaskId) (hf : (st.schedulers s).first = some h)
    (hop : (st.tasks h).operation = task_operation.NONE) :
    scheduler_dispatch (scheduler_pop st s h) source h = none ∧
    (dispatcher_pass st s source).tasks h
      = { st.tasks h with next := none, refcount := (st.tasks h).refcount - 1 } ∧
    (∀ a, a ≠ h → (dispatcher_pass st s source).tasks a = st.tasks a) ∧
    (dispatcher_pass st s source).trace = st.trace ∧
    (dispatcher_pass st s source).contexts = st.contexts ∧
    (dispatcher_pass st s source).g = st.g := by
  have hd : scheduler_dispatch (scheduler_pop st s h) source h = none := by
    unfold scheduler_dispatch
    rw [(scheduler_pop_fields st s h h).1, hop]
    simp
  rw [dispatcher_pass_of_release st s source h hf hd]
  have hr := scheduler_pop_rest st s h
  refine ⟨hd, ?_, fun a ha => ?_, hr.1, hr.2.1, hr.2.2⟩
  · simp [OBJ_RELEASE, heapSet_apply, scheduler_pop_tasks]
  · simp [OBJ_RELEASE, heapSet_apply, scheduler_pop_tasks, ha]

/-- A pass of the dispatcher loop over a head tagged `START` or `RESUME`: the
task is unlinked, loses its tag, becomes `RUNNING` and the current fiber, gets
a fresh native context when it is started, and is switched into. -/
theorem pass_switch_spec (st : State) (s : SchedId) (source : Option FiberContext)
    (h : TaskId) (hf : (st.schedulers s).first = some h)
    (hop : (st.tasks h).operation ≠ task_operation.NONE) :
    scheduler_dispatch (scheduler_pop st s h) source h = some (dispatcher_pass st s source) ∧
    ((dispatcher_pass st s source).tasks h).operation = task_operation.NONE ∧
    ((dispatcher_pass st s source).tasks h).status = fiber_status.RUNNING ∧
    ((dispatcher_pass st s source).tasks h).refcount = (st.tasks h).refcount ∧
    ((st.tasks h).operation = task_operation.START →
      ((dispatcher_pass st s source).tasks h).fiber = some st.contexts ∧
      (dispatcher_pass st s source).contexts = st.contexts + 1) ∧
    ((st.tasks h).operation = task_operation.RESUME →
      ((dispatcher_pass st s source).tasks h).fiber = (st.tasks h).fiber ∧
      (dispatcher_pass st s source).contexts = st.contexts) ∧
    (∀ a, a ≠ h → (dispatcher_pass st s source).tasks a = st.tasks a) ∧
    (dispatcher_pass st s source).g.current_fiber = some h ∧
    (dispatcher_pass st s source).trace
      = st.trace ++ [Event.switch_context source ((dispatcher_pass st s source).tasks h).fiber] := by
  have hr := scheduler_pop_rest st s h
  have hpo := (scheduler_pop_fields st s h h).1
  by_cases hstart : (st.tasks h).operation = task_operation.START
  · have hd : scheduler_dispatch (scheduler_pop st s h) source h
        = some (dispatcher_pass st s source) := by
      unfold dispatcher_pass
      simp only [hf]
      unfold scheduler_dispatch
      simp [hpo, hstart]
    have hd2 := hd
    unfold scheduler_dispatch at hd2
    simp only [hpo, hstart] at hd2
    simp only [reduceCtorEq, if_false, if_true, Option.some.injEq] at hd2
    rw [← hd2]
    refine ⟨by rw [hd2]; exact hd, ?_, ?_, ?_, fun _ => ⟨?_, ?_⟩, fun hres => ?_, fun a ha => ?_,
      ?_, ?_⟩
    · simp [heapSet_apply]
    · simp [heapSet_apply]
    · simp [heapSet_apply, scheduler_pop_tasks]
    · simp [heapSet_apply, hr.2.1]
    · simp [hr.2.1]
    · rw [hstart] at hres; cases hres
    · simp [heapSet_apply, ha, scheduler_pop_tasks]
    · simp
    · simp [heapSet_apply, hr.1]
  · have hres : (st.tasks h).operation = task_operation.RESUME := by
      cases hc : (st.tasks h).operation with
      | NONE => exact absurd hc hop
      | START => exact absurd hc hstart
      | RESUME => rfl
    have hd : scheduler_dispatch (scheduler_pop st s h) source h
        = some (dispatcher_pass st s source) := by
      unfold dispatcher_pass
      simp only [hf]
      unfold scheduler_dispatch
      simp [hpo, hres]
    have hd2 := hd
    unfold scheduler_dispatch at hd2
    simp only [hpo, hres] at hd2
    simp only [reduceCtorEq, if_false, Option.some.injEq] at hd2
    rw [← hd2]
    refine ⟨by rw [hd2]; exact hd, ?_, ?_, ?_, fun hs => ?_, fun _ => ⟨?_, ?_⟩, fun a ha => ?_,
      ?_, ?_⟩
    · simp [heapSet_apply]
    · simp [heapSet_apply]
    · simp [heapSet_apply, scheduler_pop_tasks]
    · rw [hres] at hs; cases hs
    · simp [heapSet_apply, scheduler_pop_tasks]
    · simp [hr.2.1]
    · simp [heapSet_apply, ha, scheduler_pop_tasks]
    · simp
    · simp [heapSet_apply, hr.1]

/-- The dispatcher loop on a queue that starts with tasks without a tag,
followed by a tagged task `t`: it pops all of them, releases the untagged ones
and switches into `t`. -/
theorem suspend_loop_switch {s : SchedId} (source : Option FiberContext) (t : TaskId)
    (rest : List TaskId) :
    ∀ (nones : List TaskId) (fuel : Nat) (st : State),
      IsQueue st s (nones ++ t :: rest) →
      (∀ n ∈ nones, (st.tasks n).operation = task_operation.NONE) →
      (st.tasks t).operation ≠ task_operation.NONE → nones.length < fuel →
      ∃ st1, suspend_loop s source fuel st = some (st1, some t) ∧
        IsQueue st1 s rest ∧
        (st1.schedulers s).scheduled = (st.schedulers s).scheduled - (nones.length + 1) ∧
        (∀ n ∈ nones, st1.tasks n
          = { st.tasks n with next := none, refcount := (st.tasks n).refcount - 1 }) ∧
        (st1.tasks t).operation = task_operation.NONE ∧
        (st1.tasks t).status = fiber_status.RUNNING ∧
        (st1.tasks t).refcount = (st.tasks t).refcount ∧
        ((st.tasks t).operation = task_operation.START →
          (st1.tasks t).fiber = some st.contexts) ∧
        ((st.tasks t).operation = task_operation.RESUME →
          (st1.tasks t).fiber = (st.tasks t).fiber) ∧
        (∀ a, a ∉ nones → a ≠ t → st1.tasks a = st.tasks a) ∧
        st1.g.current_fiber = some t ∧
        st1.trace = st.trace ++ [Event.switch_context source (st1.tasks t).fiber]
  | [], fuel, st, hq, _, hop, hlen => by
    obtain ⟨fuel, rfl⟩ : ∃ k, fuel = k + 1 := ⟨fuel - 1, by simp at hlen; omega⟩
    have hq2 : IsQueue st s (t :: rest) := by simpa using hq
    have hf := hq2.first_cons
    have hsp := pass_switch_spec st s source t hf hop
    refine ⟨dispatcher_pass st s source, ?_, pass_isQueue st s source t rest hq2, ?_,
      fun n hn => by simp at hn, hsp.2.1, hsp.2.2.1, hsp.2.2.2.1, fun h => (hsp.2.2.2.2.1 h).1,
      fun h => (hsp.2.2.2.2.2.1 h).1, fun a _ ha => hsp.2.2.2.2.2.2.1 a ha,
      hsp.2.2.2.2.2.2.2.1, hsp.2.2.2.2.2.2.2.2⟩
    · unfold suspend_loop
      simp only [hf, hsp.1]
    · rw [pass_schedulers st s source t hf s, if_pos rfl]
      simp
  | n :: nones, fuel, st, hq, hnone, hop, hlen => by
    obtain ⟨fuel, rfl⟩ : ∃ k, fuel = k + 1 := ⟨fuel - 1, by simp at hlen; omega⟩
    have hq2 : IsQueue st s (n :: (nones ++ t :: rest)) := by simpa using hq
    have hf := hq2.first_cons
    have hnd := hq2.nodup
    rw [List.nodup_cons] at hnd
    have hn_nones : n ∉ nones := fun h => hnd.1 (List.mem_append_left _ h)
    have hn_t : n ≠ t := fun e => hnd.1 (by rw [e]; simp)
    have hsp := pass_release_spec st s source n hf (hnone n (List.mem_cons_self n nones))
    have hq3 := pass_isQueue st s source n (nones ++ t :: rest) hq2
    have hih := suspend_loop_switch source t rest nones fuel (dispatcher_pass st s source) hq3
      (fun a ha => by
        have hane : a ≠ n := fun e => hn_nones (e ▸ ha)
        rw [hsp.2.2.1 a hane]
        exact hnone a (List.mem_cons_of_mem n ha))
      (by rw [hsp.2.2.1 t (fun e => hn_t e.symm)]; exact hop)
      (by simp only [List.length_cons] at hlen; omega)
    obtain ⟨st1, h1, h2, h3, h4, h5, h6, h7, h8, h9, h10, h11, h12⟩ := hih
    have ht_same := hsp.2.2.1 t (fun e => hn_t e.symm)
    refine ⟨st1, ?_, h2, ?_, fun a ha => ?_, h5, h6, by rw [h7, ht_same],
      fun h => by rw [h8 (by rw [ht_same]; exact h), hsp.2.2.2.2.1],
      fun h => by rw [h9 (by rw [ht_same]; exact h), ht_same], fun a ha hat => ?_, h11,
      by rw [h12, hsp.2.2.2.1]⟩
    · unfold suspend_loop
      simp only [hf, hsp.1]
      rw [← dispatcher_pass_of_release st s source n hf hsp.1]
      exact h1
    · rw [h3, pass_schedulers st s source n hf s, if_pos rfl]
      simp only [List.length_cons]
      push_cast
      ring
    · rcases List.mem_cons.mp ha with e | hmem
      · subst e
        rw [h10 a hn_nones hn_t, hsp.2.1]
      · have hane : a ≠ n := fun e => hn_nones (e ▸ hmem)
        rw [h4 a hmem, hsp.2.2.1 a hane]
    · have hane : a ≠ n := fun e => ha (e ▸ List.mem_cons_self a nones)
      rw [h10 a (fun h => ha (List.mem_cons_of_mem n h)) hat, hsp.2.2.1 a hane]

/-- The dispatcher loop on a queue of tasks without a tag: it pops and
releases all of them and switches to the scheduler's own fiber. -/
theorem suspend_loop_drain {s : SchedId} (source : Option FiberContext) :
    ∀ (q : List TaskId) (fuel : Nat) (st : State), IsQueue st s q →
      (∀ n ∈ q, (st.tasks n).operation = task_operation.NONE) → q.length < fuel →
      ∃ st1, suspend_loop s source fuel st = some (st1, none) ∧
        IsQueue st1 s [] ∧
        (st1.schedulers s).scheduled = (st.schedulers s).scheduled - q.length ∧
        (∀ n ∈ q, st1.tasks n
          = { st.tasks n with next := none, refcount := (st.tasks n).refcount - 1 }) ∧
        (∀ a, a ∉ q → st1.tasks a = st.tasks a) ∧
        st1.g = st.g ∧
        st1.trace = st.trace ++ [Event.switch_context source (st.schedulers s).fiber]
  | [], fuel, st, hq, _, hlen => by
    obtain ⟨fuel, rfl⟩ : ∃ k, fuel = k + 1 := ⟨fuel - 1, by simp at hlen; omega⟩
    refine ⟨st.emit (Event.switch_context source (st.schedulers s).fiber), ?_,
      ⟨hq.chain, hq.last_eq, hq.nodup⟩, by simp, fun n hn => by simp at hn, fun _ _ => rfl, rfl,
      rfl⟩
    unfold suspend_loop
    simp only [hq.first_nil.1]
  | n :: q, fuel, st, hq, hnone, hlen => by
    obtain ⟨fuel, rfl⟩ : ∃ k, fuel = k + 1 := ⟨fuel - 1, by simp at hlen; omega⟩
    have hf := hq.first_cons
    have hnd := hq.nodup
    rw [List.nodup_cons] at hnd
    have hsp := pass_release_spec st s source n hf (hnone n (List.mem_cons_self n q))
    have hq3 := pass_isQueue st s source n q hq
    have hih := suspend_loop_drain source q fuel (dispatcher_pass st s source) hq3
      (fun a ha => by
        have hane : a ≠ n := fun e => hnd.1 (e ▸ ha)
        rw [hsp.2.2.1 a hane]
        exact hnone a (List.mem_cons_of_mem n ha))
      (by simp only [List.length_cons] at hlen; omega)
    obtain ⟨st1, h1, h2, h3, h4, h5, h6, h7⟩ := hih
    refine ⟨st1, ?_, h2, ?_, fun a ha => ?_, fun a ha => ?_, by rw [h6, hsp.2.2.2.2.2], ?_⟩
    · unfold suspend_loop
      simp only [hf, hsp.1]
      rw [← dispatcher_pass_of_release st s source n hf hsp.1]
      exact h1
    · rw [h3, pass_schedulers st s source n hf s, if_pos rfl]
      simp only [List.length_cons]
      push_cast
      ring
    · rcases List.mem_cons.mp ha with e | hmem
      · subst e
        rw [h5 a hnd.1, hsp.2.1]
      · have hane : a ≠ n := fun e => hnd.1 (e ▸ hmem)
        rw [h4 a hmem, hsp.2.2.1 a hane]
    · have hane : a ≠ n := fun e => ha (e ▸ List.mem_cons_self a q)
      rw [h5 a (fun h => ha (List.mem_cons_of_mem n h)), hsp.2.2.1 a hane]
    · rw [h7, hsp.2.2.2.1, pass_schedulers st s source n hf s, if_pos rfl]


/-- What the entry of the dispatcher keeps: status, native context and
operation tag of every task, the trace, and the queue fields and fiber of the
scheduler. -/
theorem suspend_entry_keeps (st : State) (task : Option TaskId) (s : SchedId) :
    (∀ a, ((suspend_entry st task s).tasks a).status = (st.tasks a).status ∧
      ((suspend_entry st task s).tasks a).fiber = (st.tasks a).fiber ∧
      ((suspend_entry st task s).tasks a).operation = (st.tasks a).operation) ∧
    (suspend_entry st task s).trace = st.trace ∧
    ((suspend_entry st task s).schedulers s).fiber = (st.schedulers s).fiber ∧
    ((suspend_entry st task s).schedulers s).scheduled = (st.schedulers s).scheduled ∧
    (suspend_entry st task s).contexts = st.contexts := by
  unfold suspend_entry
  cases (st.schedulers s).current with
  | none => exact ⟨fun a => ⟨rfl, rfl, rfl⟩, rfl, by simp [heapSet_apply], by simp [heapSet_apply], rfl⟩
  | some c =>
    refine ⟨fun a => ⟨(OBJ_RELEASE_keeps st c a).1, (OBJ_RELEASE_keeps st c a).2.1,
      (OBJ_RELEASE_keeps st c a).2.2.1⟩, rfl, ?_, ?_, rfl⟩ <;>
    simp [heapSet_apply, OBJ_RELEASE]

/-- A list either satisfies a property everywhere or splits at its first
element that does not. -/
theorem list_first_split {α : Type} (P : α → Prop) :
    ∀ q : List α, (∀ n ∈ q, P n) ∨
      ∃ nones t rest, q = nones ++ t :: rest ∧ (∀ n ∈ nones, P n) ∧ ¬ P t
  | [] => Or.inl (fun n hn => by simp at hn)
  | a :: q => by
    by_cases ha : P a
    · rcases list_first_split P q with h | ⟨nones, t, rest, h1, h2, h3⟩
      · left
        intro n hn
        rcases List.mem_cons.mp hn with e | hm
        · rw [e]; exact ha
        · exact h n hm
      · right
        refine ⟨a :: nones, t, rest, by rw [h1]; rfl, fun n hn => ?_, h3⟩
        rcases List.mem_cons.mp hn with e | hm
        · rw [e]; exact ha
        · exact h2 n hm
    · exact Or.inr ⟨[], a, q, rfl, fun n hn => by simp at hn, ha⟩

/-- C23. Dispatcher step: one call of `concurrent_task_scheduler_suspend` on a
non-empty queue `q` returns; it pops a non-empty prefix `popped` of the queue
and decrements `scheduled` once per popped task.  Every popped task whose
operation is `NONE` loses one reference (its queue reference), keeps its
status and is not the task switched into.  A popped task whose operation is
`START` or `RESUME` is the last one popped and the target of the switch; it has
operation `NONE` and status `RUNNING` afterwards and is the thread-local
current fiber.  The call adds exactly one context switch to the trace, into the
target.  If every queued task has operation `NONE`, the whole queue is popped
and the switch goes to the scheduler's own fiber. -/
theorem dispatcher_step (fuel : Nat) (st : State) (task : Option TaskId) (s : SchedId)
    (q : List TaskId) (hq : IsQueue st s q) (hne : q ≠ []) (hfuel : q.length < fuel) :
    ∃ (st1 : State) (target : Option TaskId) (popped rest : List TaskId),
      concurrent_task_scheduler_suspend fuel st task s = some (st1, target) ∧
      q = popped ++ rest ∧ popped ≠ [] ∧ IsQueue st1 s rest ∧
      (st1.schedulers s).scheduled = (st.schedulers s).scheduled - popped.length ∧
      (∀ n ∈ popped, (st.tasks n).operation = task_operation.NONE →
        (st1.tasks n).refcount = ((suspend_entry st task s).tasks n).refcount - 1 ∧
        (st1.tasks n).status = (st.tasks n).status ∧ target ≠ some n) ∧
      (∀ t ∈ popped, (st.tasks t).operation ≠ task_operation.NONE →
        target = some t ∧ popped.getLast? = some t ∧
        (st1.tasks t).operation = task_operation.NONE ∧
        (st1.tasks t).status = fiber_status.RUNNING ∧ st1.g.current_fiber = some t) ∧
      (∀ t, target = some t → t ∈ popped ∧ (st.tasks t).operation ≠ task_operation.NONE) ∧
      st1.trace = st.trace ++
        [Event.switch_context
          (suspend_source st task s) (suspend_target st st1 target s)] ∧
      ((∀ n ∈ q, (st.tasks n).operation = task_operation.NONE) →
        target = none ∧ popped = q ∧ rest = []) := by
  have hk := suspend_entry_keeps st task s
  have hqe : IsQueue (suspend_entry st task s) s q := hq.frame (suspend_entry_frame s st task)
  have hsrc : concurrent_task_scheduler_suspend fuel st task s
      = suspend_loop s (suspend_source st task s) fuel (suspend_entry st task s) := by
    rw [suspend_eq]
    cases task with
    | none => exact congrArg (fun x => suspend_loop s x fuel _) hk.2.2.1
    | some t => exact congrArg (fun x => suspend_loop s x fuel _) (hk.1 t).2.1
  rw [hsrc]
  rcases list_first_split (fun n => (st.tasks n).operation = task_operation.NONE) q with
    hall | ⟨nones, t, rest, hsplit, hnones, ht⟩
  · obtain ⟨st1, h1, h2, h3, h4, h5, h6, h7⟩ := suspend_loop_drain
      (suspend_source st task s) q fuel (suspend_entry st task s) hqe
      (fun n hn => by rw [(hk.1 n).2.2]; exact hall n hn) hfuel
    refine ⟨st1, none, q, [], h1, by simp, hne, h2, by rw [h3, hk.2.2.2.1], fun n hn _ => ?_,
      (fun t ht hop => absurd (hall t ht) hop), (fun t ht => by cases ht), ?_,
      fun _ => ⟨rfl, rfl, rfl⟩⟩
    · rw [h4 n hn]
      exact ⟨rfl, (hk.1 n).1, by simp⟩
    · rw [h7, hk.2.1, hk.2.2.1]
      rfl
  · subst hsplit
    have hnd := hq.nodup
    have hlen : nones.length < fuel := by
      simp only [List.length_append, List.length_cons] at hfuel
      omega
    obtain ⟨st1, h1, h2, h3, h4, h5, h6, h7, h8, h9, h10, h11, h12⟩ := suspend_loop_switch
      (suspend_source st task s) t rest nones fuel (suspend_entry st task s) hqe
      (fun n hn => by rw [(hk.1 n).2.2]; exact hnones n hn)
      (by rw [(hk.1 t).2.2]; exact ht) hlen
    have ht_nones : t ∉ nones := by
      intro hmem
      exact ht (hnones t hmem)
    refine ⟨st1, some t, nones ++ [t], rest, h1, by simp, by simp, h2, ?_, fun n hn hop => ?_,
      fun a ha hop => ?_, fun a ha => ?_, by rw [h12, hk.2.1]; rfl, fun hall => ?_⟩
    · rw [h3, hk.2.2.2.1]
      simp
    · have hn2 : n ∈ nones := by
        rcases List.mem_append.mp hn with h | h
        · exact h
        · simp only [List.mem_singleton] at h
          rw [h] at hop
          exact absurd hop ht
      rw [h4 n hn2]
      refine ⟨rfl, (hk.1 n).1, fun e => ?_⟩
      cases e
      exact ht_nones hn2
    · have hat : a = t := by
        rcases List.mem_append.mp ha with h | h
        · exact absurd (hnones a h) hop
        · simpa using h
      subst hat
      exact ⟨rfl, by simp, h5, h6, h11⟩
    · cases ha
      exact ⟨by simp, ht⟩
    · exact absurd (hall t (by simp)) ht

/-- The step of C23 on the example: task 3 yields while the queue holds the
inlined task 2 followed by task 1, which waits for its resumption. -/
theorem dispatcher_step_witness :
    ∃ (st1 : State) (target : Option TaskId) (popped rest : List TaskId),
      concurrent_task_scheduler_suspend 10 exampleSettled (some 3) 0 = some (st1, target) ∧
      [2, 1] = popped ++ rest ∧ popped ≠ [] ∧ IsQueue st1 0 rest ∧
      (st1.schedulers 0).scheduled = (exampleSettled.schedulers 0).scheduled - popped.length ∧
      (∀ n ∈ popped, (exampleSettled.tasks n).operation = task_operation.NONE →
        (st1.tasks n).refcount = ((suspend_entry exampleSettled (some 3) 0).tasks n).refcount - 1 ∧
        (st1.tasks n).status = (exampleSettled.tasks n).status ∧ target ≠ some n) ∧
      (∀ t ∈ popped, (exampleSettled.tasks t).operation ≠ task_operation.NONE →
        target = some t ∧ popped.getLast? = some t ∧
        (st1.tasks t).operation = task_operation.NONE ∧
        (st1.tasks t).status = fiber_status.RUNNING ∧ st1.g.current_fiber = some t) ∧
      (∀ t, target = some t →
        t ∈ popped ∧ (exampleSettled.tasks t).operation ≠ task_operation.NONE) ∧
      st1.trace = exampleSettled.trace ++
        [Event.switch_context (suspend_source exampleSettled (some 3) 0)
          (suspend_target exampleSettled st1 target 0)] ∧
      ((∀ n ∈ [2, 1], (exampleSettled.tasks n).operation = task_operation.NONE) →
        target = none ∧ popped = [2, 1] ∧ rest = []) :=
  dispatcher_step 10 exampleSettled (some 3) 0 [2, 1] ⟨by decide, by decide, by decide⟩
    (by decide) (by decide)

/-- The example of C23 evaluated: the dispatcher drops the inlined task 2,
which keeps the status `FINISHED`, and resumes task 1. -/
theorem resume_after_inlined_example :
    (concurrent_task_scheduler_suspend 10 exampleSettled (some 3) 0).map Prod.snd
      = some (some 1) ∧
    (exampleSettled.tasks 2).operation = task_operation.NONE ∧
    (exampleSettled.tasks 1).operation = task_operation.RESUME ∧
    (exampleResumed.tasks 2).status = fiber_status.FINISHED ∧
    (exampleResumed.tasks 2).refcount + 1 = (exampleSettled.tasks 2).refcount ∧
    (exampleResumed.tasks 1).status = fiber_status.RUNNING ∧
    (exampleResumed.schedulers 0).first = none ∧
    (exampleResumed.schedulers 0).scheduled = 0 := by
  refine ⟨by decide, by decide, by decide, by decide, by decide, by decide, by decide, by decide⟩


/-! ## C22: when the activator fires -/

theorem hook_schedulers (st : State) (s : SchedId) (cb : Nat) (b : SchedId) :
    (TaskScheduler_activator st s cb).schedulers b =
      if b = s then { st.schedulers s with activator_fci := some cb, activator := true }
      else st.schedulers b := by
  by_cases hb : b = s
  · subst hb
    cases ha : (st.schedulers b).activator <;>
      simp [TaskScheduler_activator, Z_TRY_ADDREF, zval_ptr_dtor, heapSet_apply, ha]
  · cases ha : (st.schedulers s).activator <;>
      simp [TaskScheduler_activator, Z_TRY_ADDREF, zval_ptr_dtor, heapSet_apply, ha, hb]

theorem hook_rest (st : State) (s : SchedId) (cb : Nat) :
    (TaskScheduler_activator st s cb).tasks = st.tasks ∧
    (TaskScheduler_activator st s cb).trace = st.trace ∧
    (TaskScheduler_activator st s cb).g = st.g := by
  cases ha : (st.schedulers s).activator <;>
    simp [TaskScheduler_activator, Z_TRY_ADDREF, zval_ptr_dtor, heapSet_apply, ha]

/-- An enqueue keeps the guard: when it fires the activator it clears
`activate`, and otherwise it leaves the three flags as they are. -/
theorem activatorGuard_enqueue (s : SchedId) (st : State) (task : TaskId)
    (h : ActivatorGuard s st) : ActivatorGuard s (concurrent_task_scheduler_enqueue st task).1 := by
  cases hs : (st.tasks task).scheduler with
  | none => rw [enqueue_rejected_eq st task (Or.inl hs)]; exact h
  | some s2 =>
    cases ho : enqueue_operation (st.tasks task).status with
    | none => rw [enqueue_rejected_eq st task (Or.inr ho)]; exact h
    | some o =>
      unfold ActivatorGuard
      rw [enqueue_schedulers st task s2 o hs ho s]
      by_cases he : s = s2
      · subst he
        rw [if_pos rfl]
        intro h1 h2 h3
        exfalso
        have h1b : (st.schedulers s).activator = true := h1
        have h3b : (st.schedulers s).running = false := h3
        have h2b : (if activator_fires (st.schedulers s) then false
            else (st.schedulers s).activate) = true := h2
        by_cases hf : activator_fires (st.schedulers s) = true
        · rw [if_pos hf] at h2b
          cases h2b
        · rw [if_neg hf] at h2b
          apply hf
          simp [activator_fires, h1b, h2b, h3b]
      · simp only [if_neg he]
        exact h

theorem activatorGuard_frame (s : SchedId) (st st2 : State) (hf : ActivatorFrame s st st2)
    (h : ActivatorGuard s st) : ActivatorGuard s st2 := by
  unfold ActivatorGuard
  rw [hf.1, hf.2.1, hf.2.2.1, hf.2.2.2]
  exact h

theorem activatorGuard_steps {s : SchedId} {st st2 : State} (hs : ActivatorSteps s st st2) :
    ActivatorGuard s st → ActivatorGuard s st2 := by
  induction hs with
  | refl => exact id
  | enqueue task _ ih => exact fun h => activatorGuard_enqueue s _ task (ih h)
  | hook cb _ hpre ih =>
    intro _
    unfold ActivatorGuard
    rw [hook_schedulers, if_pos rfl]
    exact fun _ h2 h3 => hpre h2 h3
  | other _ hf ih => exact fun h => activatorGuard_frame s _ _ hf (ih h)

theorem activatorGuard_pass (s : SchedId) (st : State) (source : Option FiberContext)
    (h : ActivatorGuard s st) : ActivatorGuard s (dispatcher_pass st s source) := by
  cases hf : (st.schedulers s).first with
  | none =>
    rw [pass_empty st s source hf]
    exact fun h1 h2 h3 => h h1 h2 h3
  | some t =>
    unfold ActivatorGuard
    rw [pass_schedulers st s source t hf s, if_pos rfl]
    intro h1 h2 h3
    have := h h1 h2 h3
    rw [hf] at this
    cases this

theorem activatorGuard_run_enter (s : SchedId) (st : State) :
    ActivatorGuard s (run_enter st s) := by
  intro _ _ h3
  rw [(run_enter_dispatching st s).1] at h3
  cases h3

theorem suspend_entry_schedulers (st : State) (task : Option TaskId) (s : SchedId) :
    (suspend_entry st task s).schedulers s = { st.schedulers s with current := task } := by
  unfold suspend_entry
  cases (st.schedulers s).current <;> simp [OBJ_RELEASE, heapSet_apply]

theorem run_leave_first (st : State) (s : SchedId) (fiber : Option TaskId)
    (prev : Option SchedId) :
    ((run_leave st s fiber prev).state.schedulers s).first = (st.schedulers s).first ∧
    ((run_leave st s fiber prev).state.schedulers s).activator = (st.schedulers s).activator := by
  unfold run_leave
  cases hc : (st.schedulers s).current <;> cases hfat : st.g.fatal <;>
    simp [hc, hfat, run_result.state, OBJ_RELEASE, heapSet_apply]

theorem ActivatorReachable.guard {s : SchedId} {st : State} (h : ActivatorReachable s st) :
    ActivatorGuard s st := by
  induction h with
  | fresh st h0 =>
    intro _ _ _
    rw [h0]
    rfl
  | user _ hs ih => exact activatorGuard_steps hs ih
  | run slice fuel r _ hslice hr ih =>
    refine run_preserves (ActivatorGuard s) (fun st _ => activatorGuard_run_enter s st)
      (fun st task hp => ?_) (fun st source hp => activatorGuard_pass s st source hp)
      (fun st fiber prev _ hf => ?_) slice (fun t st hp => activatorGuard_steps (hslice t st) hp)
      fuel _ r ih hr
    · unfold ActivatorGuard
      rw [suspend_entry_schedulers]
      exact hp
    · intro _ _ _
      rw [(run_leave_first st s fiber prev).1]
      exact hf


/-- An enqueue that appends the activator call to the trace found the three
flags in the firing position. -/
theorem enqueue_fired (st : State) (task : TaskId) (s : SchedId)
    (hs : (st.tasks task).scheduler = some s)
    (h : (concurrent_task_scheduler_enqueue st task).1.trace
      = st.trace ++ [Event.activator_call s]) :
    activator_fires (st.schedulers s) = true := by
  cases ho : enqueue_operation (st.tasks task).status with
  | none =>
    rw [enqueue_rejected_eq st task (Or.inr ho)] at h
    simp at h
  | some o =>
    rw [enqueue_trace st task s o hs ho] at h
    by_cases hf : activator_fires (st.schedulers s) = true
    · exact hf
    · rw [if_neg hf] at h
      simp at h

/-- C22, the claim as stated fails.  On the fresh scheduler 0, `task()`
enqueues task 1 (no activator is registered, so the `activate` flag stays
set), then `activator(5)` registers a callable.  The queue now holds task 1 and
the scheduler is not running, and the enqueue of task 2 is accepted and calls
the activator. -/
theorem activator_fires_on_nonempty_queue :
    IsQueue exampleLateActivator 0 [1] ∧
    (exampleLateActivator.schedulers 0).first = some 1 ∧
    (exampleLateActivator.schedulers 0).running = false ∧
    (concurrent_task_scheduler_enqueue exampleLateActivator 2).2 = true ∧
    (concurrent_task_scheduler_enqueue exampleLateActivator 2).1.trace
      = exampleLateActivator.trace ++ [Event.activator_call 0] :=
  ⟨⟨by decide, by decide, by decide⟩, by decide, by decide, by decide, by decide⟩

/-- C22 (amended).  Whenever an enqueue on scheduler `s` calls the activator,
the activator was registered, the `activate` flag was set and the scheduler was
not running immediately before.  In the states reachable from the creation of
the scheduler by enqueues, complete runs, code that leaves the queue head and
the three flags alone, and registrations of the activator made while the
scheduler is running, has `activate` cleared or has an empty queue, the queue
was moreover empty (`first` null) immediately before, and an enqueue into a
queue that holds a task does not call the activator. -/
theorem activator_fires_on_empty (s : SchedId) (st : State) (task : TaskId)
    (hs : (st.tasks task).scheduler = some s) :
    ((concurrent_task_scheduler_enqueue st task).1.trace
        = st.trace ++ [Event.activator_call s] →
      (st.schedulers s).activator = true ∧ (st.schedulers s).activate = true ∧
      (st.schedulers s).running = false) ∧
    (ActivatorReachable s st →
      ((concurrent_task_scheduler_enqueue st task).1.trace
          = st.trace ++ [Event.activator_call s] →
        (st.schedulers s).first = none) ∧
      ((st.schedulers s).first ≠ none →
        (concurrent_task_scheduler_enqueue st task).1.trace = st.trace)) := by
  have hflags : activator_fires (st.schedulers s) = true →
      (st.schedulers s).activator = true ∧ (st.schedulers s).activate = true ∧
      (st.schedulers s).running = false := by
    intro hf
    simp only [activator_fires, Bool.and_eq_true, Bool.not_eq_true'] at hf
    exact ⟨hf.1.1, hf.1.2, hf.2⟩
  refine ⟨fun h => hflags (enqueue_fired st task s hs h), fun hr => ⟨fun h => ?_, fun hne => ?_⟩⟩
  · obtain ⟨h1, h2, h3⟩ := hflags (enqueue_fired st task s hs h)
    exact hr.guard h1 h2 h3
  · cases ho : enqueue_operation (st.tasks task).status with
    | none => rw [enqueue_rejected_eq st task (Or.inr ho)]
    | some o =>
      rw [enqueue_trace st task s o hs ho]
      by_cases hf : activator_fires (st.schedulers s) = true
      · obtain ⟨h1, h2, h3⟩ := hflags hf
        exact absurd (hr.guard h1 h2 h3) hne
      · rw [if_neg hf]

/-- C22 (amended) on the example: the activator is registered on the fresh
scheduler 0; the enqueue of task 1 calls it, on an empty queue, and the enqueue
of task 2 into the queue that holds task 1 does not. -/
theorem activator_fires_on_empty_witness :
    (concurrent_task_scheduler_enqueue exampleEarlyActivator 1).1.trace
      = exampleEarlyActivator.trace ++ [Event.activator_call 0] ∧
    (exampleEarlyActivator.schedulers 0).first = none ∧
    (exampleEarlyActivator.schedulers 0).running = false ∧
    ((concurrent_task_scheduler_enqueue exampleEarlyActivator 1).1.schedulers 0).first
      = some 1 ∧
    (concurrent_task_scheduler_enqueue
      (concurrent_task_scheduler_enqueue exampleEarlyActivator 1).1 2).1.trace
      = (concurrent_task_scheduler_enqueue exampleEarlyActivator 1).1.trace := by
  have h0 : ActivatorReachable 0 exampleEarlyActivator :=
    ActivatorReachable.user (ActivatorReachable.fresh exampleState rfl)
      (ActivatorSteps.hook 5 (ActivatorSteps.refl _) (fun _ _ => rfl))
  have h1 : ActivatorReachable 0 (concurrent_task_scheduler_enqueue exampleEarlyActivator 1).1 :=
    ActivatorReachable.user h0 (ActivatorSteps.enqueue 1 (ActivatorSteps.refl _))
  have hfire : (concurrent_task_scheduler_enqueue exampleEarlyActivator 1).1.trace
      = exampleEarlyActivator.trace ++ [Event.activator_call 0] := by decide
  have ha := activator_fires_on_empty 0 exampleEarlyActivator 1 (by decide)
  have hb := activator_fires_on_empty 0 (concurrent_task_scheduler_enqueue exampleEarlyActivator 1).1
    2 (by decide)
  exact ⟨hfire, (ha.2 h0).1 hfire, (ha.1 hfire).2.2, by decide, (hb.2 h1).2 (by decide)⟩


/-! ## C24: operation tag and status of queued tasks -/

/-- A pass of the dispatcher loop changes no task but the head it pops. -/
theorem pass_other_tasks (st : State) (s : SchedId) (source : Option FiberContext)
    (h a : TaskId) (hf : (st.schedulers s).first = some h) (ha : a ≠ h) :
    (dispatcher_pass st s source).tasks a = st.tasks a := by
  by_cases hop : (st.tasks h).operation = task_operation.NONE
  · exact (pass_release_spec st s source h hf hop).2.2.1 a ha
  · exact (pass_switch_spec st s source h hf hop).2.2.2.2.2.2.1 a ha

/-- Code that leaves the queue, the operation tags and the statuses alone
satisfies `StatusFrame`. -/
theorem statusFrame_of_same {s : SchedId} {st st2 : State} (hq : QueueFrame s st st2)
    (h : ∀ t, (st2.tasks t).operation = (st.tasks t).operation ∧
      (st2.tasks t).status = (st.tasks t).status) : StatusFrame s st st2 :=
  ⟨hq, fun t => Or.inl (h t)⟩

/-- The first step of the inline path, the clearing of the tag of a task that
has not started, satisfies `StatusFrame`. -/
theorem inline_call_state_statusFrame (s : SchedId) (st : State) (inner : TaskId)
    (hi : (st.tasks inner).status = fiber_status.INIT) :
    StatusFrame s st (inline_call_state st inner) := by
  refine ⟨⟨rfl, rfl, rfl, fun t => ?_⟩, fun t => ?_⟩
  · by_cases ht : t = inner
    · subst ht; simp [inline_call_state, heapSet_apply]
    · simp [inline_call_state, heapSet_apply, ht]
  · by_cases ht : t = inner
    · subst ht
      refine Or.inr (Or.inl ⟨hi, ?_, Or.inl ?_⟩)
      · simp [inline_call_state, heapSet_apply]
      · simp [inline_call_state, heapSet_apply, hi]
    · refine Or.inl ⟨?_, ?_⟩ <;> simp [inline_call_state, heapSet_apply, ht]

theorem enqueue_operation_status (status : fiber_status) (o : task_operation)
    (h : enqueue_operation status = some o) :
    (o = task_operation.START → status = fiber_status.INIT) ∧
    (o = task_operation.RESUME → status = fiber_status.SUSPENDED) ∧
    o ≠ task_operation.NONE := by
  cases status <;> simp [enqueue_operation] at h <;> subst h <;> simp

theorem consistent_frame {s : SchedId} {st st2 : State} (h : Consistent s st)
    (hf : StatusFrame s st st2) : Consistent s st2 := by
  obtain ⟨q, hq, hc⟩ := h
  refine ⟨q, hq.frame hf.1, fun t ht => ?_⟩
  rcases hf.2 t with ⟨h1, h2⟩ | ⟨_, h2, h3⟩ | h4
  · rw [h1, h2]
    exact hc t ht
  · rw [h2]
    exact ⟨(fun e => by cases e), (fun e => by cases e), fun _ => h3⟩
  · exact absurd ht (h4 q hq)

theorem consistent_enqueue {s : SchedId} {st : State} (h : Consistent s st) (task : TaskId)
    (he : Enqueueable s st task) : Consistent s (concurrent_task_scheduler_enqueue st task).1 := by
  obtain ⟨q, hq, hc⟩ := h
  obtain ⟨hs, hnext, hnq⟩ := he
  cases ho : enqueue_operation (st.tasks task).status with
  | none =>
    rw [enqueue_rejected_eq st task (Or.inr ho)]
    exact ⟨q, hq, hc⟩
  | some o =>
    refine ⟨q ++ [task], enqueue_isQueue st task s o q hs ho hq (hnq q hq) hnext,
      fun t ht => ?_⟩
    have hop : ((concurrent_task_scheduler_enqueue st task).1.tasks t).operation
        = if t = task then o else (st.tasks t).operation := by
      rw [enqueue_tasks st task s o hs ho t]
    rw [(enqueue_keeps st task t).1, hop]
    by_cases hat : t = task
    · subst hat
      rw [if_pos rfl]
      have hos := enqueue_operation_status (st.tasks t).status o ho
      exact ⟨hos.1, hos.2.1, fun e => absurd e hos.2.2⟩
    · rw [if_neg hat]
      rcases List.mem_append.mp ht with hm | hm
      · exact hc t hm
      · simp only [List.mem_singleton] at hm
        exact absurd hm hat

theorem consistent_pass {s : SchedId} {st : State} (h : Consistent s st)
    (source : Option FiberContext) : Consistent s (dispatcher_pass st s source) := by
  obtain ⟨q, hq, hc⟩ := h
  cases q with
  | nil =>
    rw [pass_empty st s source hq.first_nil.1]
    exact ⟨[], ⟨hq.chain, hq.last_eq, hq.nodup⟩, hc⟩
  | cons a q =>
    refine ⟨q, pass_isQueue st s source a q hq, fun t ht => ?_⟩
    have hnd := hq.nodup
    rw [List.nodup_cons] at hnd
    have hta : t ≠ a := fun e => hnd.1 (e ▸ ht)
    rw [pass_other_tasks st s source a t hq.first_cons hta]
    exact hc t (List.mem_cons_of_mem a ht)

theorem consistent_steps {s : SchedId} {st st2 : State} (h : Consistent s st)
    (hu : StatusSteps s st st2) : Consistent s st2 := by
  induction hu with
  | refl => exact h
  | enqueue task _ he ih => exact consistent_enqueue ih task he
  | other _ hf ih => exact consistent_frame ih hf

theorem run_enter_tasks (st : State) (s : SchedId) : (run_enter st s).tasks = st.tasks := by
  unfold run_enter
  cases st.g.current_fiber with
  | some fiber => rfl
  | none =>
    cases st.g.root with
    | some r => rfl
    | none => rfl

theorem run_leave_keeps (st : State) (s : SchedId) (fiber : Option TaskId)
    (prev : Option SchedId) (t : TaskId) :
    ((run_leave st s fiber prev).state.tasks t).operation = (st.tasks t).operation ∧
    ((run_leave st s fiber prev).state.tasks t).status = (st.tasks t).status := by
  unfold run_leave
  cases hc : (st.schedulers s).current <;> cases hfat : st.g.fatal
  · simp [hc, hfat, run_result.state]
  · simp [hc, hfat, run_result.state]
  · simp only [hc, hfat, run_result.state, setSched_tasks, setTask_g, setSched_g]
    exact ⟨(OBJ_RELEASE_keeps _ _ t).2.2.1, (OBJ_RELEASE_keeps _ _ t).1⟩
  · simp only [hc, hfat, run_result.state, setSched_tasks, setTask_g, setSched_g]
    exact ⟨(OBJ_RELEASE_keeps _ _ t).2.2.1, (OBJ_RELEASE_keeps _ _ t).1⟩

theorem StatusReachable.consistent {s : SchedId} {st : State} (h : StatusReachable s st) :
    Consistent s st := by
  induction h with
  | fresh st hfresh =>
    refine ⟨[], ⟨?_, ?_, List.nodup_nil⟩, fun t ht => by simp at ht⟩
    · show (st.schedulers s).first = none
      rw [hfresh]; rfl
    · show (st.schedulers s).last = none
      rw [hfresh]; rfl
  | user _ hu ih => exact consistent_steps ih hu
  | pass source _ ih => exact consistent_pass ih source
  | run slice fuel r _ hslice hr ih =>
    refine run_preserves (Consistent s)
      (fun st hp => consistent_frame hp (statusFrame_of_same (run_enter_frame s st)
        (fun t => by rw [run_enter_tasks]; exact ⟨rfl, rfl⟩)))
      (fun st task hp => consistent_frame hp (statusFrame_of_same (suspend_entry_frame s st task)
        (fun t => ⟨((suspend_entry_keeps st task s).1 t).2.2,
          ((suspend_entry_keeps st task s).1 t).1⟩)))
      (fun st source hp => consistent_pass hp source)
      (fun st fiber prev hp hf => ?_) slice (fun t st hp => consistent_steps hp (hslice t st))
      fuel _ r ih hr
    obtain ⟨q, hq, hc⟩ := hp
    have hnil := isQueue_nil_of_first hq hf
    subst hnil
    exact consistent_frame ⟨[], hq, hc⟩
      (statusFrame_of_same (run_leave_frame s st fiber prev hq.first_nil.2)
        (fun t => run_leave_keeps st s fiber prev t))


theorem exampleQueued_statusReachable : StatusReachable 0 exampleQueued := by
  have h0 : StatusReachable 0 exampleState := StatusReachable.fresh exampleState rfl
  refine StatusReachable.user h0 ?_
  refine StatusSteps.enqueue 2 (StatusSteps.enqueue 1 (StatusSteps.refl _) ?_) ?_
  · exact enqueueable_of_isQueue [] ⟨by decide, by decide, by decide⟩ (by decide)
      (by decide) (by decide)
  · exact enqueueable_of_isQueue [1] ⟨by decide, by decide, by decide⟩ (by decide)
      (by decide) (by decide)

theorem exampleInlined_statusFrame : StatusFrame 0 exampleStarted exampleInlined := by
  refine ⟨exampleInlined_tagFrame.1, fun t => ?_⟩
  by_cases h1 : t = 1
  · subst h1; exact Or.inl ⟨by decide, by decide⟩
  by_cases h2 : t = 2
  · subst h2; exact Or.inr (Or.inl ⟨by decide, by decide, Or.inr (Or.inl (by decide))⟩)
  refine Or.inl ⟨?_, ?_⟩ <;>
    simp [exampleInlined, exampleStarted, exampleQueued, dispatcher_pass, Task_await,
      await_task, concurrent_task_execute_inline, concurrent_awaitable_trigger_continuation,
      concurrent_task_scheduler_enqueue, OBJ_RELEASE, GC_ADDREF, scheduler_pop,
      scheduler_dispatch, exampleState, exampleTask, exampleEnv, heapSet_apply,
      concurrent_task_scheduler_object_create, instanceof_awaitable,
      CONCURRENT_FIBER_TYPE_TASK, h1, h2]

theorem exampleInlined_statusReachable : StatusReachable 0 exampleInlined :=
  StatusReachable.user (StatusReachable.pass none exampleQueued_statusReachable)
    (StatusSteps.other (StatusSteps.refl _) exampleInlined_statusFrame)

/-- C24, the claim as stated fails.  Tasks 1 and 2 are enqueued, the dispatcher
starts task 1, and task 1 awaits the unstarted task 2, which is executed
inline: in the state in which the inline path invokes the callable of task 2,
task 2 is in the queue with operation `NONE` and status `INIT`, neither
`FINISHED` nor `DEAD`.  The same holds when the callable then awaits a pending
deferred and the dispatcher is entered: task 1 is suspended, the dispatcher
pops task 2 without switching into it, and task 2 still has status `INIT`. -/
theorem inlined_task_queued_unstarted :
    StatusReachable 0 exampleInlineCall ∧
    IsQueue exampleInlineCall 0 [2] ∧
    (exampleInlineCall.tasks 2).operation = task_operation.NONE ∧
    (exampleInlineCall.tasks 2).status = fiber_status.INIT ∧
    ¬ ((exampleInlineCall.tasks 2).status = fiber_status.FINISHED ∨
      (exampleInlineCall.tasks 2).status = fiber_status.DEAD) ∧
    IsQueue exampleInlineAwait 0 [2] ∧
    (exampleInlineAwait.tasks 1).status = fiber_status.SUSPENDED ∧
    (exampleInlineAwait.tasks 2).operation = task_operation.NONE ∧
    (exampleInlineAwait.tasks 2).status = fiber_status.INIT ∧
    (concurrent_task_scheduler_suspend 10 exampleInlineAwait (some 1) 0).map Prod.snd
      = some none ∧
    ((stepSuspend exampleInlineAwait (some 1)).tasks 2).status = fiber_status.INIT := by
  refine ⟨?_, ⟨by decide, by decide, by decide⟩, by decide, by decide, by decide,
    ⟨by decide, by decide, by decide⟩, by decide, by decide, by decide, by decide, by decide⟩
  exact StatusReachable.user (StatusReachable.pass none exampleQueued_statusReachable)
    (StatusSteps.other (StatusSteps.refl _)
      (inline_call_state_statusFrame 0 exampleStarted 2 (by decide)))

/-- C24 (amended).  In every state reachable from the creation of scheduler
`s` by enqueues of tasks that are not queued, passes of the dispatcher loop,
complete runs and code that satisfies `StatusFrame`, the queue of `s` is a list
in which every task with operation `START` has status `INIT`, every task with
operation `RESUME` has status `SUSPENDED`, and every task with operation `NONE`
has status `INIT` (while the inline path is executing it), `FINISHED` or
`DEAD`.  Therefore a pass of the dispatcher loop leaves the status of every
`FINISHED` or `DEAD` task as it is: it never moves such a task to `RUNNING`. -/
theorem queued_operation_status (s : SchedId) (st : State) (h : StatusReachable s st) :
    (∃ q, IsQueue st s q ∧
      ∀ t ∈ q,
        ((st.tasks t).operation = task_operation.START →
          (st.tasks t).status = fiber_status.INIT) ∧
        ((st.tasks t).operation = task_operation.RESUME →
          (st.tasks t).status = fiber_status.SUSPENDED) ∧
        ((st.tasks t).operation = task_operation.NONE →
          (st.tasks t).status = fiber_status.INIT ∨
            (st.tasks t).status = fiber_status.FINISHED ∨
            (st.tasks t).status = fiber_status.DEAD)) ∧
    (∀ (source : Option FiberContext) (t : TaskId),
      (st.tasks t).status = fiber_status.FINISHED ∨ (st.tasks t).status = fiber_status.DEAD →
      ((dispatcher_pass st s source).tasks t).status = (st.tasks t).status) := by
  have hc := h.consistent
  refine ⟨hc, fun source t hfin => ?_⟩
  obtain ⟨q, hq, hall⟩ := hc
  cases hf : (st.schedulers s).first with
  | none => rw [pass_empty st s source hf]; rfl
  | some a =>
    by_cases hta : t = a
    · subst hta
      by_cases hop : (st.tasks t).operation = task_operation.NONE
      · rw [(pass_release_spec st s source t hf hop).2.1]
      · exfalso
        obtain ⟨q2, hq2⟩ := isQueue_cons_of_first hq hf
        have ht := hall t (by rw [hq2]; exact List.mem_cons_self t q2)
        cases ho : (st.tasks t).operation with
        | NONE => exact hop ho
        | START =>
          have := ht.1 ho
          rcases hfin with e | e <;> rw [this] at e <;> cases e
        | RESUME =>
          have := ht.2.1 ho
          rcases hfin with e | e <;> rw [this] at e <;> cases e
    · rw [pass_other_tasks st s source a t hf hta]

/-- C24 (amended) on the example in which task 2 was executed inline while
queued: the queue holds task 2 with operation `NONE` and status `FINISHED`, and
the pass of the dispatcher that pops it leaves it `FINISHED`. -/
theorem queued_operation_status_witness :
    IsQueue exampleInlined 0 [2] ∧
    (exampleInlined.tasks 2).operation = task_operation.NONE ∧
    (exampleInlined.tasks 2).status = fiber_status.FINISHED ∧
    ((dispatcher_pass exampleInlined 0 none).tasks 2).status = fiber_status.FINISHED ∧
    ∃ q, IsQueue exampleInlined 0 q ∧
      ∀ t ∈ q,
        ((exampleInlined.tasks t).operation = task_operation.START →
          (exampleInlined.tasks t).status = fiber_status.INIT) ∧
        ((exampleInlined.tasks t).operation = task_operation.RESUME →
          (exampleInlined.tasks t).status = fiber_status.SUSPENDED) ∧
        ((exampleInlined.tasks t).operation = task_operation.NONE →
          (exampleInlined.tasks t).status = fiber_status.INIT ∨
            (exampleInlined.tasks t).status = fiber_status.FINISHED ∨
            (exampleInlined.tasks t).status = fiber_status.DEAD) := by
  have h := queued_operation_status 0 exampleInlined exampleInlined_statusReachable
  have h2 := h.2 none 2 (Or.inl (by decide))
  refine ⟨⟨by decide, by decide, by decide⟩, by decide, by decide, ?_, h.1⟩
  rw [h2]
  decide


/-! ## C25: the `activate` flag and a nested `run` -/

/-- A pass of the dispatcher loop keeps the flags of the scheduler. -/
theorem pass_flags (st : State) (s : SchedId) (source : Option FiberContext) :
    ((dispatcher_pass st s source).schedulers s).running = (st.schedulers s).running ∧
    ((dispatcher_pass st s source).schedulers s).activate = (st.schedulers s).activate ∧
    ((dispatcher_pass st s source).schedulers s).activator = (st.schedulers s).activator := by
  cases hf : (st.schedulers s).first with
  | none => rw [pass_empty st s source hf]; exact ⟨rfl, rfl, rfl⟩
  | some t => rw [pass_schedulers st s source t hf s, if_pos rfl]; exact ⟨rfl, rfl, rfl⟩

/-- An enqueue leaves the flag `running` alone. -/
theorem enqueue_running (st : State) (task : TaskId) (s : SchedId) :
    ((concurrent_task_scheduler_enqueue st task).1.schedulers s).running
      = (st.schedulers s).running := by
  cases hs : (st.tasks task).scheduler with
  | none => rw [enqueue_rejected_eq st task (Or.inl hs)]
  | some s2 =>
    cases ho : enqueue_operation (st.tasks task).status with
    | none => rw [enqueue_rejected_eq st task (Or.inr ho)]
    | some o =>
      rw [enqueue_schedulers st task s2 o hs ho s]
      by_cases he : s = s2
      · subst he; rw [if_pos rfl]
      · rw [if_neg he]

theorem idleInv_enqueue {s : SchedId} {b : Bool} {st : State} (h : IdleInv s b st)
    (task : TaskId) (he : Enqueueable s st task) :
    IdleInv s b (concurrent_task_scheduler_enqueue st task).1 := by
  refine ⟨wellFormed_enqueue h.1 task he, fun hb => ?_, ?_⟩
  · rw [enqueue_running]
    exact h.2.1 hb
  obtain ⟨q, hq, _⟩ := h.1
  obtain ⟨hs, hnext, hnq⟩ := he
  cases ho : enqueue_operation (st.tasks task).status with
  | none =>
    rw [enqueue_rejected_eq st task (Or.inr ho)]
    exact h.2.2
  | some o =>
    intro _ _
    have hq2 := enqueue_isQueue st task s o q hs ho hq (hnq q hq) hnext
    cases q with
    | nil =>
      have := hq2.first_cons
      rw [this]
      simp
    | cons a q =>
      have := hq2.first_cons
      rw [this]
      simp

theorem idleInv_frame {s : SchedId} {b : Bool} {st st2 : State} (h : IdleInv s b st)
    (hf : IdleFrame s st st2) : IdleInv s b st2 := by
  refine ⟨wellFormed_frame h.1 hf.1, ?_, ?_⟩
  · rw [hf.2.2]
    exact h.2.1
  · rw [hf.2.1, hf.2.2, hf.1.1]
    exact h.2.2

theorem IdleReachable.inv {s : SchedId} {b : Bool} {st : State} (h : IdleReachable s b st) :
    IdleInv s b st := by
  induction h with
  | fresh st hfresh =>
    refine ⟨(Reachable.fresh st hfresh).wellFormed, (fun hb => by cases hb), fun _ ha => ?_⟩
    rw [hfresh] at ha
    cases ha
  | enqueue task _ he ih => exact idleInv_enqueue ih task he
  | other _ hf ih => exact idleInv_frame ih hf
  | enter _ _ ih =>
    refine ⟨wellFormed_frame ih.1 (run_enter_frame s _), fun _ => (run_enter_dispatching _ s).1,
      fun hr => ?_⟩
    rw [(run_enter_dispatching _ s).1] at hr
    cases hr
  | pass source _ ih =>
    have hrun := ih.2.1 rfl
    refine ⟨wellFormed_pass ih.1 source, fun _ => ?_, fun hr => ?_⟩
    · rw [(pass_flags _ s source).1]
      exact hrun
    · rw [(pass_flags _ s source).1, hrun] at hr
      cases hr
  | leave fiber prev _ hfirst ih =>
    obtain ⟨q, hq, hn⟩ := ih.1
    have hnil := isQueue_nil_of_first hq hfirst
    subst hnil
    refine ⟨wellFormed_frame ⟨[], hq, hn⟩ (run_leave_frame s _ fiber prev hq.first_nil.2),
      (fun hb => by cases hb), fun _ ha => ?_⟩
    rw [(run_leave_fields _ s fiber prev).2.1] at ha
    cases ha
  | run slice fuel r _ hslice hr ih =>
    refine ⟨wellFormed_run slice hslice fuel _ r ih.1 hr, (fun hb => by cases hb), ?_⟩
    unfold TaskScheduler_run at hr
    split at hr
    · cases hr
      exact ih.2.2
    · split at hr
      · cases hr
      · cases hr
        intro _ ha
        rw [(run_leave_fields _ s _ _).2.1] at ha
        cases ha

theorem exampleAfterRun_eq :
    TaskScheduler_run finishSlice 10 (concurrent_task_scheduler_enqueue exampleActivator 1).1 0
      = some (run_result.returned exampleAfterRun) := rfl

theorem finishSlice_userSteps (s : SchedId) (t : TaskId) (st : State) :
    UserSteps s st (finishSlice t st) := by
  refine UserSteps.other (UserSteps.refl st) ⟨rfl, rfl, rfl, fun a => ?_⟩
  by_cases ha : a = t
  · subst ha; simp [finishSlice, heapSet_apply]
  · simp [finishSlice, heapSet_apply, ha]

theorem exampleAfterRun_idleReachable : IdleReachable 0 false exampleAfterRun := by
  have h0 : IdleReachable 0 false exampleState := IdleReachable.fresh exampleState rfl
  have h1 : IdleReachable 0 false exampleActivator :=
    IdleReachable.other h0 ⟨⟨by decide, by decide, by decide, fun _ => rfl⟩, by decide, by decide⟩
  have h2 : IdleReachable 0 false (concurrent_task_scheduler_enqueue exampleActivator 1).1 :=
    IdleReachable.enqueue 1 h1
      (enqueueable_of_isQueue [] ⟨by decide, by decide, by decide⟩ (by decide) (by decide)
        (by decide))
  exact IdleReachable.run finishSlice 10 (run_result.returned exampleAfterRun) h2
    (finishSlice_userSteps 0) exampleAfterRun_eq

/-- Without a nested `run` the activation is kept.  In the histories of
`IdleReachable`, in which `run` is never called while a call of `run` on the
scheduler is in progress: a scheduler that is not flagged running and has
`activate` cleared has a task queued; one that is not flagged running and has
an empty queue has `activate` set; and the next enqueue of a task in status
`INIT` or `SUSPENDED` on such a scheduler with a registered activator is
accepted and calls the activator. -/
theorem activation_kept_without_nested_run (s : SchedId) (b : Bool) (st : State)
    (h : IdleReachable s b st) :
    ((st.schedulers s).running = false → (st.schedulers s).activate = false →
      (st.schedulers s).first ≠ none) ∧
    ((st.schedulers s).running = false → (st.schedulers s).first = none →
      (st.schedulers s).activate = true) ∧
    (∀ task : TaskId, (st.schedulers s).running = false → (st.schedulers s).first = none →
      (st.schedulers s).activator = true → (st.tasks task).scheduler = some s →
      ((st.tasks task).status = fiber_status.INIT ∨
        (st.tasks task).status = fiber_status.SUSPENDED) →
      (concurrent_task_scheduler_enqueue st task).2 = true ∧
      (concurrent_task_scheduler_enqueue st task).1.trace
        = st.trace ++ [Event.activator_call s]) := by
  have hinv := h.inv
  have hact : (st.schedulers s).running = false → (st.schedulers s).first = none →
      (st.schedulers s).activate = true := by
    intro hr hf
    cases ha : (st.schedulers s).activate with
    | true => rfl
    | false => exact absurd hf (hinv.2.2 hr ha)
  refine ⟨hinv.2.2, hact, fun task hr hf hreg hs hstatus => ?_⟩
  have ho : ∃ o, enqueue_operation (st.tasks task).status = some o := by
    rcases hstatus with e | e <;> rw [e] <;> simp [enqueue_operation]
  obtain ⟨o, ho⟩ := ho
  refine ⟨enqueue_result st task s o hs ho, ?_⟩
  rw [enqueue_trace st task s o hs ho]
  simp [activator_fires, hreg, hact hr hf, hr]

/-- The case without a nested `run` on the example: the enqueue of task 1
called the activator and cleared `activate`; after the complete `run` the
scheduler is idle with an empty queue, `activate` is set again, and the enqueue
of task 2 calls the activator once more. -/
theorem activation_kept_without_nested_run_example :
    ((concurrent_task_scheduler_enqueue exampleActivator 1).1.schedulers 0).activate = false ∧
    (exampleAfterRun.schedulers 0).running = false ∧
    (exampleAfterRun.schedulers 0).first = none ∧
    (exampleAfterRun.schedulers 0).activate = true ∧
    (concurrent_task_scheduler_enqueue exampleAfterRun 2).2 = true ∧
    (concurrent_task_scheduler_enqueue exampleAfterRun 2).1.trace
      = exampleAfterRun.trace ++ [Event.activator_call 0] := by
  have h := activation_kept_without_nested_run 0 false exampleAfterRun
    exampleAfterRun_idleReachable
  have hr : (exampleAfterRun.schedulers 0).running = false := by decide
  have hf : (exampleAfterRun.schedulers 0).first = none := by decide
  have h3 := h.2.2 2 hr hf (by decide) (by decide) (Or.inl (by decide))
  exact ⟨by decide, hr, hf, h.2.1 hr hf, h3.1, h3.2⟩

/-- C25.  A nested `run` loses the activation.  An activator is registered on
the fresh scheduler 0, tasks 1 and 2 are enqueued and `run` is called; the
dispatcher starts task 1 (the scheduler is flagged running, `activate` is
cleared, task 2 is queued).  Task 1 calls `run` on the scheduler: the call is
not refused, executes task 2 and returns with `running` cleared and `activate`
set although the outer call is still in progress.  Task 1 then enqueues task
3, which calls the activator and clears `activate`, and finishes; the outer
dispatcher pops and starts task 3.  In that state the scheduler is not flagged
running, its `activate` flag is cleared and its queue is empty, and the
enqueue of task 4 is accepted without a call of the registered activator. -/
theorem nested_run_loses_activation :
    ((exampleNestedEntry.schedulers 0).running = true ∧
      (exampleNestedEntry.schedulers 0).activate = false ∧
      exampleNestedEntry.g.current_fiber = some 1 ∧
      IsQueue exampleNestedEntry 0 [2]) ∧
    ((TaskScheduler_run finishSlice 10 exampleNestedEntry 0).isSome = true ∧
      (exampleNestedRun.tasks 2).status = fiber_status.FINISHED ∧
      (exampleNestedRun.schedulers 0).running = false ∧
      (exampleNestedRun.schedulers 0).activate = true ∧
      exampleNestedRun.g.current_fiber = some 1) ∧
    ((concurrent_task_scheduler_enqueue exampleNestedRun 3).2 = true ∧
      exampleNestedSpawn.trace = exampleNestedRun.trace ++ [Event.activator_call 0] ∧
      (exampleNestedSpawn.schedulers 0).activate = false ∧
      IsQueue exampleNestedSpawn 0 [3]) ∧
    ((concurrent_task_scheduler_suspend 10 (finishSlice 1 exampleNestedSpawn) (some 1) 0).map
        Prod.snd = some (some 3) ∧
      (exampleNestedLost.tasks 3).status = fiber_status.RUNNING ∧
      exampleNestedLost.g.current_fiber = some 3) ∧
    ((exampleNestedLost.schedulers 0).activator = true ∧
      (exampleNestedLost.schedulers 0).running = false ∧
      (exampleNestedLost.schedulers 0).activate = false ∧
      (exampleNestedLost.schedulers 0).first = none ∧
      (exampleNestedLost.schedulers 0).scheduled = 0) ∧
    ((exampleNestedLost.tasks 4).scheduler = some 0 ∧
      (exampleNestedLost.tasks 4).status = fiber_status.INIT ∧
      (concurrent_task_scheduler_enqueue exampleNestedLost 4).2 = true ∧
      (concurrent_task_scheduler_enqueue exampleNestedLost 4).1.trace
        = exampleNestedLost.trace) :=
  ⟨⟨by decide, by decide, by decide, ⟨by decide, by decide, by decide⟩⟩,
    ⟨by decide, by decide, by decide, by decide, by decide⟩,
    ⟨by decide, by decide, by decide, ⟨by decide, by decide, by decide⟩⟩,
    ⟨by decide, by decide, by decide⟩,
    ⟨by decide, by decide, by decide, by decide, by decide⟩,
    ⟨by decide, by decide, by decide, by decide⟩⟩

end Concurrent
